import Mathlib

/-!
# WorkZen client: chat synchronisation layer

A shallow embedding of the chat and notification code of the WorkZen browser client
(`src/utils/chatUtils.js`, `src/utils/socket.js`, `src/services/api.js`,
`src/components/chat/WhatsAppClone.jsx`, `src/components/chat/ChatDialog.jsx`,
`src/components/chat/ChatInput.jsx`, `src/Context/NotificationContext.jsx`)
and theorems about it.

Conventions of the embedding

* A JavaScript property that may be absent is an `Option`: `none` is `undefined`.
* A JavaScript computation that may throw is an `Except JsError`.
* A promise that settles is an `Except ApiError`: `.ok` is a resolution,
  `.error` a rejection.
* `createdAt` timestamps are natural numbers (milliseconds since the epoch).
* The wall clock (`new Date().toISOString()`) is a parameter `now`.
* Where timers matter, time is a natural number of milliseconds and the pending timers
  are part of the state.
-/

namespace WorkZen

/-! ## JavaScript values -/

/-- The exceptions the embedded code can raise. -/
inductive JsError where
  /-- Reading a property of `null` or `undefined`. -/
  | typeError
deriving DecidableEq, Repr

deriving instance DecidableEq for Except

/-- Truthiness of an optional string: `undefined` and the empty string are falsy. -/
def truthy : Option String → Bool
  | some s => s != ""
  | none => false

/-- The operator `a || b` on optional strings. -/
def jsOr (a b : Option String) : Option String :=
  if truthy a then a else b

/-- A populated user document, as it appears in `message.sender` and in
`participantDetails[i].user`. -/
structure UserObj where
  _id : Option String
  id : Option String
  name : Option String
  avatar : Option String
deriving DecidableEq, Repr

/-- A reference to a user: absent, `null`, a plain id string, or a populated object. -/
inductive Ref where
  | undef
  | null
  | str (s : String)
  | obj (u : UserObj)
deriving DecidableEq, Repr

/-- The test `typeof r === "object"`: true for objects and for `null`. -/
def Ref.isObject : Ref → Bool
  | .null => true
  | .obj _ => true
  | _ => false

/-- Truthiness of a user reference: absent, `null` and `""` are falsy. -/
def Ref.truthy : Ref → Bool
  | .undef => false
  | .null => false
  | .str s => s != ""
  | .obj _ => true

/-- The property read `r._id`: throws on `null` and `undefined`, is `undefined` on a
string. -/
def Ref.getId : Ref → Except JsError (Option String)
  | .undef => .error .typeError
  | .null => .error .typeError
  | .str _ => .ok none
  | .obj u => .ok u._id

/-- The guarded property read `r?.name`. -/
def Ref.nameOpt : Ref → Option String
  | .obj u => u.name
  | _ => none

/-! ## Data model -/

/-- One entry of `message.reactions`. -/
structure Reaction where
  user : Option String
  emoji : String
  createdAt : Nat
deriving DecidableEq, Repr

/-- One entry of `message.readBy`. -/
structure ReadReceipt where
  user : Option String
  readAt : Nat
deriving DecidableEq, Repr

/-- One entry of `message.deliveredTo`. -/
structure DeliveryReceipt where
  userId : Option String
  deliveredAt : Nat
deriving DecidableEq, Repr

/-- A chat message as the client holds it. -/
structure Message where
  _id : String
  content : String
  createdAt : Nat
  sender : Ref
  senderName : Option String
  isDeleted : Bool
  reactions : Option (List Reaction)
  readBy : Option (List ReadReceipt)
  deliveredTo : Option (List DeliveryReceipt)
deriving DecidableEq, Repr

/-- One entry of `chat.participantDetails`. -/
structure ParticipantDetail where
  user : Ref
  name : Option String
  avatar : Option String
  onlineStatus : Option String
deriving DecidableEq, Repr

/-- A populated entry of `chat.participants`. -/
structure ParticipantObj where
  _id : Option String
  name : Option String
  avatar : Option String
  isOnline : Bool
  onlineStatus : Option String
deriving DecidableEq, Repr

/-- One entry of `chat.participants`: a plain id or a populated object. -/
inductive Participant where
  | str (s : String)
  | obj (p : ParticipantObj)
deriving DecidableEq, Repr

/-- One entry of `chat.unreadCounts`. -/
structure UnreadEntry where
  user : Option String
  count : Nat
deriving DecidableEq, Repr

/-- A conversation as the client holds it in `chatList`. -/
structure Chat where
  _id : String
  participantDetails : Option (List ParticipantDetail)
  participants : Option (List Participant)
  displayName : Option String
  lastMessage : Option Message
  lastMessageAt : Option String
  unreadCount : Option Nat
  unreadCounts : Option (List UnreadEntry)
deriving DecidableEq, Repr

/-! ## `src/utils/chatUtils.js` -/

/-- The method `Array.prototype.find` with a callback that may throw: the callback
runs on the elements in order until it returns true, and an exception it raises
escapes. -/
def jsFind {α : Type} (pred : α → Except JsError Bool) : List α → Except JsError (Option α)
  | [] => .ok none
  | p :: ps =>
    match pred p with
    | .error e => .error e
    | .ok true => .ok (some p)
    | .ok false => jsFind pred ps

/-- The test `!chat?.participantDetails?.length`. -/
def noParticipantDetails (chat : Option Chat) : Bool :=
  match chat with
  | none => true
  | some c =>
    match c.participantDetails with
    | none => true
    | some ds => ds.isEmpty

/-- The sender id computed by `getMessageParticipantNames`:
`typeof sender === "object" ? (sender._id || sender.id) : sender`. -/
def senderIdOf : Ref → Except JsError (Option String)
  | .undef => .ok none
  | .null => .error .typeError
  | .str s => .ok (some s)
  | .obj u => .ok (jsOr u._id u.id)

/-- The function `getMessageParticipantNames(chat, sender)`; the result is the pair
`(senderName, receiverName)`. -/
def getMessageParticipantNames (chat : Option Chat) (sender : Ref) :
    Except JsError (String × String) :=
  if noParticipantDetails chat then
    .ok ("Unknown Sender", "Unknown Receiver")
  else
    let details := ((chat.bind (·.participantDetails)).getD [])
    match senderIdOf sender with
    | .error e => .error e
    | .ok senderId =>
      match jsFind (fun p => (p.user.getId).map (fun i => decide (i = senderId))) details with
      | .error e => .error e
      | .ok senderDetail =>
        match jsFind (fun p => (p.user.getId).map (fun i => decide (i ≠ senderId))) details with
        | .error e => .error e
        | .ok receiverDetail =>
          .ok ((jsOr (senderDetail.bind (·.user.nameOpt)) (some "Unknown Sender")).getD "Unknown Sender",
               (jsOr (receiverDetail.bind (·.user.nameOpt)) (some "Unknown Receiver")).getD
                 "Unknown Receiver")

/-- The spread `{ ...sender, name: senderName }` of an object-typed sender; spreading
`null` gives the empty object. -/
def withName (sender : Ref) (senderName : String) : UserObj :=
  match sender with
  | .obj u => { u with name := some senderName }
  | _ => { _id := none, id := none, name := some senderName, avatar := none }

/-- The body of the `map` callback of `updateMessageDisplay`. -/
def displayOne (chat : Option Chat) (message : Message) : Except JsError Message :=
  match getMessageParticipantNames chat message.sender with
  | .error e => .error e
  | .ok (senderName, _) =>
    if message.sender.isObject then
      .ok { message with sender := .obj (withName message.sender senderName) }
    else
      .ok { message with senderName := some senderName }

/-- The method `Array.prototype.map` with a callback that may throw. -/
def jsMap {α β : Type} (f : α → Except JsError β) : List α → Except JsError (List β)
  | [] => .ok []
  | a :: as =>
    match f a with
    | .error e => .error e
    | .ok b =>
      match jsMap f as with
      | .error e => .error e
      | .ok bs => .ok (b :: bs)

/-- The function `updateMessageDisplay(messages, chat)`. -/
def updateMessageDisplay (messages : List Message) (chat : Option Chat) :
    Except JsError (List Message) :=
  if messages.isEmpty || noParticipantDetails chat then
    .ok messages
  else
    jsMap (displayOne chat) messages

/-- The message stored as `lastMessage` by `updateChatListWithMessage`. -/
def previewMessage (chat : Chat) (message : Message) : Except JsError Message :=
  if message.sender.truthy then
    displayOne (some chat) message
  else
    .ok message

/-- The function
`updateChatListWithMessage(chatList, message, chatId, selectedChatId, isNotification)`.
The clock value written to `lastMessageAt` is the parameter `now`. -/
def updateChatListWithMessage (chatList : List Chat) (message : Message) (chatId : String)
    (selectedChatId : Option String) (isNotification : Bool) (now : String) :
    Except JsError (List Chat) :=
  let updatedChats := chatList
  match updatedChats.findIdx? (fun c => c._id == chatId) with
  | none => .ok updatedChats
  | some chatIndex =>
    match updatedChats[chatIndex]? with
    | none => .ok updatedChats
    | some chat =>
      match previewMessage chat message with
      | .error e => .error e
      | .ok updatedMessage =>
        let updatedChats := updatedChats.set chatIndex
          { chat with
            lastMessage := some updatedMessage
            lastMessageAt := some now
            unreadCount := some (if selectedChatId = some chatId then 0
              else chat.unreadCount.getD 0 + (if isNotification then 1 else 0)) }
        match updatedChats[chatIndex]? with
        | none => .ok updatedChats
        | some chatToMove => .ok (chatToMove :: updatedChats.eraseIdx chatIndex)

/-! ## `src/services/api.js` and the REST wrappers of `chatUtils.js` -/

/-- A rejected REST call as the code reads it: `error.message`,
`error.response?.status` and `error.response?.data?.message`. -/
structure ApiError where
  message : String
  status : Option Nat
  responseMessage : Option String
deriving DecidableEq, Repr

/-- The value `new Error(text)`: a message and no response. -/
def ApiError.plain (text : String) : ApiError :=
  { message := text, status := none, responseMessage := none }

/-- The body `response.data` of a history page request. -/
structure PageData where
  messages : Option (List Message)
  hasMore : Option Bool
deriving DecidableEq, Repr

/-- A history page as `loadChatMessages` returns it. -/
structure Page where
  messages : List Message
  hasMore : Bool
deriving DecidableEq, Repr

namespace chats

/-- The wrapper `chats.getMessages(chatId, page)` around the HTTP call whose outcome is
`raw`: a rejection is rethrown, with a fixed text when the status is 500. -/
def getMessages (raw : Except ApiError PageData) : Except ApiError PageData :=
  match raw with
  | .ok data => .ok data
  | .error error =>
    if error.status = some 500 then
      .error (ApiError.plain "Failed to load messages. Please try again.")
    else
      .error error

/-- The wrapper `chats.sendMessage(chatId, messageData)` around the HTTP call whose
outcome is `raw`. -/
def sendMessage (raw : Except ApiError Message) : Except ApiError Message :=
  match raw with
  | .ok data => .ok data
  | .error error =>
    if error.status = some 403 then
      .error (ApiError.plain "You cannot send messages to this chat")
    else if error.status = some 500 then
      .error (ApiError.plain "Failed to send message. Please try again.")
    else
      .error error

end chats

/-- The function `loadChatMessages(chatId, page)` of `chatUtils.js`, given the outcome
`raw` of the HTTP call: the `catch` block resolves with an empty page. -/
def loadChatMessages (raw : Except ApiError PageData) : Except ApiError Page :=
  match chats.getMessages raw with
  | .ok data => .ok { messages := data.messages.getD [], hasMore := data.hasMore.getD false }
  | .error _ => .ok { messages := [], hasMore := false }

/-- The function `sendMessage(chatId, messageData)` of `chatUtils.js`, given the outcome
`raw` of the HTTP call: the `catch` block logs and rethrows. -/
def sendMessage (raw : Except ApiError Message) : Except ApiError Message :=
  match chats.sendMessage raw with
  | .ok data => .ok data
  | .error error => .error error

/-! ## `src/components/chat/WhatsAppClone.jsx` -/

/-- A call of `socket.emit` made by the chat component. -/
inductive SocketEmit where
  | markAsRead (chatId : String) (userId : String)
  | sendMessage (chatId : String) (message : Message)
  | messageReaction (chatId : String) (messageId : String) (emoji : String)
  | joinChat (chatId : String)
deriving DecidableEq, Repr

/-- The React state of the `ChatApp` component that the chat handlers read and write,
with the observable effects `alert` and `socket.emit` recorded in order. -/
structure ChatApp where
  /-- The `useState` cell `selectedChat`. -/
  selectedChat : Option Chat
  /-- The `useState` cell `messages`. -/
  messages : List Message
  /-- The `useState` cell `newMessage`, the draft in the input box. -/
  newMessage : String
  /-- The `useState` cell `loading`. -/
  loading : Bool
  /-- The `useState` cell `page`. -/
  page : Nat
  /-- The `useState` cell `hasMore`. -/
  hasMore : Bool
  /-- The `useState` cell `chatList`. -/
  chatList : List Chat
  /-- Whether the `useState` cell `socket` holds a socket. -/
  hasSocket : Bool
  /-- The texts passed to `alert`, oldest first. -/
  alerts : List String
  /-- The calls of `socket.emit`, oldest first. -/
  emitted : List SocketEmit
  /-- The `useState` cell `typingTimeout`: the handle of the last stop-typing timer. -/
  typingTimeout : Option Nat := none
  /-- The `useState` cell `typingUsers`: a `Set`, kept in insertion order. -/
  typingUsers : List String := []
  /-- The runs of the socket effect that attached listeners, oldest first: each is named
  by the id of the chat that was selected when it ran. The cleanup of the effect removes
  the `newMessage` and `messageRead` listeners only, so the `messageDelivered`,
  `userTyping` and `userStoppedTyping` listeners of every run are still attached. -/
  effectRuns : List String := []
deriving DecidableEq, Repr

/-- The state of a freshly mounted component. -/
def ChatApp.init : ChatApp :=
  { selectedChat := none, messages := [], newMessage := "", loading := false, page := 1,
    hasMore := true, chatList := [], hasSocket := false, alerts := [], emitted := [] }

/-- The `newMessage` socket handler `handleNewMessage(data)` with `data.chatId = chatId`
and `data.message = message`. The handler is registered only while a chat is selected.
An error is an exception that escapes the handler or the state updater. -/
def handleNewMessage (st : ChatApp) (chatId : String) (message : Message) (now : String) :
    Except JsError ChatApp :=
  match st.selectedChat with
  | none => .ok st
  | some selectedChat =>
    let shown : Except JsError ChatApp :=
      if chatId = selectedChat._id then
        let chat := st.chatList.find? (fun c => c._id == chatId)
        match updateMessageDisplay [message] chat with
        | .error e => .error e
        | .ok [] => .error .typeError
        | .ok (updated :: _) => .ok { st with messages := st.messages ++ [updated] }
      else
        .ok st
    match shown with
    | .error e => .error e
    | .ok st1 =>
      match updateChatListWithMessage st1.chatList message chatId (some selectedChat._id)
          false now with
      | .error e => .error e
      | .ok chatList => .ok { st1 with chatList := chatList }

/-- The synchronous start of `handleSelectChat(chat)`, up to the suspension at
`loadChatMessages(chat._id, 1, true)`. -/
def handleSelectChat_start (st : ChatApp) (chat : Chat) : ChatApp :=
  { st with loading := true, selectedChat := some chat, messages := [], page := 1,
            hasMore := true }

/-- The part of `handleSelectChat(chat)` that runs when `loadChatMessages` has settled
with `result`, up to the suspension at `markMessagesAsRead`. The second component tells
whether the call goes on (`true`) or has ended in its `catch` block (`false`). -/
def handleSelectChat_loaded (st : ChatApp) (chat : Chat) (result : Except ApiError Page) :
    ChatApp × Bool :=
  let caught : ChatApp × Bool :=
    ({ st with alerts := st.alerts ++ ["Failed to load chat messages. Please try again."],
               loading := false }, false)
  match result with
  | .error _ => caught
  | .ok loaded =>
    match updateMessageDisplay loaded.messages (some chat) with
    | .ok updatedMessages =>
      ({ st with messages := updatedMessages, hasMore := loaded.hasMore }, true)
    | .error _ => caught

/-- The updater passed to `setChatList` by `handleSelectChat(chat)`: the entry of
`unreadCounts` of the selected chat that belongs to the user is set to zero. -/
def markReadInList (prevList : List Chat) (chatId : String) (userId : String) :
    Except JsError (List Chat) :=
  jsMap (fun c =>
    if c._id = chatId then
      match c.unreadCounts with
      | none => .error .typeError
      | some ucs =>
        let cleared := ucs.map (fun uc =>
          if uc.user = some userId then { uc with count := 0 } else uc)
        .ok { c with unreadCounts := some cleared }
    else .ok c) prevList

/-- The part of `handleSelectChat(chat)` that runs when `markMessagesAsRead` has
settled: the read-marking step and the end of the call. An error is an exception that
escapes the state updater. -/
def handleSelectChat_marked (st : ChatApp) (chat : Chat) (userId : String) :
    Except JsError ChatApp :=
  match markReadInList st.chatList chat._id userId with
  | .error e => .error e
  | .ok chatList =>
    .ok { st with
      chatList := chatList
      emitted := if st.hasSocket then st.emitted ++ [.markAsRead chat._id userId] else st.emitted
      newMessage := ""
      loading := false }

/-- The guard at the head of `loadMessages(chatId, pageNum, isInitial)`: the call goes
on unless `loading && !isInitial`; when it goes on it sets `loading`. -/
def loadMessages_start (st : ChatApp) (isInitial : Bool) : Option ChatApp :=
  if st.loading && !isInitial then none else some { st with loading := true }

/-- The part of `loadMessages(chatId, pageNum, isInitial)` that runs when
`loadChatMessages` has settled with `result`; `selectedChat` is the chat captured by the
closure of the call. -/
def loadMessages_loaded (st : ChatApp) (selectedChat : Option Chat) (pageNum : Nat)
    (isInitial : Bool) (result : Except ApiError Page) : ChatApp :=
  match result with
  | .error _ => { st with loading := false }
  | .ok loaded =>
    match updateMessageDisplay loaded.messages selectedChat with
    | .ok updatedMessages =>
      { st with
        messages := if isInitial then updatedMessages else updatedMessages ++ st.messages
        hasMore := loaded.hasMore
        page := pageNum
        loading := false }
    | .error _ => { st with loading := false }

/-- The text of `error.message` of the exception a failed property read raises. -/
def JsError.message : JsError → String
  | .typeError => "Cannot read properties of null"

/-- The text `error.response?.data?.message || error.message` of a rejection. -/
def ApiError.shown (error : ApiError) : String :=
  (jsOr error.responseMessage (some error.message)).getD error.message

/-- The characters that `String.prototype.trim` removes: the white space and line
terminator code points of ECMAScript. -/
def isJsWhitespace (c : Char) : Bool :=
  let n := c.toNat
  n = 0x09 || n = 0x0A || n = 0x0B || n = 0x0C || n = 0x0D || n = 0x20 || n = 0xA0 ||
  n = 0x1680 || (0x2000 ≤ n && n ≤ 0x200A) || n = 0x2028 || n = 0x2029 || n = 0x202F ||
  n = 0x205F || n = 0x3000 || n = 0xFEFF

/-- The method `String.prototype.trim`. -/
def jsTrim (s : String) : String :=
  ⟨((s.data.dropWhile isJsWhitespace).reverse.dropWhile isJsWhitespace).reverse⟩

/-- The synchronous start of `handleSendMessage()`: nothing happens when the draft is
blank or no chat is selected; otherwise the draft is cleared and the call suspends at
`sendMessage` with `messageData.content`, which is returned with the state. -/
def handleSendMessage_start (st : ChatApp) : Option (ChatApp × String × Chat) :=
  match st.selectedChat with
  | none => none
  | some selectedChat =>
    if jsTrim st.newMessage = "" then none
    else some ({ st with newMessage := "" }, jsTrim st.newMessage, selectedChat)

/-- The part of `handleSendMessage()` that runs when `sendMessage` has settled with
`outcome`; `content` and `selectedChat` are captured by the closure of the call. An
error is an exception that escapes the `setChatList` updater. -/
def handleSendMessage_settled (st : ChatApp) (content : String) (selectedChat : Chat)
    (outcome : Except ApiError Message) (now : String) : Except JsError ChatApp :=
  match outcome with
  | .error error =>
    .ok { st with newMessage := content,
                  alerts := st.alerts ++ ["Failed to send message: " ++ error.shown] }
  | .ok sentMessage =>
    match updateMessageDisplay [sentMessage] (some selectedChat) with
    | .error e =>
      .ok { st with newMessage := content,
                    alerts := st.alerts ++ ["Failed to send message: " ++ e.message] }
    | .ok [] => .error .typeError
    | .ok (updated :: _) =>
      match updateChatListWithMessage st.chatList sentMessage selectedChat._id
          (some selectedChat._id) false now with
      | .error e => .error e
      | .ok chatList =>
        .ok { st with
          messages := st.messages ++ [updated]
          chatList := chatList
          emitted := if st.hasSocket then
              st.emitted ++ [.sendMessage selectedChat._id sentMessage]
            else st.emitted }

/-- The call `handleSendMessage()` run to its end, the HTTP call settling with `raw`
and nothing else happening in between. -/
def handleSendMessage (st : ChatApp) (raw : Except ApiError Message) (now : String) :
    Except JsError ChatApp :=
  match handleSendMessage_start st with
  | none => .ok st
  | some (st1, content, selectedChat) =>
    handleSendMessage_settled st1 content selectedChat (sendMessage raw) now

/-! ## `src/components/chat/ChatDialog.jsx` -/

/-- The React state of the `ChatDialog` component that its chat handlers read and
write. -/
structure ChatDialog where
  /-- The `useState` cell `messages`. -/
  messages : List Message
  /-- The `useState` cell `chatId`. -/
  chatId : Option String
  /-- The `useState` cell `currentChat`. -/
  currentChat : Option Chat
  /-- The `useState` cell `loading`. -/
  loading : Bool
  /-- The `useState` cell `page`. -/
  page : Nat
  /-- The `useState` cell `hasMore`. -/
  hasMore : Bool
  /-- The `useState` cell `newMessage`, the draft in the input box. -/
  newMessage : String := ""
  /-- Whether the `useState` cell `socket` holds a socket. -/
  hasSocket : Bool := false
  /-- The `useState` cell `typingTimeout`: the handle of the last stop-typing timer. -/
  typingTimeout : Option Nat := none
deriving DecidableEq, Repr

namespace ChatDialog

/-- The `newMessage` socket handler of `ChatDialog` for the pushed `message`. An error
is an exception that escapes the handler. -/
def onNewMessage (st : ChatDialog) (message : Message) : Except JsError ChatDialog :=
  match st.currentChat with
  | none => .ok st
  | some currentChat =>
    match updateMessageDisplay [message] (some currentChat) with
    | .error e => .error e
    | .ok [] => .error .typeError
    | .ok (updated :: _) => .ok { st with messages := st.messages ++ [updated] }

/-- The guard at the head of `loadMoreMessages()`: the call goes on unless
`loading || !hasMore`; when it goes on it sets `loading`. -/
def loadMoreMessages_start (st : ChatDialog) : Option ChatDialog :=
  if st.loading || !st.hasMore then none else some { st with loading := true }

/-- The part of `loadMoreMessages()` that runs when `loadChatMessages` has settled with
`result`; `currentChat` is the chat captured by the closure of the call. -/
def loadMoreMessages_loaded (st : ChatDialog) (currentChat : Option Chat)
    (result : Except ApiError Page) : ChatDialog :=
  match result with
  | .error _ => { st with loading := false }
  | .ok loaded =>
    match updateMessageDisplay loaded.messages currentChat with
    | .ok updatedMessages =>
      { st with
        messages := updatedMessages ++ st.messages
        hasMore := loaded.hasMore
        page := st.page + 1
        loading := false }
    | .error _ => { st with loading := false }

end ChatDialog

/-! ## History loading as a transition system

The calls of `handleSelectChat` and `loadMessages` suspend at their `await`s; between a
suspension and its resumption any other handler may run. A session is the component
state together with the suspended calls. -/

/-- A call suspended at an `await`, with the values its closure has captured. -/
inductive Suspended where
  /-- The call `handleSelectChat(chat)` waiting for `loadChatMessages(chat._id, 1, true)`. -/
  | selectLoading (chat : Chat)
  /-- The call `handleSelectChat(chat)` waiting for `markMessagesAsRead(chat._id)`. -/
  | selectMarking (chat : Chat)
  /-- The call `loadMessages(chatId, pageNum)` waiting for
  `loadChatMessages(chatId, pageNum)`. -/
  | loadingMore (selectedChat : Option Chat) (chatId : String) (pageNum : Nat)
deriving DecidableEq, Repr

/-- Whether the suspended call waits for a history page. -/
def Suspended.isLoad : Suspended → Bool
  | .selectLoading _ => true
  | .selectMarking _ => false
  | .loadingMore _ _ _ => true

/-- The conversation whose history a suspended call has requested. -/
def Suspended.target : Suspended → Option String
  | .selectLoading chat => some chat._id
  | .selectMarking _ => none
  | .loadingMore _ chatId _ => some chatId

/-- The component state and its suspended calls, oldest first. -/
structure Session where
  app : ChatApp
  suspended : List Suspended
deriving DecidableEq, Repr

/-- What can happen to a session. -/
inductive Event where
  /-- A click on a conversation: `handleSelectChat(chat)`. -/
  | selectChat (chat : Chat)
  /-- A click on "Load More": `loadMessages(selectedChat._id, page + 1)`. -/
  | loadMore
  /-- The request of the suspended call number `i` settles and the call resumes. -/
  | settle (i : Nat)
deriving DecidableEq, Repr

/-- One transition. `rest chatId page` is the outcome of the HTTP request for that
history page and `userId` is `user.id`. An error is an exception that escapes a state
updater. -/
def step (rest : String → Nat → Except ApiError PageData) (userId : String) (s : Session) :
    Event → Except JsError Session
  | .selectChat chat =>
    .ok { app := handleSelectChat_start s.app chat
          suspended := s.suspended ++ [.selectLoading chat] }
  | .loadMore =>
    match s.app.selectedChat with
    | none => .ok s
    | some selectedChat =>
      if s.app.hasMore then
        match loadMessages_start s.app false with
        | none => .ok s
        | some app =>
          .ok { app := app
                suspended := s.suspended ++
                  [.loadingMore (some selectedChat) selectedChat._id (s.app.page + 1)] }
      else .ok s
  | .settle i =>
    match s.suspended[i]? with
    | none => .ok s
    | some (.selectLoading chat) =>
      match handleSelectChat_loaded s.app chat (loadChatMessages (rest chat._id 1)) with
      | (app, true) =>
        .ok { app := app, suspended := s.suspended.eraseIdx i ++ [.selectMarking chat] }
      | (app, false) => .ok { app := app, suspended := s.suspended.eraseIdx i }
    | some (.selectMarking chat) =>
      match handleSelectChat_marked s.app chat userId with
      | .error e => .error e
      | .ok app => .ok { app := app, suspended := s.suspended.eraseIdx i }
    | some (.loadingMore selectedChat chatId pageNum) =>
      .ok { app := loadMessages_loaded s.app selectedChat pageNum false
                     (loadChatMessages (rest chatId pageNum))
            suspended := s.suspended.eraseIdx i }

/-- A run: the transitions of a list of events in order, stopping at the first
exception. -/
def run (rest : String → Nat → Except ApiError PageData) (userId : String) :
    Session → List Event → Except JsError Session
  | s, [] => .ok s
  | s, e :: es =>
    match step rest userId s e with
    | .error err => .error err
    | .ok s1 => run rest userId s1 es

/-! ## Notions used in the statements -/

/-- Two messages that agree on every field but `sender` and `senderName`. -/
def SameButName (m n : Message) : Prop :=
  n._id = m._id ∧ n.content = m.content ∧ n.createdAt = m.createdAt ∧
  n.isDeleted = m.isDeleted ∧ n.reactions = m.reactions ∧ n.readBy = m.readBy ∧
  n.deliveredTo = m.deliveredTo

/-- A user reference whose property `_id` can be read: neither `null` nor absent. -/
def Ref.present : Ref → Bool
  | .str _ => true
  | .obj _ => true
  | _ => false

/-- A conversation none of whose participant details has a `null` or absent user. -/
def Chat.safe (c : Chat) : Prop :=
  ∀ d ∈ c.participantDetails.getD [], d.user.present = true

instance (c : Chat) : Decidable c.safe := by
  unfold Chat.safe; infer_instance

/-- The conversation, when there is one, is safe. -/
def chatSafe : Option Chat → Prop
  | none => True
  | some c => c.safe

instance (chat : Option Chat) : Decidable (chatSafe chat) := by
  cases chat <;> unfold chatSafe <;> infer_instance

/-- The entry that `updateChatListWithMessage` writes in place of the conversation. -/
def touched (chat : Chat) (updatedMessage : Message) (chatId : String)
    (selectedChatId : Option String) (isNotification : Bool) (now : String) : Chat :=
  { chat with
    lastMessage := some updatedMessage
    lastMessageAt := some now
    unreadCount := some (if selectedChatId = some chatId then 0
      else chat.unreadCount.getD 0 + (if isNotification then 1 else 0)) }

/-! ## Merges and live insertions in sequence -/

/-- What reaches the message list of the open conversation. -/
inductive SyncOp where
  /-- The first page arrives for `handleSelectChat(chat)`. -/
  | initial (page : Page)
  /-- A further page arrives for `loadMessages(chat._id, page + 1)`. -/
  | older (page : Page)
  /-- A message for the open conversation arrives at the `newMessage` handler. -/
  | live (message : Message)
deriving DecidableEq, Repr

/-- The messages an operation brings. -/
def SyncOp.incoming : SyncOp → List Message
  | .initial page => page.messages
  | .older page => page.messages
  | .live message => [message]

/-- The effect of one operation on the component, `chat` being the open conversation. -/
def applySync (chat : Chat) (now : String) (st : ChatApp) : SyncOp → Except JsError ChatApp
  | .initial page => .ok (handleSelectChat_loaded (handleSelectChat_start st chat) chat (.ok page)).1
  | .older page => .ok (loadMessages_loaded st (some chat) (st.page + 1) false (.ok page))
  | .live message => handleNewMessage st chat._id message now

/-- The effect of a sequence of operations, stopping at the first exception. -/
def runSync (chat : Chat) (now : String) : ChatApp → List SyncOp → Except JsError ChatApp
  | st, [] => .ok st
  | st, op :: ops =>
    match applySync chat now st op with
    | .error e => .error e
    | .ok st1 => runSync chat now st1 ops

/-- The list that the arrival order alone determines: a first page replaces the list, a
further page is put in front of it and a live message is put at its end. -/
def arrivalOrder : List Message → List SyncOp → List Message
  | l, [] => l
  | _, .initial page :: ops => arrivalOrder page.messages ops
  | l, .older page :: ops => arrivalOrder (page.messages ++ l) ops
  | l, .live message :: ops => arrivalOrder (l ++ [message]) ops

/-- The conversations of the list with the given id are safe. -/
def listSafe (chatId : String) (chatList : List Chat) : Prop :=
  ∀ c ∈ chatList, c._id = chatId → c.safe

instance (chatId : String) (chatList : List Chat) : Decidable (listSafe chatId chatList) := by
  unfold listSafe; infer_instance

/-- No incoming message of the operations has a `null` sender. -/
def sendersPresent (ops : List SyncOp) : Prop :=
  ∀ op ∈ ops, ∀ m ∈ op.incoming, m.sender ≠ .null

instance (ops : List SyncOp) : Decidable (sendersPresent ops) := by
  unfold sendersPresent; infer_instance

/-! ## History loads that overlap a change of conversation -/

/-- The message is on some history page that the REST boundary serves for the
conversation. -/
def fetchedFor (rest : String → Nat → Except ApiError PageData) (chatId : String)
    (m : Message) : Prop :=
  ∃ p data, rest chatId p = .ok data ∧ m._id ∈ (data.messages.getD []).map (·._id)

/-- Every displayed message was fetched for the selected conversation. -/
def showsOnlySelected (rest : String → Nat → Except ApiError PageData) (s : Session) : Prop :=
  match s.app.selectedChat with
  | none => s.app.messages = []
  | some sel => ∀ m ∈ s.app.messages, fetchedFor rest sel._id m

/-- Whether every history load in flight is for the conversation with the given id. -/
def loadsAreFor (chatId : String) (s : Session) : Bool :=
  s.suspended.all (fun k => !k.isLoad || k.target == some chatId)

/-- Whether, along the run, a conversation is selected only when every history load in
flight is a load for that same conversation. -/
def switchesAfterLoads (rest : String → Nat → Except ApiError PageData) (userId : String) :
    Session → List Event → Bool
  | _, [] => true
  | s, e :: es =>
    (match e with
      | .selectChat chat => loadsAreFor chat._id s
      | _ => true) &&
    (match step rest userId s e with
      | .ok s1 => switchesAfterLoads rest userId s1 es
      | .error _ => true)

/-- Every history load in flight is for the selected conversation. -/
def loadsMatchSelection (s : Session) : Prop :=
  ∀ k ∈ s.suspended, k.isLoad = true →
    ∃ sel, s.app.selectedChat = some sel ∧ k.target = some sel._id

/-- Every conversation of the list has its `unreadCounts` array. -/
def countsDefined (chatList : List Chat) : Prop :=
  ∀ c ∈ chatList, c.unreadCounts ≠ none

instance (chatList : List Chat) : Decidable (countsDefined chatList) := by
  unfold countsDefined; infer_instance

/-! ## Receipts, reactions and deletions in `WhatsAppClone.jsx` -/

/-- The message with the reactions
`[...(msg.reactions || []).filter(r => r.user !== reaction.user), reaction]`. -/
def withReaction (msg : Message) (reaction : Reaction) : Message :=
  let kept := (msg.reactions.getD []).filter (fun r => decide (r.user ≠ reaction.user))
  { msg with reactions := some (kept ++ [reaction]) }

/-- The message with the reactions `(msg.reactions || []).filter(r => r.user !== user)`. -/
def withoutReaction (msg : Message) (user : Option String) : Message :=
  let kept := (msg.reactions.getD []).filter (fun r => decide (r.user ≠ user))
  { msg with reactions := some kept }

/-- The first `setMessages` of `handleReaction(messageId, emoji)`: the local update made
before the server is called; `userId` is `user.id` and `now` the clock. -/
def handleReaction_start (st : ChatApp) (userId messageId emoji : String) (now : Nat) :
    ChatApp :=
  { st with messages := st.messages.map (fun msg =>
      if msg._id = messageId then
        withReaction msg { user := some userId, emoji := emoji, createdAt := now }
      else msg) }

/-- The `catch` block of `handleReaction(messageId, emoji)`. -/
def handleReaction_caught (st : ChatApp) (userId messageId : String) : ChatApp :=
  { st with messages := st.messages.map (fun msg =>
      if msg._id = messageId then withoutReaction msg (some userId) else msg) }

/-- The part of `handleReaction(messageId, emoji)` that runs when `chatApi.addReaction`
has settled with `outcome`; `selectedChat` is captured by the closure of the call. -/
def handleReaction_settled (st : ChatApp) (userId messageId emoji : String)
    (selectedChat : Chat) (outcome : Except ApiError Unit) : ChatApp :=
  match outcome with
  | .ok _ =>
    { st with emitted :=
        if st.hasSocket then
          st.emitted ++ [.messageReaction selectedChat._id messageId emoji]
        else st.emitted }
  | .error _ => handleReaction_caught st userId messageId

/-- The call `handleReaction(messageId, emoji)` run to its end, the server call settling
with `outcome` and nothing else happening in between. Without a selected chat the read
`selectedChat._id` throws inside the `try` block. -/
def handleReaction (st : ChatApp) (userId messageId emoji : String) (now : Nat)
    (outcome : Except ApiError Unit) : ChatApp :=
  match st.selectedChat with
  | none => handleReaction_caught (handleReaction_start st userId messageId emoji now)
      userId messageId
  | some selectedChat =>
    handleReaction_settled (handleReaction_start st userId messageId emoji now) userId
      messageId emoji selectedChat outcome

/-- The `messageReaction` socket handler; it is registered only while a chat is
selected. -/
def onMessageReaction (st : ChatApp) (chatId messageId : String) (reaction : Reaction) :
    ChatApp :=
  match st.selectedChat with
  | none => st
  | some selectedChat =>
    if selectedChat._id = chatId then
      { st with messages := st.messages.map (fun msg =>
          if msg._id = messageId then withReaction msg reaction else msg) }
    else st

/-- The `reactionRemoved` socket handler. -/
def onReactionRemoved (st : ChatApp) (chatId messageId : String) (userId : Option String) :
    ChatApp :=
  match st.selectedChat with
  | none => st
  | some selectedChat =>
    if selectedChat._id = chatId then
      { st with messages := st.messages.map (fun msg =>
          if msg._id = messageId then withoutReaction msg userId else msg) }
    else st

/-- The `messageDeleted` socket handler. -/
def onMessageDeleted (st : ChatApp) (chatId messageId : String) : ChatApp :=
  match st.selectedChat with
  | none => st
  | some selectedChat =>
    if selectedChat._id = chatId then
      { st with messages := st.messages.map (fun msg =>
          if msg._id = messageId then { msg with isDeleted := true } else msg) }
    else st

/-- The `messageRead` socket handler for the payload `{ chatId, messageId, userId }`;
`now` is the clock. The cleanup of the socket effect removes the `messageRead` listeners,
so the one listener attached closes over the chat that is selected. -/
def onMessageRead (st : ChatApp) (chatId messageId : String) (userId : Option String)
    (now : Nat) : ChatApp :=
  match st.selectedChat with
  | none => st
  | some selectedChat =>
    if chatId = selectedChat._id then
      { st with messages := st.messages.map (fun msg =>
          if msg._id = messageId then
            { msg with readBy := some (msg.readBy.getD [] ++ [{ user := userId, readAt := now }]) }
          else msg) }
    else st

/-- One `messageDelivered` listener for the payload `{ messageId, chatId, deliveredTo }`;
`selected` is the id of the chat that the listener closes over and `now` is the clock. -/
def messageDeliveredListener (selected : String) (st : ChatApp) (messageId chatId : String)
    (deliveredTo : List String) (now : Nat) : ChatApp :=
  if selected = chatId then
    { st with messages := st.messages.map (fun msg =>
        if msg._id = messageId then
          let added : List DeliveryReceipt :=
            deliveredTo.map (fun id => { userId := some id, deliveredAt := now })
          { msg with deliveredTo := some (msg.deliveredTo.getD [] ++ added) }
        else msg) }
  else st

/-- The socket delivers `messageDelivered`: every listener attached runs, oldest first.
The listeners of all runs of the socket effect are attached, since its cleanup does not
remove them. -/
def onMessageDelivered (st : ChatApp) (messageId chatId : String) (deliveredTo : List String)
    (now : Nat) : ChatApp :=
  st.effectRuns.foldl
    (fun s selected => messageDeliveredListener selected s messageId chatId deliveredTo now) st

/-- A receipt event as the socket delivers it, with the time of its arrival. -/
inductive ReceiptEvent where
  | read (chatId messageId : String) (userId : Option String) (now : Nat)
  | delivered (messageId chatId : String) (deliveredTo : List String) (now : Nat)
deriving DecidableEq, Repr

/-- The effect of one receipt event: the socket delivers it to the listeners attached. -/
def applyReceipt (st : ChatApp) : ReceiptEvent → ChatApp
  | .read chatId messageId userId now => onMessageRead st chatId messageId userId now
  | .delivered messageId chatId deliveredTo now =>
    onMessageDelivered st messageId chatId deliveredTo now

/-- The effect of a sequence of receipt events, in order. -/
def applyReceipts (st : ChatApp) (events : List ReceiptEvent) : ChatApp :=
  events.foldl applyReceipt st

/-- The receipts of the second message extend those of the first: same id, and the old
`readBy` and `deliveredTo` entries are the first entries of the new arrays, unchanged. -/
def ReceiptsExtend (m n : Message) : Prop :=
  n._id = m._id ∧ m.readBy.getD [] <+: n.readBy.getD [] ∧
  m.deliveredTo.getD [] <+: n.deliveredTo.getD []

/-- How many entries of `readBy` name the user. -/
def readCount (m : Message) (user : Option String) : Nat :=
  ((m.readBy.getD []).filter (fun r => decide (r.user = user))).length

/-- How many entries of `deliveredTo` name the user. -/
def deliveredCount (m : Message) (user : Option String) : Nat :=
  ((m.deliveredTo.getD []).filter (fun r => decide (r.userId = user))).length

/-- What an add-reaction does to a message: a message with the given id keeps every
field but `reactions`, has exactly the given reaction for its user and keeps the
reactions of all other users in their order; any other message is unchanged. -/
def ReactionAdded (messageId : String) (reaction : Reaction) (m n : Message) : Prop :=
  if m._id = messageId then
    n = { m with reactions := n.reactions } ∧
    (n.reactions.getD []).filter (fun r => decide (r.user = reaction.user)) = [reaction] ∧
    (n.reactions.getD []).filter (fun r => decide (r.user ≠ reaction.user))
      = (m.reactions.getD []).filter (fun r => decide (r.user ≠ reaction.user))
  else n = m

/-- A sequence of local add-reactions by one user on one message: each step is the
emoji and the time of a call of `handleReaction`. -/
def reactAll (st : ChatApp) (userId messageId : String) (steps : List (String × Nat)) :
    ChatApp :=
  steps.foldl (fun s step => handleReaction_start s userId messageId step.1 step.2) st

/-! ## `src/utils/socket.js`: the callback registries -/

namespace Socket

/-- The second argument that `notifyCallbacks` hands to a callback: absent, a string such
as `"new"` or `"add"`, or a boolean (typing events). -/
inductive SubType where
  | undef
  | text (s : String)
  | flag (b : Bool)
deriving DecidableEq, Repr

/-- A callback function: the identity of the function object and the arguments on which
a call of it throws. The event data is kept as text. -/
structure Callback where
  ref : Nat
  throwsOn : String → SubType → Bool

/-- A JavaScript `Map` from ids to callbacks, in insertion order. -/
abbrev CallbackMap := List (String × Callback)

/-- The method `Map.prototype.set`: the value of an existing key is replaced in place, a
new key is added at the end. -/
def mapSet : CallbackMap → String → Callback → CallbackMap
  | [], id, callback => [(id, callback)]
  | (k, v) :: rest, id, callback =>
    if k = id then (k, callback) :: rest else (k, v) :: mapSet rest id callback

/-- The method `Map.prototype.delete`. -/
def mapDelete (map : CallbackMap) (id : String) : CallbackMap :=
  map.filter (fun entry => decide (entry.1 ≠ id))

/-- The method `Map.prototype.get`. -/
def mapGet : CallbackMap → String → Option Callback
  | [], _ => none
  | (k, v) :: rest, id => if k = id then some v else mapGet rest id

/-- The own properties of the module object `callbacks`. -/
inductive Category where
  | message
  | typing
  | status
  | notification
  | reaction
  | delivery
  | read
  | deletion
  | webrtc
  | meeting
deriving DecidableEq, Repr

/-- The property of `callbacks` with the given name, if it is one of the ten. -/
def Category.ofName (type : String) : Option Category :=
  if type = "message" then some .message
  else if type = "typing" then some .typing
  else if type = "status" then some .status
  else if type = "notification" then some .notification
  else if type = "reaction" then some .reaction
  else if type = "delivery" then some .delivery
  else if type = "read" then some .read
  else if type = "deletion" then some .deletion
  else if type = "webrtc" then some .webrtc
  else if type = "meeting" then some .meeting
  else none

/-- The module object `callbacks`: one `Map` for each of its properties. -/
abbrev Callbacks := Category → CallbackMap

/-- The object `callbacks` as the module creates it: ten empty maps. -/
def Callbacks.init : Callbacks := fun _ => []

/-- One call of a callback: the function called and its two arguments. -/
structure Invocation where
  ref : Nat
  data : String
  subType : SubType
deriving DecidableEq, Repr

/-- The loop `map.forEach(callback => callback(data, subType))`: the callbacks are called
in insertion order, and an exception raised by a call ends the loop and escapes. The
result is the calls made, in order, and the callback whose exception escaped, if any. -/
def forEachCallback (data : String) (subType : SubType) :
    CallbackMap → List Invocation × Option Nat
  | [] => ([], none)
  | (_, callback) :: rest =>
    if callback.throwsOn data subType then
      ([{ ref := callback.ref, data := data, subType := subType }], some callback.ref)
    else
      ({ ref := callback.ref, data := data, subType := subType }
          :: (forEachCallback data subType rest).1,
        (forEachCallback data subType rest).2)

/-- The function `notifyCallbacks(type, data, subType)`. -/
def notifyCallbacks (callbacks : Callbacks) (type : String) (data : String)
    (subType : SubType) : List Invocation × Option Nat :=
  match Category.ofName type with
  | some category => forEachCallback data subType (callbacks category)
  | none => ([], none)

/-- The body shared by the registration functions: `callbacks.<category>.set(id, callback)`
with the default id `"default"`, and the cleanup function
`() => callbacks.<category>.delete(id)` that is returned. The cleanup function is applied
to the registry as it is when it runs. -/
def registerIn (category : Category) (callbacks : Callbacks) (callback : Callback)
    (id : Option String) : Callbacks × (Callbacks → Callbacks) :=
  (fun c => if c = category then mapSet (callbacks c) (id.getD "default") callback
    else callbacks c,
   fun later => fun c =>
    if c = category then mapDelete (later c) (id.getD "default") else later c)

/-- The function `onMessage(callback, id)`. -/
def onMessage := registerIn .message

/-- The function `onDeliveryStatus(callback, id)`. -/
def onDeliveryStatus := registerIn .delivery

/-- The function `onReadReceipt(callback, id)`. -/
def onReadReceipt := registerIn .read

/-- The function `onMessageDeleted(callback, id)`. -/
def onMessageDeleted := registerIn .deletion

/-- The function `onTyping(callback, id)`. -/
def onTyping := registerIn .typing

/-- The function `onStatusChange(callback, id)`. -/
def onStatusChange := registerIn .status

/-- The function `onNotification(callback, id)`. -/
def onNotification := registerIn .notification

/-- The function `onReaction(callback, id)`. -/
def onReaction := registerIn .reaction

/-- The function `onWebRTCEvent(callback, id)`. -/
def onWebRTCEvent := registerIn .webrtc

/-- The function `onMeetingEvent(callback, id)`. -/
def onMeetingEvent := registerIn .meeting

/-- The registration function of each category. -/
def registration : Category →
    Callbacks → Callback → Option String → Callbacks × (Callbacks → Callbacks)
  | .message => onMessage
  | .typing => onTyping
  | .status => onStatusChange
  | .notification => onNotification
  | .reaction => onReaction
  | .delivery => onDeliveryStatus
  | .read => onReadReceipt
  | .deletion => onMessageDeleted
  | .webrtc => onWebRTCEvent
  | .meeting => onMeetingEvent

/-- The name under which `notifyCallbacks` finds the category. -/
def Category.name : Category → String
  | .message => "message"
  | .typing => "typing"
  | .status => "status"
  | .notification => "notification"
  | .reaction => "reaction"
  | .delivery => "delivery"
  | .read => "read"
  | .deletion => "deletion"
  | .webrtc => "webrtc"
  | .meeting => "meeting"

/-- The call of a callback with the given arguments, as `forEachCallback` records it. -/
def invocationOf (data : String) (subType : SubType) (entry : String × Callback) :
    Invocation :=
  { ref := entry.2.ref, data := data, subType := subType }

end Socket

/-! ## `src/utils/socket.js`: the transport session

The library `socket.io-client` is not part of the repository. A socket of the library is
represented by the two flags of its interface that the module reads or drives:
`connected`, and `active` (the socket is connected or is trying to connect). The calls
that the module makes on the library are recorded in order. -/

namespace Socket

/-- A socket created by `io(serverUrl, { auth: { token }, ... })`. -/
structure ClientSocket where
  /-- The token given as `auth.token`. -/
  token : String
  /-- The property `socket.connected`. -/
  connected : Bool
  /-- The property `socket.active`: false once `disconnect()` has been called or the
  server has closed the connection, until `connect()` is called. -/
  active : Bool
deriving DecidableEq, Repr

/-- A call that the module makes on the library; a socket is named by its handle, the
number of sockets created before it. -/
inductive LibraryCall where
  /-- The call `io(serverUrl, { auth: { token }, ... })`. -/
  | io (token : String)
  /-- The `socket.on(...)` calls by which `initializeSocket` attaches its handlers. -/
  | on (handle : Nat)
  /-- The call `socket.disconnect()`. -/
  | disconnect (handle : Nat)
  /-- The call `socket.connect()`. -/
  | connect (handle : Nat)
  /-- The call `socket.emit(event, payload)`; the payload is the list of its strings. -/
  | emit (handle : Nat) (event : String) (payload : List String)
deriving DecidableEq, Repr

/-- The constant `MAX_RECONNECT_ATTEMPTS`. -/
def MAX_RECONNECT_ATTEMPTS : Nat := 10

/-- The state of the module: its variables `socket` and `reconnectAttempts`, every socket
created so far, and the calls made on the library. -/
structure SocketModule where
  /-- Every socket created so far; the handle of a socket is its index. -/
  sockets : List ClientSocket
  /-- The module variable `socket`: `none` is `null`. -/
  socket : Option Nat
  /-- The module variable `reconnectAttempts`. -/
  reconnectAttempts : Nat
  /-- The calls made on the library, oldest first. -/
  calls : List LibraryCall
deriving DecidableEq, Repr

/-- The module as it is loaded: no socket, no attempts counted. -/
def SocketModule.init : SocketModule :=
  { sockets := [], socket := none, reconnectAttempts := 0, calls := [] }

/-- The sockets with the socket of the given handle changed by `f`. -/
def updateSocket (sockets : List ClientSocket) (handle : Nat)
    (f : ClientSocket → ClientSocket) : List ClientSocket :=
  match sockets[handle]? with
  | some s => sockets.set handle (f s)
  | none => sockets

/-- The library call `socket.disconnect()` on the socket of the given handle: the socket
is closed and makes no further attempt to connect. -/
def callDisconnect (m : SocketModule) (handle : Nat) : SocketModule :=
  { m with
    sockets := updateSocket m.sockets handle
      (fun s => { s with connected := false, active := false })
    calls := m.calls ++ [.disconnect handle] }

/-- The library call `socket.connect()` on the socket of the given handle: the socket
starts to connect. -/
def callConnect (m : SocketModule) (handle : Nat) : SocketModule :=
  { m with
    sockets := updateSocket m.sockets handle (fun s => { s with active := true })
    calls := m.calls ++ [.connect handle] }

/-- The test `socket.connected` on the socket of the given handle. -/
def isConnected (m : SocketModule) (handle : Nat) : Bool :=
  match m.sockets[handle]? with
  | some s => s.connected
  | none => false

/-- The second half of `initializeSocket(token)`: a socket is created with `io`, stored
in the variable `socket`, and the handlers are attached to it. -/
def createSocket (m : SocketModule) (token : String) : SocketModule × Nat :=
  ({ m with
      sockets := m.sockets ++ [{ token := token, connected := false, active := true }]
      socket := some m.sockets.length
      calls := m.calls ++ [.io token, .on m.sockets.length] },
   m.sockets.length)

/-- The function `initializeSocket(token)`; the result is the new state of the module and
the socket returned. -/
def initializeSocket (m : SocketModule) (token : String) : SocketModule × Nat :=
  match m.socket with
  | some handle =>
    if isConnected m handle then (m, handle)
    else createSocket { callDisconnect m handle with socket := none } token
  | none => createSocket m token

/-- The function `getSocket()`. -/
def getSocket (m : SocketModule) : Option Nat := m.socket

/-- The function `disconnectSocket()`. -/
def disconnectSocket (m : SocketModule) : SocketModule :=
  match m.socket with
  | some handle => { callDisconnect m handle with socket := none }
  | none => m

/-- The handler of `connect` attached by `initializeSocket`. -/
def connectHandler (m : SocketModule) : SocketModule :=
  { m with reconnectAttempts := 0 }

/-- The handler of `connect_error` attached by `initializeSocket`. It reads the module
variable `socket`, which throws when the variable is `null`. -/
def connectErrorHandler (m : SocketModule) : Except JsError SocketModule :=
  if m.reconnectAttempts + 1 ≥ MAX_RECONNECT_ATTEMPTS then
    match m.socket with
    | some handle =>
      .ok (callDisconnect { m with reconnectAttempts := m.reconnectAttempts + 1 } handle)
    | none => .error .typeError
  else .ok { m with reconnectAttempts := m.reconnectAttempts + 1 }

/-- The handler of `disconnect` attached by `initializeSocket`. -/
def disconnectHandler (m : SocketModule) (reason : String) : Except JsError SocketModule :=
  if reason = "io server disconnect" then
    match m.socket with
    | some handle => .ok (callConnect m handle)
    | none => .error .typeError
  else .ok m

/-- An event that the library emits on a socket and for which `initializeSocket` has
attached a handler that concerns the connection. -/
inductive SocketEvent where
  | connect
  | connectError
  | disconnect (reason : String)
deriving DecidableEq, Repr

/-- Whether the library can emit the event on a socket in the given state: `connect` and
`connect_error` belong to an attempt to connect, `disconnect` to a socket that is
connected. -/
def ClientSocket.canEmit (s : ClientSocket) : SocketEvent → Bool
  | .connect => s.active && !s.connected
  | .connectError => s.active && !s.connected
  | .disconnect _ => s.connected

/-- Whether the library goes on trying to connect after a `disconnect` with the given
reason: it does not after a disconnection by the server or by the client. -/
def reconnectsAfter (reason : String) : Bool :=
  !(reason = "io server disconnect" || reason = "io client disconnect")

/-- The library emits the event on the socket of the given handle: the flags of the
socket change as the event says and the handler attached by `initializeSocket` runs. An
event that the socket cannot emit in its state does not occur. -/
def deliver (m : SocketModule) (handle : Nat) (event : SocketEvent) :
    Except JsError SocketModule :=
  match m.sockets[handle]? with
  | none => .ok m
  | some s =>
    if s.canEmit event then
      match event with
      | .connect =>
        .ok (connectHandler
          { m with sockets := m.sockets.set handle { s with connected := true } })
      | .connectError => connectErrorHandler m
      | .disconnect reason =>
        let closed : ClientSocket :=
          { s with connected := false, active := reconnectsAfter reason }
        disconnectHandler { m with sockets := m.sockets.set handle closed } reason
    else .ok m

/-- The library emits the events on the socket one after the other, until a handler
throws. -/
def deliverAll (m : SocketModule) (handle : Nat) : List SocketEvent → Except JsError SocketModule
  | [] => .ok m
  | event :: events =>
    match deliver m handle event with
    | .error e => .error e
    | .ok m1 => deliverAll m1 handle events

/-- Every socket that is connected or trying to connect is the one that the module
variable `socket` holds. -/
def onlyHeldIsOpen (m : SocketModule) : Prop :=
  ∀ k s, m.sockets[k]? = some s → (s.active = true ∨ s.connected = true) → m.socket = some k

end Socket

/-! ## `src/utils/socket.js`: the emit helpers -/

namespace Socket

/-- The statement `if (socket && socket.connected) { socket.emit(event, payload); }` that is
the whole body of each emit helper. -/
def emitIfConnected (m : SocketModule) (event : String) (payload : List String) :
    SocketModule :=
  match m.socket with
  | some handle =>
    if isConnected m handle then { m with calls := m.calls ++ [.emit handle event payload] }
    else m
  | none => m

/-- The function `emitTyping(chatId, userId)`. -/
def emitTyping (m : SocketModule) (chatId userId : String) : SocketModule :=
  emitIfConnected m "typing" [chatId, userId]

/-- The function `emitStopTyping(chatId, userId)`. -/
def emitStopTyping (m : SocketModule) (chatId userId : String) : SocketModule :=
  emitIfConnected m "stopTyping" [chatId, userId]

/-- The function `joinChatRoom(chatId)`. -/
def joinChatRoom (m : SocketModule) (chatId : String) : SocketModule :=
  emitIfConnected m "joinChat" [chatId]

/-- The function `leaveChatRoom(chatId)`. -/
def leaveChatRoom (m : SocketModule) (chatId : String) : SocketModule :=
  emitIfConnected m "leaveChat" [chatId]

/-- The payloads of the calls `socket.emit(event, ...)` made so far, oldest first. -/
def emitsOf (event : String) (m : SocketModule) : List (List String) :=
  m.calls.filterMap (fun call =>
    match call with
    | .emit _ name payload => if name = event then some payload else none
    | _ => none)

/-- Whether the module holds a socket that is connected: the test
`socket && socket.connected`. -/
def holdsConnected (m : SocketModule) : Bool :=
  match m.socket with
  | some handle => isConnected m handle
  | none => false

end Socket

/-! ## The typing indicator of the composer: `handleMessageChange`

Time is counted in milliseconds. Timer handles are positive numbers, hence truthy. -/

/-- A pending timer set by `handleMessageChange`: its callback is
`() => emitStopTyping(chatId, userId)`, with the values of the call that set it. -/
structure Timeout where
  handle : Nat
  due : Nat
  chatId : String
  userId : String
deriving DecidableEq, Repr

/-- The page around a component: the clock, the pending timers, the handle given to the
last timer, and the module `socket.js`. -/
structure Window where
  clock : Nat
  timers : List Timeout
  lastHandle : Nat
  transport : Socket.SocketModule
deriving DecidableEq, Repr

/-- The call `setTimeout(() => emitStopTyping(chatId, userId), delay)`; the result is the
page and the handle returned. -/
def setTimeout (w : Window) (delay : Nat) (chatId userId : String) : Window × Nat :=
  let handle := w.lastHandle + 1
  let timer : Timeout :=
    { handle := handle, due := w.clock + delay, chatId := chatId, userId := userId }
  ({ w with timers := w.timers ++ [timer], lastHandle := handle }, handle)

/-- The call `clearTimeout(handle)`. -/
def clearTimeout (w : Window) (handle : Nat) : Window :=
  { w with timers := w.timers.filter (fun t => decide (t.handle ≠ handle)) }

/-- Time passes until `time`: the timers that are due by then run, in the order in which
they were set (all are set with the same delay), and are no longer pending. -/
def advance (w : Window) (time : Nat) : Window :=
  let due := w.timers.filter (fun t => decide (t.due ≤ time))
  let pending := w.timers.filter (fun t => decide (time < t.due))
  let transport := due.foldl (fun m t => Socket.emitStopTyping m t.chatId t.userId) w.transport
  { w with clock := max w.clock time, timers := pending, transport := transport }

/-- The typing part of `handleMessageChange`, the same in both components: `target` is
`selectedChat._id` or `chatId` when the guard `socket && selectedChat` (`socket && chatId`)
passes. The result is the new value of `typingTimeout` and the page. -/
def typingChange (hasSocket : Bool) (target : Option String) (typingTimeout : Option Nat)
    (userId : String) (w : Window) : Option Nat × Window :=
  match hasSocket, target with
  | true, some chatId =>
    let cleared :=
      match typingTimeout with
      | some handle => clearTimeout w handle
      | none => w
    let typed : Window :=
      { cleared with transport := Socket.emitTyping cleared.transport chatId userId }
    let scheduled := setTimeout typed 1000 chatId userId
    (some scheduled.2, scheduled.1)
  | _, _ => (typingTimeout, w)

/-- The handler `handleMessageChange(e)` of `WhatsAppClone.jsx`; `value` is
`e.target.value` and `userId` is `user.id`. -/
def handleMessageChange (st : ChatApp) (w : Window) (value userId : String) :
    ChatApp × Window :=
  let typed := typingChange st.hasSocket (st.selectedChat.map (fun c => c._id))
    st.typingTimeout userId w
  ({ st with newMessage := value, typingTimeout := typed.1 }, typed.2)

namespace ChatDialog

/-- The handler `handleMessageChange(e)` of `ChatDialog.jsx`. -/
def handleMessageChange (st : ChatDialog) (w : Window) (value userId : String) :
    ChatDialog × Window :=
  let typed := typingChange st.hasSocket (if truthy st.chatId then st.chatId else none)
    st.typingTimeout userId w
  ({ st with newMessage := value, typingTimeout := typed.1 }, typed.2)

end ChatDialog

/-- An input change in `WhatsAppClone.jsx` at the moment `change.1` with the new text
`change.2`: the timers due by then have run. -/
def changeAt (userId : String) (s : ChatApp × Window) (change : Nat × String) :
    ChatApp × Window :=
  handleMessageChange s.1 (advance s.2 change.1) change.2 userId

/-- A sequence of input changes in `WhatsAppClone.jsx`. -/
def typeAll (userId : String) (s : ChatApp × Window) (changes : List (Nat × String)) :
    ChatApp × Window :=
  changes.foldl (changeAt userId) s

namespace ChatDialog

/-- An input change in `ChatDialog.jsx` at the moment `change.1` with the new text
`change.2`: the timers due by then have run. -/
def changeAt (userId : String) (s : ChatDialog × Window) (change : Nat × String) :
    ChatDialog × Window :=
  handleMessageChange s.1 (advance s.2 change.1) change.2 userId

/-- A sequence of input changes in `ChatDialog.jsx`. -/
def typeAll (userId : String) (s : ChatDialog × Window) (changes : List (Nat × String)) :
    ChatDialog × Window :=
  changes.foldl (changeAt userId) s

end ChatDialog

/-- The typing part of a sequence of input changes at the given moments. -/
def typingRun (hasSocket : Bool) (target : Option String) (userId : String)
    (s : Option Nat × Window) (moments : List Nat) : Option Nat × Window :=
  moments.foldl (fun s time => typingChange hasSocket target s.1 userId (advance s.2 time)) s

/-- The moments of a burst: each input change comes no earlier than the one before it and
less than one second after it. -/
def isBurst : Nat → List Nat → Bool
  | _, [] => true
  | a, b :: rest => decide (a ≤ b) && decide (b < a + 1000) && isBurst b rest

/-- The state between two input changes of a burst in conversation `c`: the stop timer of
the last input change, made at the moment `t`, is the only pending timer, it is due one
second after `t`, and `typingTimeout` holds its handle. -/
def Armed (c u : String) (t : Nat) (s : Option Nat × Window) : Prop :=
  s.1 = some s.2.lastHandle ∧
  s.2.timers = [{ handle := s.2.lastHandle, due := t + 1000, chatId := c, userId := u }] ∧
  s.2.clock = t

/-! ## The typing set of `WhatsAppClone.jsx` -/

/-- The set `new Set([...prev, userId])`. -/
def setAdd (prev : List String) (userId : String) : List String :=
  if userId ∈ prev then prev else prev ++ [userId]

/-- The set `newSet` after `newSet.delete(userId)`, where `newSet = new Set(prev)`. -/
def setDelete (prev : List String) (userId : String) : List String :=
  prev.filter (fun x => decide (x ≠ userId))

/-- The effect on `[socket, selectedChat, chatList]`, as far as the room and the listeners
go: with a socket and a selected chat it emits `joinChat` and attaches its listeners,
which close over the selected chat. Its cleanup removes the `newMessage` and `messageRead`
listeners only, so the `messageDelivered`, `userTyping` and `userStoppedTyping` listeners
of earlier runs stay attached. -/
def socketEffect (st : ChatApp) : ChatApp :=
  match st.hasSocket, st.selectedChat with
  | true, some selectedChat =>
    { st with
      emitted := st.emitted ++ [.joinChat selectedChat._id]
      effectRuns := st.effectRuns ++ [selectedChat._id] }
  | _, _ => st

/-- One `userTyping` listener for the payload `{ userId, chatId }`; `selected` is the id of
the chat that the listener closes over. -/
def userTypingListener (selected : String) (st : ChatApp) (userId chatId : String) :
    ChatApp :=
  if selected = chatId then { st with typingUsers := setAdd st.typingUsers userId } else st

/-- One `userStoppedTyping` listener for the payload `{ userId, chatId }`. -/
def userStoppedTypingListener (selected : String) (st : ChatApp) (userId chatId : String) :
    ChatApp :=
  if selected = chatId then { st with typingUsers := setDelete st.typingUsers userId } else st

/-- The socket delivers `userTyping`: every listener attached runs, oldest first. -/
def onUserTyping (st : ChatApp) (userId chatId : String) : ChatApp :=
  st.effectRuns.foldl (fun s selected => userTypingListener selected s userId chatId) st

/-- The socket delivers `userStoppedTyping`: every listener attached runs, oldest
first. -/
def onUserStoppedTyping (st : ChatApp) (userId chatId : String) : ChatApp :=
  st.effectRuns.foldl
    (fun s selected => userStoppedTypingListener selected s userId chatId) st

/-- What happens to the typing set: a typing event arrives, or the user opens a chat. -/
inductive TypingEvent where
  | typing (userId chatId : String)
  | stopped (userId chatId : String)
  | select (chat : Chat)
deriving DecidableEq, Repr

/-- The effect of one event; opening a chat is the synchronous start of `handleSelectChat`
followed by the effect that the render runs. -/
def applyTyping (st : ChatApp) : TypingEvent → ChatApp
  | .typing userId chatId => onUserTyping st userId chatId
  | .stopped userId chatId => onUserStoppedTyping st userId chatId
  | .select chat => socketEffect (handleSelectChat_start st chat)

/-- The effect of a sequence of events, in order. -/
def applyTypings (st : ChatApp) (events : List TypingEvent) : ChatApp :=
  events.foldl applyTyping st

/-- Whether the most recent typing event of the user for the conversation was a start;
`before` is the answer when there is no such event. -/
def lastWasStart (chatId userId : String) (before : Bool) : List TypingEvent → Bool
  | [] => before
  | .typing u c :: rest =>
    lastWasStart chatId userId (if u = userId ∧ c = chatId then true else before) rest
  | .stopped u c :: rest =>
    lastWasStart chatId userId (if u = userId ∧ c = chatId then false else before) rest
  | .select _ :: rest => lastWasStart chatId userId before rest

/-- Every chat that the events open is the given conversation. -/
def onlyOpens (chatId : String) : List TypingEvent → Bool
  | [] => true
  | .select chat :: rest => decide (chat._id = chatId) && onlyOpens chatId rest
  | _ :: rest => onlyOpens chatId rest

/-! ## Presence in `WhatsAppClone.jsx` -/

/-- The expression `p.user?._id || p.user`. -/
def participantIdOf : Ref → Ref
  | .obj u =>
    match u._id with
    | some i => if i != "" then .str i else .obj u
    | none => .obj u
  | r => r

/-- A participant as `getParticipantDetails` returns it. -/
structure ParticipantView where
  id : Ref
  name : String
  avatar : String
  onlineStatus : String
deriving DecidableEq, Repr

/-- The object that `getParticipantDetails` returns. -/
structure ParticipantViews where
  sender : Option ParticipantView
  receiver : Option ParticipantView
  otherParticipant : Option ParticipantView
deriving DecidableEq, Repr

/-- The details object that `getParticipantDetails` builds from an entry of
`chat.participants` that `find` has returned: nothing for a plain id, and for a populated
entry `{ user: p._id, name: p.name, avatar: p.avatar,
onlineStatus: p.isOnline ? 'online' : 'offline' }`. -/
def detailsOfParticipant : Participant → Option ParticipantDetail
  | .str _ => none
  | .obj p =>
    some { user := (match p._id with | some i => .str i | none => .undef)
           name := p.name
           avatar := p.avatar
           onlineStatus := some (if p.isOnline then "online" else "offline") }

/-- The id test of the `find` callbacks on `chat.participants`: the entry itself when it is
a string, its `_id` otherwise. -/
def Participant.hasId (p : Participant) (id : String) : Bool :=
  match p with
  | .str s => s == id
  | .obj o => o._id == some id

/-- The formatted object `{ id, name, avatar, onlineStatus }` of a details object. -/
def formatDetails (d : ParticipantDetail) : ParticipantView :=
  { id := participantIdOf d.user
    name := (jsOr d.name (some "Unknown User")).getD "Unknown User"
    avatar := (jsOr d.avatar (some "")).getD ""
    onlineStatus := (jsOr d.onlineStatus (some "offline")).getD "offline" }

/-- The function `getParticipantDetails(chat, currentUserId)` of `WhatsAppClone.jsx`, as
every caller calls it: `specificParticipantId` is left at its default `null`. The value is
the object returned; the assignment `receiverDetails.name = chat.displayName` is applied to
the details before they are formatted. -/
def getParticipantDetails (chat : Option Chat) (currentUserId : String) : ParticipantViews :=
  match chat with
  | none => { sender := none, receiver := none, otherParticipant := none }
  | some chat =>
    let details := chat.participantDetails.getD []
    let senderFound :=
      details.find? (fun p => participantIdOf p.user == .str currentUserId)
    let receiverFound :=
      details.find? (fun p => participantIdOf p.user != .str currentUserId)
    let participants := chat.participants.getD []
    let senderDetails :=
      match senderFound with
      | some d => some d
      | none => (participants.find? (fun p : Participant => p.hasId currentUserId)).bind
          detailsOfParticipant
    let receiverDetails :=
      match receiverFound with
      | some d => some d
      | none =>
        (participants.find? (fun p : Participant => !p.hasId currentUserId)).bind
          detailsOfParticipant
    let receiverNamed :=
      receiverDetails.map (fun d : ParticipantDetail =>
        if truthy chat.displayName then { d with name := chat.displayName } else d)
    { sender := senderDetails.map formatDetails
      receiver := receiverNamed.map formatDetails
      otherParticipant := receiverNamed.map formatDetails }

/-- The callback of `chat.participants.map` in the `userStatusChange` handler. -/
def withStatus (userId status : String) : Participant → Participant
  | .obj p => if p._id = some userId then .obj { p with onlineStatus := some status } else .obj p
  | .str s => .str s

/-- The updater that the `userStatusChange` handler passes to `setChatList`; the read
`chat.participants.map` throws when a chat has no `participants`. -/
def statusChangeInList (prevChats : List Chat) (userId status : String) :
    Except JsError (List Chat) :=
  jsMap (fun chat =>
    match chat.participants with
    | none => .error .typeError
    | some participants =>
      .ok { chat with participants := some (participants.map (withStatus userId status)) })
    prevChats

/-- The `userStatusChange` socket handler for the payload `{ userId, status }`. An error
is an exception that escapes the state updater. -/
def onUserStatusChange (st : ChatApp) (userId status : String) : Except JsError ChatApp :=
  match statusChangeInList st.chatList userId status with
  | .error e => .error e
  | .ok chatList => .ok { st with chatList := chatList }

/-- The presence that the chat list shows for a conversation:
`getParticipantDetails(chat, user.id).otherParticipant?.onlineStatus`. -/
def shownPresence (chat : Chat) (currentUserId : String) : Option String :=
  (getParticipantDetails (some chat) currentUserId).otherParticipant.map
    (fun p => p.onlineStatus)

/-! ## Attachment uploads: `ChatInput.jsx`, `WhatsAppClone.jsx`, `ChatDialog.jsx` -/

/-- A file chosen in a file input: the properties `name` and `size` (in bytes). -/
structure FileItem where
  name : String
  size : Nat
deriving DecidableEq, Repr

/-- A call `chats.sendMessageWithFiles(chatId, formData)`: the chat id, the form field
under which the files were appended, the `content` field and the files. -/
structure UploadRequest where
  chatId : Option String
  field : String
  content : String
  files : List FileItem
deriving DecidableEq, Repr

namespace ChatInput

/-- An exception that the `catch` block of `handleFileSelect` of `ChatInput.jsx` catches
and logs: the `Error` thrown by the size test, with its message, or an exception raised by
a property read. -/
inductive Caught where
  | sizeError (message : String)
  | jsError (error : JsError)
deriving DecidableEq, Repr

/-- What a call of `handleFileSelect` of `ChatInput.jsx` has done when it ends: the REST
calls issued, the messages handed to `onMessageSent`, and the exceptions caught and
logged. -/
structure Outcome where
  requests : List UploadRequest
  delivered : List Message
  caught : List Caught
deriving DecidableEq, Repr

/-- The handler `handleFileSelect(event)` of `ChatInput.jsx`; `files` is
`Array.from(event.target.files)`. The file imports the name `chats` from
`utils/chatUtils.js`, which exports no such name, so `chats` is `undefined`: when every
file has passed the size test, the read `chats.sendMessageWithFiles` throws inside the
`try` block, before any REST call is issued. -/
def handleFileSelect (files : List FileItem) : Outcome :=
  if files.isEmpty then { requests := [], delivered := [], caught := [] }
  else
    match files.find? (fun file => decide (file.size > 5 * 1024 * 1024)) with
    | some file =>
      { requests := [], delivered := [],
        caught := [.sizeError ("File " ++ file.name ++ " is too large. Maximum size is 5MB.")] }
    | none => { requests := [], delivered := [], caught := [.jsError .typeError] }

end ChatInput

/-- The handler `handleFileSelect(e)` of `WhatsAppClone.jsx`; `files` is `e.target.files`
and `response` the outcome of the REST call, if it is issued, with `response.data` as its
value. The result is the state and the REST calls issued; an error is an exception that
escapes the `setChatList` updater. -/
def handleFileSelect (st : ChatApp) (files : List FileItem)
    (response : Except ApiError Message) (now : String) :
    Except JsError (ChatApp × List UploadRequest) :=
  match st.selectedChat with
  | none => .ok (st, [])
  | some selectedChat =>
    if files.isEmpty then .ok (st, [])
    else
      let request : UploadRequest :=
        { chatId := some selectedChat._id, field := "files", content := "Attachment",
          files := files }
      match response with
      | .error _ => .ok (st, [request])
      | .ok data =>
        match updateChatListWithMessage st.chatList data selectedChat._id
            (some selectedChat._id) false now with
        | .error e => .error e
        | .ok chatList =>
          .ok ({ st with
                 messages := st.messages ++ [data]
                 chatList := chatList
                 emitted := if st.hasSocket then
                     st.emitted ++ [.sendMessage selectedChat._id data]
                   else st.emitted },
               [request])

namespace ChatDialog

/-- The handler `handleFileUpload(files)` of `ChatDialog.jsx`; `response` is the outcome
of the REST call, if it is issued, with `response.data` as its value. The result is the
state and the REST calls issued. -/
def handleFileUpload (st : ChatDialog) (files : List FileItem)
    (response : Except ApiError Message) : ChatDialog × List UploadRequest :=
  if files.isEmpty then (st, [])
  else
    let request : UploadRequest :=
      { chatId := st.chatId, field := "files", content := jsTrim st.newMessage,
        files := files }
    match response with
    | .error _ => (st, [request])
    | .ok data => ({ st with messages := st.messages ++ [data], newMessage := "" }, [request])

end ChatDialog

/-! ## `src/Context/NotificationContext.jsx` -/

/-- A notification as the feed holds it. -/
structure Notification where
  _id : String
  title : String
  read : Bool
deriving DecidableEq, Repr

/-- The React state of `NotificationProvider` that the mark-read operations read and
write: the `useState` cells `notifications` and `unreadCount`. -/
structure NotificationProvider where
  notifications : List Notification
  unreadCount : Int
deriving DecidableEq, Repr

namespace NotificationProvider

/-- The function `updateUnreadCount(notificationsList)`. -/
def updateUnreadCount (st : NotificationProvider) (notificationsList : List Notification) :
    NotificationProvider :=
  { st with unreadCount := (notificationsList.filter (fun n => !n.read)).length }

/-- The function `markAsRead(notificationId)`, the REST call settling with `outcome`: a
rejection is caught and logged. -/
def markAsRead (st : NotificationProvider) (notificationId : String)
    (outcome : Except ApiError Unit) : NotificationProvider :=
  match outcome with
  | .error _ => st
  | .ok _ =>
    { notifications := st.notifications.map (fun n =>
        if n._id = notificationId then { n with read := true } else n)
      unreadCount := max 0 (st.unreadCount - 1) }

/-- The function `markAllAsRead()`, the REST call settling with `outcome`. -/
def markAllAsRead (st : NotificationProvider) (outcome : Except ApiError Unit) :
    NotificationProvider :=
  match outcome with
  | .error _ => st
  | .ok _ =>
    { notifications := st.notifications.map (fun n => { n with read := true })
      unreadCount := 0 }

/-- The number of notifications of the list with `read` false. -/
def unreadIn (notifications : List Notification) : Int :=
  (notifications.filter (fun n => !n.read)).length

/-- The counter agrees with the list. -/
def inStep (st : NotificationProvider) : Prop :=
  st.unreadCount = unreadIn st.notifications

instance (st : NotificationProvider) : Decidable st.inStep := by
  unfold inStep; infer_instance

end NotificationProvider

/-! ## `src/services/api.js`: the response interceptor -/

/-- The property `error.response` of a rejected request: the status and the body, kept as
text. -/
structure HttpResponse where
  status : Nat
  data : Option String
deriving DecidableEq, Repr

/-- The error object with which the HTTP client rejects a request: `error.response` is
absent when no response was received. -/
structure AxiosError where
  message : String
  response : Option HttpResponse
deriving DecidableEq, Repr

/-- The value `new Error(text)`: a message and no response. -/
def AxiosError.plain (text : String) : AxiosError :=
  { message := text, response := none }

/-- What the wrappers of the REST calls read of a rejection. -/
def AxiosError.read (error : AxiosError) : ApiError :=
  { message := error.message
    status := error.response.map (fun r => r.status)
    responseMessage := error.response.bind (fun r => r.data) }

/-- What `handleError` touches in the browser: the `token` entry of `localStorage`,
`window.location.href`, and the console, of which the first argument of each
`console.error` is kept. -/
structure Browser where
  token : Option String
  href : String
  console : List String
deriving DecidableEq, Repr

/-- The response interceptor `handleError(error)`; the result is the browser and the
value with which the returned promise is rejected. -/
def handleError (b : Browser) (error : AxiosError) : Browser × AxiosError :=
  let logged : Browser := { b with console := b.console ++ ["API Error:"] }
  match error.response with
  | none => (logged, AxiosError.plain "Network error - please check your connection")
  | some response =>
    if response.status = 401 then
      ({ logged with token := none, href := "/login" }, error)
    else if response.status = 403 then
      ({ logged with console := logged.console ++ ["Forbidden access:"] }, error)
    else if response.status = 500 then
      ({ logged with console := logged.console ++ ["Server error:"] }, error)
    else
      ({ logged with console := logged.console ++ ["An error occurred:"] }, error)

/-! ## Sample values -/

/-- A message with the given id, text, time and sender and nothing else set. -/
def mkMessage (id content : String) (createdAt : Nat) (sender : Ref) : Message :=
  { _id := id, content := content, createdAt := createdAt, sender := sender,
    senderName := none, isDeleted := false, reactions := none, readBy := none,
    deliveredTo := none }

/-- A conversation with the given id and participant details and nothing else set. -/
def mkChat (id : String) (participantDetails : Option (List ParticipantDetail)) : Chat :=
  { _id := id, participantDetails := participantDetails, participants := none,
    displayName := none, lastMessage := none, lastMessageAt := none, unreadCount := none,
    unreadCounts := none }

/-- A participant detail with the given user reference and nothing else set. -/
def mkDetail (user : Ref) : ParticipantDetail :=
  { user := user, name := none, avatar := none, onlineStatus := none }

/-- A populated user with the given id and name. -/
def mkUser (id name : String) : Ref :=
  .obj { _id := some id, id := none, name := some name, avatar := none }

/-- A history page with the single message `m1`. -/
def helloPage : Page :=
  { messages := [mkMessage "m1" "hello" 1 (.str "u1")], hasMore := false }

/-- A conversation `c1` without participant details. -/
def plainChat : Chat := mkChat "c1" none

/-- The message `m1` with the text "hello", sent by the user `u1`. -/
def helloMessage : Message := mkMessage "m1" "hello" 5 (.str "u1")

/-- The component with conversation `c1` open and the draft "hello" typed. -/
def draftOpen : ChatApp :=
  { ChatApp.init with selectedChat := some plainChat, chatList := [plainChat], newMessage := "hello" }

/-- The component with conversation `c1` open and `m1` already listed. -/
def listedOpen : ChatApp :=
  { ChatApp.init with selectedChat := some plainChat, chatList := [plainChat], messages := [helloMessage] }

/-- The dialog with conversation `c1` open and `m1` already listed. -/
def listedDialog : ChatDialog :=
  { messages := [helloMessage], chatId := some "c1", currentChat := some plainChat, loading := false,
    page := 1, hasMore := false }

/-- A chat list whose only conversation has a participant detail with a `null` user. -/
def nullUserList : List Chat := [mkChat "c1" (some [mkDetail .null])]

/-- A chat list whose only conversation `c1` has two unread messages. -/
def twoUnreadList : List Chat := [{ mkChat "c1" none with unreadCount := some 2 }]

/-- The component with conversation `c1` open and nothing listed. -/
def plainOpen : ChatApp :=
  { ChatApp.init with selectedChat := some plainChat, chatList := [plainChat] }

/-- A first page with the message `m2` of time 20, then the live message `m1` of time 10
twice. -/
def unorderedOps : List SyncOp :=
  [.initial { messages := [mkMessage "m2" "later" 20 (.str "u1")], hasMore := true },
   .live (mkMessage "m1" "earlier" 10 (.str "u2")),
   .live (mkMessage "m1" "earlier" 10 (.str "u2"))]

/-- Twenty messages whose ids are `tag` followed by zero to nineteen letters `x`, with
times `start` to `start + 19`. -/
def twentyMessages (tag : Char) (start : Nat) : List Message :=
  (List.range 20).map (fun i =>
    mkMessage (String.mk (tag :: List.replicate i 'x')) "text" (start + i) (.str "u1"))

/-- The twenty newest messages. -/
def newerPage : Page := { messages := twentyMessages 'p' 100, hasMore := true }

/-- The twenty messages before them. -/
def olderPage : Page := { messages := twentyMessages 'q' 0, hasMore := false }

/-- A message newer than both pages. -/
def newestMessage : Message := mkMessage "new" "latest" 200 (.str "u2")

/-- A conversation whose participant details name the user `u1` as Alice. -/
def aliceChat : Chat := mkChat "c1" (some [mkDetail (mkUser "u1" "Alice")])

/-- The component with the conversation `aliceChat` in its chat list. -/
def aliceStart : ChatApp := { ChatApp.init with chatList := [aliceChat] }

/-- A request that got no response. -/
def networkError : ApiError :=
  { message := "Network error - please check your connection", status := none,
    responseMessage := none }

/-- A REST boundary with one message `a1` in conversation `A` and one message `b1` in
conversation `B`. -/
def twoChatRest : String → Nat → Except ApiError PageData :=
  fun chatId p =>
    if chatId = "A" ∧ p = 1 then
      .ok { messages := some [mkMessage "a1" "from A" 1 (.str "u1")], hasMore := some true }
    else if chatId = "B" ∧ p = 1 then
      .ok { messages := some [mkMessage "b1" "from B" 2 (.str "u2")], hasMore := some false }
    else
      .ok { messages := some [], hasMore := some false }

/-- A conversation `A` with an empty `unreadCounts` array. -/
def chatA : Chat := { mkChat "A" none with unreadCounts := some [] }

/-- A conversation `B` with an empty `unreadCounts` array. -/
def chatB : Chat := { mkChat "B" none with unreadCounts := some [] }

/-- The freshly mounted component with the two conversations in its chat list. -/
def twoChatInit : Session :=
  { app := { ChatApp.init with chatList := [chatA, chatB] }, suspended := [] }

/-- The user opens `A`, lets it load, loads one more page, then opens `B` and lets it
load. -/
def orderlyEvents : List Event :=
  [.selectChat chatA, .settle 0, .settle 0, .loadMore, .settle 0,
   .selectChat chatB, .settle 0, .settle 0]

/-- The user opens `A` and, before its history has arrived, opens `B`; the history of
`B` arrives first, the history of `A` last. -/
def staleEvents : List Event :=
  [.selectChat chatA, .selectChat chatB, .settle 1, .settle 0]

/-- A conversation `c1` with three unread messages in the badge counter and in the entry
of the user `me`. -/
def unreadChat : Chat :=
  { mkChat "c1" none with
    unreadCount := some 3
    unreadCounts := some [{ user := some "me", count := 3 }, { user := some "u2", count := 1 }] }

/-- The component with `unreadChat` in its chat list. -/
def unreadApp : ChatApp :=
  { ChatApp.init with selectedChat := some unreadChat, chatList := [unreadChat] }

/-- The message `m1` with a thumbs-up of the user `me` and a party popper of `u2`. -/
def reactedMessage : Message :=
  { helloMessage with
    reactions := some [{ user := some "me", emoji := "👍", createdAt := 1 },
                       { user := some "u2", emoji := "🎉", createdAt := 2 }] }

/-- The component with conversation `c1` open and `reactedMessage` listed. -/
def reactedOpen : ChatApp :=
  { ChatApp.init with selectedChat := some plainChat, chatList := [plainChat],
                      messages := [reactedMessage] }

/-- Five thumbs-up at the times 1 to 5. -/
def fiveThumbs : List (String × Nat) :=
  [("👍", 1), ("👍", 2), ("👍", 3), ("👍", 4), ("👍", 5)]

/-- The same read receipt of the user `u2` for the message `m1`, twice. -/
def readTwice : List ReceiptEvent :=
  [.read "c1" "m1" (some "u2") 10, .read "c1" "m1" (some "u2") 11]

namespace Socket

/-- A callback that returns normally. -/
def quiet (ref : Nat) : Callback := { ref := ref, throwsOn := fun _ _ => false }

/-- A callback that always throws. -/
def faulty (ref : Nat) : Callback := { ref := ref, throwsOn := fun _ _ => true }

/-- A registry whose `message` map holds the throwing callback 1 under `a` and the
callback 2 under `b`. -/
def faultyFirst : Callbacks :=
  (onMessage (onMessage Callbacks.init (faulty 1) (some "a")).1 (quiet 2) (some "b")).1

/-- A registry with two `message` callbacks under `a` and `b` and one `typing` callback
under `a`. -/
def threeQuiet : Callbacks :=
  (onTyping (onMessage (onMessage Callbacks.init (quiet 1) (some "a")).1 (quiet 2)
    (some "b")).1 (quiet 3) (some "a")).1

end Socket

namespace Socket

/-- The module after `initializeSocket("t1")` on the freshly loaded module. -/
def firstSession : SocketModule := (initializeSocket SocketModule.init "t1").1

end Socket

namespace Socket

/-- The first session once the library has connected its socket. -/
def liveSession : SocketModule :=
  match deliver firstSession 0 .connect with
  | .ok m => m
  | .error _ => firstSession

end Socket

/-- A page whose clock stands at zero, with no timer pending and a connected socket. -/
def livePage : Window :=
  { clock := 0, timers := [], lastHandle := 0, transport := Socket.liveSession }

/-- The component with a socket and conversation `c1` open. -/
def composing : ChatApp :=
  { ChatApp.init with hasSocket := true, selectedChat := some plainChat }

/-- The task dialog with a socket and conversation `c1` open. -/
def composingDialog : ChatDialog :=
  { listedDialog with hasSocket := true, chatId := some "c1" }

/-- A freshly mounted component that holds a socket. -/
def mounted : ChatApp := { ChatApp.init with hasSocket := true }

/-- Conversation `c1` with an empty `unreadCounts`. -/
def countedChat : Chat := { mkChat "c1" none with unreadCounts := some [] }

/-- The component after `handleSelectChat(c1)` has run to its end with the page
`helloPage`: the socket effect has run after the selection and again after the change of
the chat list. -/
def openedC1 : ChatApp :=
  let started :=
    socketEffect (handleSelectChat_start { mounted with chatList := [countedChat] } countedChat)
  match handleSelectChat_marked (handleSelectChat_loaded started countedChat (.ok helloPage)).1
      countedChat "me" with
  | .ok st => socketEffect st
  | .error _ => started

/-- A populated entry of `chat.participants`. -/
def mkParticipant (id name : String) (isOnline : Bool) : Participant :=
  .obj { _id := some id, name := some name, avatar := none, isOnline := isOnline,
         onlineStatus := none }

/-- A conversation of `me` and `u2` that carries only the `participants` array; `u2` is
offline. -/
def bareChat : Chat :=
  { mkChat "c1" none with
    participants := some [mkParticipant "me" "Me" true, mkParticipant "u2" "Bob" false] }

/-- A conversation of `me` and `u2` that carries `participantDetails` as well; `u2` is
offline. -/
def detailedChat : Chat :=
  { mkChat "c2" (some [{ mkDetail (mkUser "me" "Me") with onlineStatus := some "online" },
      { mkDetail (mkUser "u2" "Bob") with onlineStatus := some "offline" }]) with
    participants := some [mkParticipant "me" "Me" true, mkParticipant "u2" "Bob" false] }

/-- The component with the two conversations loaded. -/
def presenceApp : ChatApp :=
  { ChatApp.init with hasSocket := true, chatList := [bareChat, detailedChat] }

/-- A file one byte larger than 5 MB. -/
def bigFile : FileItem := { name := "big.bin", size := 5 * 1024 * 1024 + 1 }

/-- A file of exactly 5 MB. -/
def fullFile : FileItem := { name := "full.bin", size := 5 * 1024 * 1024 }

/-- The message with which the server answers an upload. -/
def uploadedMessage : Message := mkMessage "m7" "Attachment" 9 (.str "me")

/-- A feed with one notification read and one unread, and the counter at one. -/
def oneUnreadFeed : NotificationProvider :=
  { notifications := [{ _id := "n1", title := "Task assigned", read := true },
      { _id := "n2", title := "Deadline approaching", read := false }],
    unreadCount := 1 }

/-- A signed-in browser on the chat page. -/
def signedIn : Browser := { token := some "jwt", href := "/chat", console := [] }

/-- A request to which no response was received. -/
def unanswered : AxiosError := { message := "Network Error", response := none }

/-- A request that the server rejected with status 404. -/
def notFound : AxiosError :=
  { message := "Request failed with status code 404",
    response := some { status := 404, data := some "Chat not found" } }

/-- A message whose sender is `null`. -/
def orphanMessage : Message := mkMessage "m3" "left the team" 7 .null

/-- A chat list of three conversations; the one in the middle has a participant detail
with a `null` user. -/
def mixedList : List Chat := [chatA, mkChat "c1" (some [mkDetail .null]), chatB]

/-! # Theorems -/

theorem SameButName.refl (m : Message) : SameButName m m :=
  ⟨rfl, rfl, rfl, rfl, rfl, rfl, rfl⟩

theorem displayOne_same {chat : Option Chat} {m n : Message}
    (h : displayOne chat m = .ok n) : SameButName m n := by
  unfold displayOne at h
  split at h
  · cases h
  · split at h <;> (injection h with h; subst h; exact ⟨rfl, rfl, rfl, rfl, rfl, rfl, rfl⟩)

theorem jsMap_forall₂ {α β : Type} {f : α → Except JsError β} {R : α → β → Prop}
    (hf : ∀ a b, f a = .ok b → R a b) :
    ∀ {l : List α} {r : List β}, jsMap f l = .ok r → List.Forall₂ R l r
  | [], r, h => by
    simp only [jsMap] at h
    injection h with h; subst h; exact List.Forall₂.nil
  | a :: as, r, h => by
    simp only [jsMap] at h
    split at h
    · cases h
    · rename_i b hb
      split at h
      · cases h
      · rename_i bs hbs
        injection h with h; subst h
        exact List.Forall₂.cons (hf a b hb) (jsMap_forall₂ hf hbs)

theorem updateMessageDisplay_same {chat : Option Chat} {ms ns : List Message}
    (h : updateMessageDisplay ms chat = .ok ns) : List.Forall₂ SameButName ms ns := by
  unfold updateMessageDisplay at h
  split at h
  · injection h with h; subst h
    exact List.forall₂_same.mpr (fun m _ => SameButName.refl m)
  · exact @jsMap_forall₂ _ _ (displayOne chat) SameButName
      (fun _ _ hab => displayOne_same hab) ms ns h

theorem forall₂_same_ids {ms ns : List Message} (h : List.Forall₂ SameButName ms ns) :
    ns.map (·._id) = ms.map (·._id) := by
  induction h with
  | nil => rfl
  | cons hab _ ih => simp [ih, hab.1]

theorem forall₂_same_times {ms ns : List Message} (h : List.Forall₂ SameButName ms ns) :
    ns.map (·.createdAt) = ms.map (·.createdAt) := by
  induction h with
  | nil => rfl
  | cons hab _ ih => simp [ih, hab.2.2.1]

theorem forall₂_same_contents {ms ns : List Message} (h : List.Forall₂ SameButName ms ns) :
    ns.map (·.content) = ms.map (·.content) := by
  induction h with
  | nil => rfl
  | cons hab _ ih => simp [ih, hab.2.1]

theorem updateMessageDisplay_length {chat : Option Chat} {ms ns : List Message}
    (h : updateMessageDisplay ms chat = .ok ns) : ns.length = ms.length :=
  (List.Forall₂.length_eq (updateMessageDisplay_same h)).symm

/-! ## C1 -/

theorem append_self_left_iff {α : Type} (p l : List α) : p ++ (p ++ l) = p ++ l ↔ p = [] := by
  constructor
  · intro h
    have hl := congrArg List.length h
    simp only [List.length_append] at hl
    exact List.length_eq_zero.mp (by omega)
  · rintro rfl; rfl

/-- C1 (as amended): a history page merged with `isInitial = false` is prepended, after the
display step, without any comparison of ids. One merge of page `P` into `L` gives
`P' ++ L` and a second merge of the same page gives `P' ++ P' ++ L`, where `P'` has the
ids of `P`; when the display step throws the list is left as it was. Hence merging twice
equals merging once exactly when the page is empty or the display step throws. This
holds for `loadMessages` of `WhatsAppClone` and for `loadMoreMessages` of `ChatDialog`. -/
theorem merge_page_twice (st : ChatApp) (d : ChatDialog) (chat : Option Chat) (pageNum : Nat)
    (P : Page) :
    (match updateMessageDisplay P.messages chat with
     | .ok P' =>
       (loadMessages_loaded st chat pageNum false (.ok P)).messages = P' ++ st.messages ∧
       (loadMessages_loaded (loadMessages_loaded st chat pageNum false (.ok P)) chat pageNum
         false (.ok P)).messages = P' ++ (P' ++ st.messages) ∧
       (ChatDialog.loadMoreMessages_loaded d chat (.ok P)).messages = P' ++ d.messages ∧
       (ChatDialog.loadMoreMessages_loaded (ChatDialog.loadMoreMessages_loaded d chat (.ok P))
         chat (.ok P)).messages = P' ++ (P' ++ d.messages) ∧
       P'.map (·._id) = P.messages.map (·._id)
     | .error _ =>
       (loadMessages_loaded (loadMessages_loaded st chat pageNum false (.ok P)) chat pageNum
         false (.ok P)).messages = st.messages ∧
       (ChatDialog.loadMoreMessages_loaded (ChatDialog.loadMoreMessages_loaded d chat (.ok P))
         chat (.ok P)).messages = d.messages) ∧
    ((loadMessages_loaded (loadMessages_loaded st chat pageNum false (.ok P)) chat pageNum
        false (.ok P)).messages = (loadMessages_loaded st chat pageNum false (.ok P)).messages
      ↔ (P.messages = [] ∨ (updateMessageDisplay P.messages chat).isOk = false)) ∧
    ((ChatDialog.loadMoreMessages_loaded (ChatDialog.loadMoreMessages_loaded d chat (.ok P))
        chat (.ok P)).messages = (ChatDialog.loadMoreMessages_loaded d chat (.ok P)).messages
      ↔ (P.messages = [] ∨ (updateMessageDisplay P.messages chat).isOk = false)) := by
  cases h : updateMessageDisplay P.messages chat with
  | error e =>
    simp [loadMessages_loaded, ChatDialog.loadMoreMessages_loaded, h, Except.isOk,
      Except.toBool]
  | ok P' =>
    have hlen := updateMessageDisplay_length h
    have hids := forall₂_same_ids (updateMessageDisplay_same h)
    have hnil : P' = [] ↔ P.messages = [] := by
      rw [← List.length_eq_zero, ← @List.length_eq_zero _ P.messages, hlen]
    simp [loadMessages_loaded, ChatDialog.loadMoreMessages_loaded, h, Except.isOk,
      Except.toBool, hids, append_self_left_iff, hnil]

/-- C1 fails as stated: with conversation `c1` open and nothing listed, merging the
one-message page `helloPage` twice gives a list different from merging it once, and the id
`m1` then occurs twice. -/
theorem merge_page_twice_duplicates :
    (loadMessages_loaded (loadMessages_loaded plainOpen (some plainChat) 2 false (.ok helloPage))
        (some plainChat) 2 false (.ok helloPage)).messages
      ≠ (loadMessages_loaded plainOpen (some plainChat) 2 false (.ok helloPage)).messages ∧
    ((loadMessages_loaded (loadMessages_loaded plainOpen (some plainChat) 2 false (.ok helloPage))
        (some plainChat) 2 false (.ok helloPage)).messages.map (·._id)).count "m1" = 2 := by
  decide

theorem Ref.getId_of_present {r : Ref} (h : r.present = true) : ∃ i, r.getId = .ok i := by
  cases r <;> simp [Ref.present] at h <;> simp [Ref.getId]

theorem jsFind_ok {α : Type} (pred : α → Except JsError Bool) :
    ∀ (l : List α), (∀ x ∈ l, ∃ b, pred x = .ok b) → ∃ r, jsFind pred l = .ok r
  | [], _ => ⟨none, rfl⟩
  | x :: xs, h => by
    obtain ⟨b, hb⟩ := h x (List.mem_cons_self x xs)
    cases b with
    | true => exact ⟨some x, by simp [jsFind, hb]⟩
    | false =>
      obtain ⟨r, hr⟩ := jsFind_ok pred xs (fun y hy => h y (List.mem_cons_of_mem x hy))
      exact ⟨r, by simp [jsFind, hb, hr]⟩

theorem getMessageParticipantNames_ok {c : Chat} (hc : c.safe) {sender : Ref}
    (hs : sender ≠ .null) : ∃ r, getMessageParticipantNames (some c) sender = .ok r := by
  unfold getMessageParticipantNames
  split
  · exact ⟨_, rfl⟩
  · have hid : ∃ i, senderIdOf sender = .ok i := by
      cases sender <;> simp [senderIdOf] at hs ⊢
    obtain ⟨i, hi⟩ := hid
    have hdet : ∀ d ∈ ((some c).bind (·.participantDetails)).getD [],
        d.user.present = true := by
      intro d hd
      exact hc d (by simpa using hd)
    obtain ⟨r1, h1⟩ := jsFind_ok (fun (p : ParticipantDetail) => (p.user.getId).map (fun j => decide (j = i)))
      _ (fun d hd => by
        obtain ⟨j, hj⟩ := Ref.getId_of_present (hdet d hd)
        exact ⟨decide (j = i), by simp only [hj, Except.map]⟩)
    obtain ⟨r2, h2⟩ := jsFind_ok (fun (p : ParticipantDetail) => (p.user.getId).map (fun j => decide (j ≠ i)))
      _ (fun d hd => by
        obtain ⟨j, hj⟩ := Ref.getId_of_present (hdet d hd)
        exact ⟨decide (j ≠ i), by simp only [hj, Except.map]⟩)
    simp only [hi, h1, h2]
    exact ⟨_, rfl⟩

theorem getMessageParticipantNames_none (sender : Ref) :
    getMessageParticipantNames none sender = .ok ("Unknown Sender", "Unknown Receiver") := by
  simp [getMessageParticipantNames, noParticipantDetails]

theorem displayOne_ok (chat : Option Chat) (hc : chatSafe chat) {m : Message}
    (hs : m.sender ≠ .null) : ∃ n, displayOne chat m = .ok n := by
  have hn : ∃ r, getMessageParticipantNames chat m.sender = .ok r := by
    cases chat with
    | none => exact ⟨_, getMessageParticipantNames_none _⟩
    | some c => exact getMessageParticipantNames_ok hc hs
  obtain ⟨⟨a, b⟩, hr⟩ := hn
  unfold displayOne
  simp only [hr]
  split <;> exact ⟨_, rfl⟩

theorem jsMap_ok {α β : Type} (f : α → Except JsError β) :
    ∀ (l : List α), (∀ x ∈ l, ∃ b, f x = .ok b) → ∃ r, jsMap f l = .ok r
  | [], _ => ⟨[], rfl⟩
  | x :: xs, h => by
    obtain ⟨b, hb⟩ := h x (List.mem_cons_self x xs)
    obtain ⟨r, hr⟩ := jsMap_ok f xs (fun y hy => h y (List.mem_cons_of_mem x hy))
    exact ⟨b :: r, by simp [jsMap, hb, hr]⟩

theorem updateMessageDisplay_ok (chat : Option Chat) (hc : chatSafe chat)
    (ms : List Message) (hs : ∀ m ∈ ms, m.sender ≠ .null) :
    ∃ ns, updateMessageDisplay ms chat = .ok ns := by
  unfold updateMessageDisplay
  split
  · exact ⟨_, rfl⟩
  · exact jsMap_ok _ ms (fun m hm => displayOne_ok chat hc (hs m hm))

theorem updateMessageDisplay_single (chat : Option Chat) (hc : chatSafe chat)
    {m : Message} (hs : m.sender ≠ .null) :
    ∃ n, updateMessageDisplay [m] chat = .ok [n] ∧ SameButName m n := by
  obtain ⟨ns, hns⟩ := updateMessageDisplay_ok chat hc [m] (by simpa using hs)
  have hsame := updateMessageDisplay_same hns
  match ns, hsame with
  | [n], .cons h .nil => exact ⟨n, hns, h⟩

theorem previewMessage_ok {c : Chat} (hc : c.safe) (m : Message) :
    ∃ n, previewMessage c m = .ok n := by
  unfold previewMessage
  split
  · rename_i ht
    exact displayOne_ok (some c) hc (by
      intro h; rw [h] at ht; simp [Ref.truthy] at ht)
  · exact ⟨_, rfl⟩

theorem previewMessage_same {c : Chat} {m n : Message} (h : previewMessage c m = .ok n) :
    SameButName m n := by
  unfold previewMessage at h
  split at h
  · exact displayOne_same h
  · injection h with h; subst h; exact SameButName.refl m

/-! ## The shape of `updateChatListWithMessage` -/

theorem findIdx?_append_first {α : Type} (p : α → Bool) (b : α) (bs : List α) (hb : p b = true) :
    ∀ (as : List α), (∀ a ∈ as, p a = false) → (as ++ b :: bs).findIdx? p = some as.length
  | [], _ => by simp [List.findIdx?_cons, hb]
  | a :: as, h => by
    have ha : p a = false := h a (List.mem_cons_self a as)
    have ih := findIdx?_append_first p b bs hb as (fun x hx => h x (List.mem_cons_of_mem a hx))
    simp [List.findIdx?_cons, ha, List.findIdx?_succ, ih]

theorem getElem?_append_mid {α : Type} (b : α) (bs : List α) :
    ∀ (as : List α), (as ++ b :: bs)[as.length]? = some b
  | [] => by simp
  | a :: as => by simpa using getElem?_append_mid b bs as

theorem set_append_mid {α : Type} (b c : α) (bs : List α) :
    ∀ (as : List α), (as ++ b :: bs).set as.length c = as ++ c :: bs
  | [] => rfl
  | a :: as => by simp [set_append_mid b c bs as]

theorem eraseIdx_append_mid {α : Type} (b : α) (bs : List α) :
    ∀ (as : List α), (as ++ b :: bs).eraseIdx as.length = as ++ bs
  | [] => rfl
  | a :: as => by simpa using eraseIdx_append_mid b bs as

theorem updateChatListWithMessage_at (as bs : List Chat) (chat : Chat) (message : Message)
    (chatId : String) (selectedChatId : Option String) (isNotification : Bool) (now : String)
    (hid : chat._id = chatId) (hno : ∀ a ∈ as, a._id ≠ chatId) :
    updateChatListWithMessage (as ++ chat :: bs) message chatId selectedChatId isNotification
        now =
      match previewMessage chat message with
      | .error e => .error e
      | .ok updatedMessage =>
        .ok (touched chat updatedMessage chatId selectedChatId isNotification now :: (as ++ bs)) := by
  have hfind : (as ++ chat :: bs).findIdx? (fun c => c._id == chatId) = some as.length :=
    findIdx?_append_first _ chat bs (by simp [hid]) as (fun a ha => by simpa using hno a ha)
  unfold updateChatListWithMessage
  simp only [hfind, getElem?_append_mid]
  cases previewMessage chat message with
  | error e => rfl
  | ok um =>
    simp only [touched, set_append_mid, getElem?_append_mid, eraseIdx_append_mid]

theorem updateChatListWithMessage_absent (chatList : List Chat) (message : Message)
    (chatId : String) (selectedChatId : Option String) (isNotification : Bool) (now : String)
    (hno : ∀ c ∈ chatList, c._id ≠ chatId) :
    updateChatListWithMessage chatList message chatId selectedChatId isNotification now =
      .ok chatList := by
  have hfind : chatList.findIdx? (fun c => c._id == chatId) = none := by
    rw [List.findIdx?_eq_none_iff]
    intro c hc
    simpa using hno c hc
  unfold updateChatListWithMessage
  simp only [hfind]

theorem exists_first_with_id (chatId : String) :
    ∀ (chatList : List Chat), (∃ c ∈ chatList, c._id = chatId) →
      ∃ as chat bs, chatList = as ++ chat :: bs ∧ chat._id = chatId ∧ ∀ a ∈ as, a._id ≠ chatId
  | [], h => by simp at h
  | x :: xs, h => by
    by_cases hx : x._id = chatId
    · exact ⟨[], x, xs, rfl, hx, by simp⟩
    · obtain ⟨c, hc, hcid⟩ := h
      have hc2 : c ∈ xs := by
        rcases List.mem_cons.mp hc with rfl | hc
        · exact absurd hcid hx
        · exact hc
      obtain ⟨as, chat, bs, hl, hid, hno⟩ := exists_first_with_id chatId xs ⟨c, hc2, hcid⟩
      refine ⟨x :: as, chat, bs, by simp [hl], hid, ?_⟩
      intro a ha
      rcases List.mem_cons.mp ha with rfl | ha
      · exact hx
      · exact hno a ha

theorem updateChatListWithMessage_ok (chatList : List Chat) (message : Message)
    (chatId : String) (selectedChatId : Option String) (isNotification : Bool) (now : String)
    (hsafe : ∀ c ∈ chatList, c._id = chatId → c.safe) :
    ∃ r, updateChatListWithMessage chatList message chatId selectedChatId isNotification
      now = .ok r := by
  by_cases h : ∃ c ∈ chatList, c._id = chatId
  · obtain ⟨as, chat, bs, hl, hid, hno⟩ := exists_first_with_id chatId chatList h
    subst hl
    rw [updateChatListWithMessage_at as bs chat message chatId selectedChatId isNotification
      now hid hno]
    obtain ⟨n, hn⟩ := previewMessage_ok (hsafe chat (by simp) hid) message
    simp only [hn]
    exact ⟨_, rfl⟩
  · exact ⟨chatList, updateChatListWithMessage_absent chatList message chatId selectedChatId
      isNotification now (fun c hc hcid => h ⟨c, hc, hcid⟩)⟩

/-! ## C3 -/

theorem find?_safe {chatList : List Chat} {chatId : String}
    (h : ∀ c ∈ chatList, c._id = chatId → c.safe) :
    chatSafe (chatList.find? (fun c => c._id == chatId)) := by
  cases hf : chatList.find? (fun c => c._id == chatId) with
  | none => trivial
  | some c =>
    have hp := List.find?_some hf
    exact h c (List.mem_of_find?_eq_some hf) (by simpa using hp)

theorem count_ids_append_one (ms : List Message) (m n : Message) (h : n._id = m._id) :
    ((ms ++ [n]).map (·._id)).count m._id = (ms.map (·._id)).count m._id + 1 := by
  simp [List.count_append, h]

/-- C3 (as amended): the `newMessage` handler of the open conversation appends the pushed
message without looking at the ids already listed. When no participant user of the
conversation and no sender is `null`, the handler returns, the new list is the old list
followed by the pushed message (with its sender name filled in), the length grows by
one and the pushed `_id` occurs once more than before; an existing entry with that
`_id` is neither replaced nor removed. This holds for `handleNewMessage` of
`WhatsAppClone` and for the `newMessage` handler of `ChatDialog`. -/
theorem newMessage_appends (st : ChatApp) (d : ChatDialog) (sel cur : Chat)
    (message : Message) (now : String)
    (hsel : st.selectedChat = some sel) (hcur : d.currentChat = some cur)
    (hlist : ∀ c ∈ st.chatList, c._id = sel._id → c.safe) (hsafe : cur.safe)
    (hsender : message.sender ≠ .null) :
    (∃ st1 m1, handleNewMessage st sel._id message now = .ok st1 ∧ SameButName message m1 ∧
      st1.messages = st.messages ++ [m1] ∧
      st1.messages.length = st.messages.length + 1 ∧
      (st1.messages.map (·._id)).count message._id
        = (st.messages.map (·._id)).count message._id + 1) ∧
    (∃ d1 m1, d.onNewMessage message = .ok d1 ∧ SameButName message m1 ∧
      d1.messages = d.messages ++ [m1] ∧
      d1.messages.length = d.messages.length + 1 ∧
      (d1.messages.map (·._id)).count message._id
        = (d.messages.map (·._id)).count message._id + 1) := by
  constructor
  · obtain ⟨m1, hm1, hsame⟩ := updateMessageDisplay_single _ (find?_safe hlist) hsender
    obtain ⟨r, hr⟩ := updateChatListWithMessage_ok st.chatList message sel._id
      (some sel._id) false now hlist
    refine ⟨{ st with messages := st.messages ++ [m1], chatList := r }, m1, ?_, hsame, rfl,
      by simp, count_ids_append_one _ _ _ hsame.1⟩
    unfold handleNewMessage
    simp only [hsel, if_true, hm1, hr]
  · obtain ⟨m1, hm1, hsame⟩ := updateMessageDisplay_single (some cur) hsafe hsender
    refine ⟨{ d with messages := d.messages ++ [m1] }, m1, ?_, hsame, rfl, by simp,
      count_ids_append_one _ _ _ hsame.1⟩
    unfold ChatDialog.onNewMessage
    simp only [hcur, hm1]

/-- A concrete instance of `newMessage_appends`: `m1` is listed once and is pushed
again. -/
theorem newMessage_appends_witness :
    (listedOpen.selectedChat = some plainChat ∧ listedDialog.currentChat = some plainChat ∧
      (∀ c ∈ listedOpen.chatList, c._id = plainChat._id → c.safe) ∧ plainChat.safe ∧
      helloMessage.sender ≠ .null) ∧
    ((∃ st1 m1, handleNewMessage listedOpen plainChat._id helloMessage "t" = .ok st1 ∧
      SameButName helloMessage m1 ∧
      st1.messages = listedOpen.messages ++ [m1] ∧
      st1.messages.length = listedOpen.messages.length + 1 ∧
      (st1.messages.map (·._id)).count helloMessage._id
        = (listedOpen.messages.map (·._id)).count helloMessage._id + 1) ∧
    (∃ d1 m1, listedDialog.onNewMessage helloMessage = .ok d1 ∧ SameButName helloMessage m1 ∧
      d1.messages = listedDialog.messages ++ [m1] ∧
      d1.messages.length = listedDialog.messages.length + 1 ∧
      (d1.messages.map (·._id)).count helloMessage._id
        = (listedDialog.messages.map (·._id)).count helloMessage._id + 1)) :=
  ⟨⟨rfl, rfl, by decide, by decide, by decide⟩,
   newMessage_appends listedOpen listedDialog plainChat plainChat helloMessage "t" rfl rfl (by decide)
     (by decide) (by decide)⟩

/-- C3 fails as stated: the user sends "hello", which `handleSendMessage` lists as `m1`;
the echo of `m1` then arrives through the `newMessage` handler. Afterwards the list has
two entries and the id `m1` occurs twice. -/
theorem echo_is_duplicated :
    (handleSendMessage draftOpen (.ok helloMessage) "t1").map (fun st => st.messages.map (·._id))
      = .ok ["m1"] ∧
    ((handleSendMessage draftOpen (.ok helloMessage) "t1").bind
        (fun st => handleNewMessage st "c1" helloMessage "t2")).map
      (fun st => (st.messages.length, (st.messages.map (·._id)).count "m1"))
      = .ok (2, 2) := by
  decide

/-! ## C8, C9, C10 -/

/-- Whenever `updateChatListWithMessage` returns for a list that holds the conversation,
the conversation comes first, carries the message as `lastMessage` (same `_id` and
`content`), has the unread count that the code computes, and is followed by the other
conversations in their old order. -/
theorem updateChatListWithMessage_front (as bs : List Chat) (chat : Chat) (message : Message)
    (chatId : String) (selectedChatId : Option String) (isNotification : Bool) (now : String)
    (hid : chat._id = chatId) (hno : ∀ a ∈ as, a._id ≠ chatId) (r : List Chat)
    (h : updateChatListWithMessage (as ++ chat :: bs) message chatId selectedChatId
      isNotification now = .ok r) :
    ∃ c um, r = c :: (as ++ bs) ∧ c._id = chatId ∧ c.lastMessage = some um ∧
      um._id = message._id ∧ um.content = message.content ∧
      c.unreadCount = some (if selectedChatId = some chatId then 0
        else chat.unreadCount.getD 0 + (if isNotification then 1 else 0)) := by
  rw [updateChatListWithMessage_at as bs chat message chatId selectedChatId isNotification now
    hid hno] at h
  cases hp : previewMessage chat message with
  | error e => simp [hp] at h
  | ok um =>
    simp only [hp] at h
    injection h with h
    subst h
    have hsame := previewMessage_same hp
    exact ⟨_, um, rfl, hid, rfl, hsame.1, hsame.2.1, rfl⟩

/-- C8 at its failing input: the list holds conversation `c1`, one of whose participant
details has a `null` user; the read `p.user._id` in `getMessageParticipantNames` throws
and `updateChatListWithMessage` returns no list at all. -/
theorem updateChatListWithMessage_throws :
    updateChatListWithMessage nullUserList helloMessage "c1" (some "c2") false "t"
      = .error .typeError := by
  decide

/-- C9 at its failing input: conversation `c1` has two unread messages and another
conversation `c2` is open; a live message for `c1` applied as the handlers apply it
(without `isNotification`) leaves the unread count of `c1` at two. -/
theorem unread_count_not_incremented :
    (updateChatListWithMessage twoUnreadList helloMessage "c1" (some "c2") false "t").map
      (fun r => r.map (fun c => (c._id, c.unreadCount))) = .ok [("c1", some 2)] := by
  decide

/-- C10: when no conversation of the list has the given id, `updateChatListWithMessage`
returns and the list it returns equals the input: same conversations, same fields, same
order; nothing is added for the unknown conversation. -/
theorem unknown_chat_leaves_list (chatList : List Chat) (message : Message) (chatId : String)
    (selectedChatId : Option String) (isNotification : Bool) (now : String)
    (hno : ∀ c ∈ chatList, c._id ≠ chatId) :
    updateChatListWithMessage chatList message chatId selectedChatId isNotification now
      = .ok chatList :=
  updateChatListWithMessage_absent chatList message chatId selectedChatId isNotification now hno

/-- A concrete instance of `unknown_chat_leaves_list`: a message for `c9` applied to a
list that holds `c1` and `c2` only. -/
theorem unknown_chat_leaves_list_witness :
    (∀ c ∈ [mkChat "c1" (some [mkDetail .null]), mkChat "c2" none], c._id ≠ "c9") ∧
    updateChatListWithMessage [mkChat "c1" (some [mkDetail .null]), mkChat "c2" none]
      helloMessage "c9" (some "c1") true "t"
      = .ok [mkChat "c1" (some [mkDetail .null]), mkChat "c2" none] :=
  ⟨by decide,
   unknown_chat_leaves_list [mkChat "c1" (some [mkDetail .null]), mkChat "c2" none]
     helloMessage "c9" (some "c1") true "t" (by decide)⟩

theorem touched_safe {chat : Chat} (h : chat.safe) (um : Message) (chatId : String)
    (sel : Option String) (isN : Bool) (now : String) :
    (touched chat um chatId sel isN now).safe := h

theorem updateChatListWithMessage_safe {chatList r : List Chat} {message : Message}
    {chatId : String} {sel : Option String} {isN : Bool} {now : String} {key : String}
    (hsafe : listSafe key chatList)
    (h : updateChatListWithMessage chatList message chatId sel isN now = .ok r) :
    listSafe key r := by
  by_cases hex : ∃ c ∈ chatList, c._id = chatId
  · obtain ⟨as, chat, bs, hl, hid, hno⟩ := exists_first_with_id chatId chatList hex
    subst hl
    rw [updateChatListWithMessage_at as bs chat message chatId sel isN now hid hno] at h
    cases hp : previewMessage chat message with
    | error e => simp [hp] at h
    | ok um =>
      simp only [hp] at h
      injection h with h
      subst h
      intro c hc hcid
      rcases List.mem_cons.mp hc with rfl | hc
      · exact hsafe chat (by simp) hcid
      · refine hsafe c ?_ hcid
        rcases List.mem_append.mp hc with h1 | h1
        · exact List.mem_append_left _ h1
        · exact List.mem_append_right _ (List.mem_cons_of_mem _ h1)
  · rw [updateChatListWithMessage_absent chatList message chatId sel isN now
      (fun c hc hcid => hex ⟨c, hc, hcid⟩)] at h
    injection h with h
    subst h
    exact hsafe

theorem forall₂_same_append {a b c d : List Message} (h1 : List.Forall₂ SameButName a b)
    (h2 : List.Forall₂ SameButName c d) : List.Forall₂ SameButName (a ++ c) (b ++ d) :=
  List.rel_append h1 h2

theorem SameButName.trans {a b c : Message} (h1 : SameButName a b) (h2 : SameButName b c) :
    SameButName a c :=
  ⟨h2.1.trans h1.1, h2.2.1.trans h1.2.1, h2.2.2.1.trans h1.2.2.1,
   h2.2.2.2.1.trans h1.2.2.2.1, h2.2.2.2.2.1.trans h1.2.2.2.2.1,
   h2.2.2.2.2.2.1.trans h1.2.2.2.2.2.1, h2.2.2.2.2.2.2.trans h1.2.2.2.2.2.2⟩

/-- One operation, when nothing is `null`: it returns, keeps the conversation open and
the chat list safe, and changes the message list as the arrival order says. -/
theorem applySync_spec (chat : Chat) (now : String) (st : ChatApp) (op : SyncOp)
    (l : List Message)
    (hsel : st.selectedChat = some chat) (hsafe : chat.safe)
    (hlist : listSafe chat._id st.chatList) (hs : ∀ m ∈ op.incoming, m.sender ≠ .null)
    (hl : List.Forall₂ SameButName l st.messages) :
    ∃ st1, applySync chat now st op = .ok st1 ∧ st1.selectedChat = some chat ∧
      listSafe chat._id st1.chatList ∧
      List.Forall₂ SameButName (arrivalOrder l [op]) st1.messages := by
  cases op with
  | initial page =>
    have hs1 : ∀ m ∈ page.messages, m.sender ≠ .null := hs
    obtain ⟨ns, hns⟩ := updateMessageDisplay_ok (some chat) hsafe _ hs1
    refine ⟨_, rfl, ?_, ?_, ?_⟩ <;>
      simp only [handleSelectChat_loaded, handleSelectChat_start, hns, arrivalOrder]
    · exact hlist
    · exact updateMessageDisplay_same hns
  | older page =>
    have hs1 : ∀ m ∈ page.messages, m.sender ≠ .null := hs
    obtain ⟨ns, hns⟩ := updateMessageDisplay_ok (some chat) hsafe _ hs1
    refine ⟨_, rfl, ?_, ?_, ?_⟩ <;>
      simp only [loadMessages_loaded, hns, arrivalOrder]
    · exact hsel
    · exact hlist
    · simpa using forall₂_same_append (updateMessageDisplay_same hns) hl
  | live message =>
    have hm : message.sender ≠ .null := hs message (by simp [SyncOp.incoming])
    obtain ⟨m1, hm1, hsame⟩ := updateMessageDisplay_single _ (find?_safe hlist) hm
    obtain ⟨r, hr⟩ := updateChatListWithMessage_ok st.chatList message chat._id
      (some chat._id) false now hlist
    refine ⟨{ st with messages := st.messages ++ [m1], chatList := r }, ?_, hsel,
      updateChatListWithMessage_safe hlist hr, ?_⟩
    · simp only [applySync, handleNewMessage, hsel, if_true, hm1, hr]
    · simpa [arrivalOrder] using
        forall₂_same_append hl (List.Forall₂.cons hsame List.Forall₂.nil)

theorem arrivalOrder_cons (l : List Message) (op : SyncOp) (ops : List SyncOp) :
    arrivalOrder l (op :: ops) = arrivalOrder (arrivalOrder l [op]) ops := by
  cases op <;> simp [arrivalOrder]

/-- A sequence of operations, when nothing is `null`: it returns and the message list
is, message by message and up to the sender names, the arrival-order list. -/
theorem runSync_spec (chat : Chat) (now : String) :
    ∀ (ops : List SyncOp) (st : ChatApp) (l : List Message),
      st.selectedChat = some chat → chat.safe → listSafe chat._id st.chatList →
      sendersPresent ops → List.Forall₂ SameButName l st.messages →
      ∃ st1, runSync chat now st ops = .ok st1 ∧
        List.Forall₂ SameButName (arrivalOrder l ops) st1.messages
  | [], st, l, _, _, _, _, hl => ⟨st, rfl, hl⟩
  | op :: ops, st, l, hsel, hsafe, hlist, hs, hl => by
    obtain ⟨st1, h1, hsel1, hlist1, hl1⟩ := applySync_spec chat now st op l hsel hsafe hlist
      (hs op (List.mem_cons_self op ops)) hl
    obtain ⟨st2, h2, hl2⟩ := runSync_spec chat now ops st1 (arrivalOrder l [op]) hsel1 hsafe
      hlist1 (fun o ho => hs o (List.mem_cons_of_mem op ho)) hl1
    refine ⟨st2, ?_, ?_⟩
    · simp only [runSync, h1, h2]
    · rw [arrivalOrder_cons]; exact hl2

/-! ## C2 and C4 -/

/-- C2 (as amended): the code neither compares ids nor sorts. For every sequence of
history-page merges and live insertions for one conversation in which no sender and no
participant user is `null`, the sequence runs without an exception and the resulting
message list is the arrival-order list (a first page replaces the list, a further page
is put in front, a live message is put at the end) with the sender names filled in: it
has the same ids and the same `createdAt` values in the same positions. Hence the
result holds each id once and is sorted ascending by `createdAt` exactly when the
arrival-order list is so. -/
theorem sync_follows_arrival_order (chat : Chat) (now : String) (st : ChatApp)
    (ops : List SyncOp) (hsel : st.selectedChat = some chat) (hsafe : chat.safe)
    (hlist : listSafe chat._id st.chatList) (hs : sendersPresent ops) :
    ∃ st1, runSync chat now st ops = .ok st1 ∧
      List.Forall₂ SameButName (arrivalOrder st.messages ops) st1.messages ∧
      st1.messages.map (·._id) = (arrivalOrder st.messages ops).map (·._id) ∧
      st1.messages.map (·.createdAt) = (arrivalOrder st.messages ops).map (·.createdAt) ∧
      (((st1.messages.map (·._id)).Nodup ∧
          (st1.messages.map (·.createdAt)).Sorted (· ≤ ·)) ↔
        (((arrivalOrder st.messages ops).map (·._id)).Nodup ∧
          ((arrivalOrder st.messages ops).map (·.createdAt)).Sorted (· ≤ ·))) := by
  obtain ⟨st1, hrun, hsame⟩ := runSync_spec chat now ops st st.messages hsel hsafe hlist hs
    (List.forall₂_same.mpr (fun m _ => SameButName.refl m))
  have hids := forall₂_same_ids hsame
  have htimes := forall₂_same_times hsame
  exact ⟨st1, hrun, hsame, hids, htimes, by rw [hids, htimes]⟩

/-- A concrete instance of `sync_follows_arrival_order`. -/
theorem sync_follows_arrival_order_witness :
    (plainOpen.selectedChat = some plainChat ∧ plainChat.safe ∧ listSafe plainChat._id plainOpen.chatList ∧
      sendersPresent unorderedOps) ∧
    ∃ st1, runSync plainChat "t" plainOpen unorderedOps = .ok st1 ∧
      List.Forall₂ SameButName (arrivalOrder plainOpen.messages unorderedOps) st1.messages ∧
      st1.messages.map (·._id) = (arrivalOrder plainOpen.messages unorderedOps).map (·._id) ∧
      st1.messages.map (·.createdAt) = (arrivalOrder plainOpen.messages unorderedOps).map (·.createdAt) ∧
      (((st1.messages.map (·._id)).Nodup ∧
          (st1.messages.map (·.createdAt)).Sorted (· ≤ ·)) ↔
        (((arrivalOrder plainOpen.messages unorderedOps).map (·._id)).Nodup ∧
          ((arrivalOrder plainOpen.messages unorderedOps).map (·.createdAt)).Sorted (· ≤ ·))) :=
  ⟨⟨rfl, by decide, by decide, by decide⟩,
   sync_follows_arrival_order plainChat "t" plainOpen unorderedOps rfl (by decide) (by decide) (by decide)⟩

/-- C2 fails as stated: after a first page with `m2` (time 20) and two arrivals of the
live message `m1` (time 10), the list is `m2, m1, m1`: the id `m1` occurs twice and the
list is not sorted by `createdAt`. -/
theorem sync_neither_dedupes_nor_sorts :
    (runSync plainChat "t" plainOpen unorderedOps).map
        (fun st => st.messages.map (fun m => (m._id, m.createdAt)))
      = .ok [("m2", 20), ("m1", 10), ("m1", 10)] ∧
    (runSync plainChat "t" plainOpen unorderedOps).map
        (fun st => (decide (st.messages.map (·._id)).Nodup,
          decide ((st.messages.map (·.createdAt)).Sorted (· ≤ ·))))
      = .ok (false, false) := by
  decide

theorem forall₂_getLast {α β : Type} (R : α → β → Prop) (a : α) :
    ∀ (l : List α) (r : List β), List.Forall₂ R (l ++ [a]) r →
      ∃ last, r.getLast? = some last ∧ R a last
  | [], r, h => by
    match r, h with
    | [b], .cons hab .nil => exact ⟨b, rfl, hab⟩
  | x :: xs, r, h => by
    match r, h with
    | b :: bs, .cons _ htail =>
      obtain ⟨last, hlast, hR⟩ := forall₂_getLast R a xs bs htail
      refine ⟨last, ?_, hR⟩
      cases bs with
      | nil => simp at hlast
      | cons c cs => simpa [List.getLast?_cons_cons] using hlast

theorem applySync_initial_start (chat : Chat) (now : String) (st : ChatApp) (page : Page) :
    applySync chat now st (.initial page)
      = applySync chat now (handleSelectChat_start st chat) (.initial page) := rfl

/-- C4 (as amended): page 1 is loaded as the first page of a conversation, then page 2
is loaded, then a live message arrives for the open conversation; no sender and no
participant user is `null` and all ids are distinct. Then the three steps run without
an exception and the message list is `page2 ++ page1 ++ [new]` with the sender names
filled in by `updateMessageDisplay` (every other field as it came): its length is
`n + m + 1`, the new message is last and no `_id` occurs twice. -/
theorem two_pages_then_live (chat : Chat) (now : String) (st : ChatApp) (page1 page2 : Page)
    (new : Message) (hsafe : chat.safe) (hlist : listSafe chat._id st.chatList)
    (hs : ∀ m ∈ page2.messages ++ page1.messages ++ [new], m.sender ≠ .null)
    (hdistinct : ((page2.messages ++ page1.messages ++ [new]).map (·._id)).Nodup) :
    ∃ st1, runSync chat now st [.initial page1, .older page2, .live new] = .ok st1 ∧
      List.Forall₂ SameButName (page2.messages ++ page1.messages ++ [new]) st1.messages ∧
      st1.messages.map (·._id) = (page2.messages ++ page1.messages ++ [new]).map (·._id) ∧
      st1.messages.length = page1.messages.length + page2.messages.length + 1 ∧
      (∃ last, st1.messages.getLast? = some last ∧ SameButName new last) ∧
      (st1.messages.map (·._id)).Nodup := by
  have hops : sendersPresent [.initial page1, .older page2, .live new] := by
    intro op hop m hm
    simp only [List.mem_cons, List.mem_singleton, List.not_mem_nil, or_false] at hop
    rcases hop with rfl | rfl | rfl <;> simp only [SyncOp.incoming] at hm
    · exact hs m (by simp [hm])
    · exact hs m (by simp [hm])
    · exact hs m (by simp at hm; simp [hm])
  obtain ⟨st1, hrun, hsame⟩ := runSync_spec chat now [.initial page1, .older page2, .live new]
    (handleSelectChat_start st chat) [] rfl hsafe hlist hops List.Forall₂.nil
  have hrun1 : runSync chat now st [.initial page1, .older page2, .live new] = .ok st1 := by
    simp only [runSync] at hrun ⊢
    rw [applySync_initial_start]
    exact hrun
  have harr : arrivalOrder [] [.initial page1, .older page2, .live new]
      = page2.messages ++ page1.messages ++ [new] := by
    simp [arrivalOrder]
  rw [harr] at hsame
  have hids := forall₂_same_ids hsame
  have hlen := List.Forall₂.length_eq hsame
  refine ⟨st1, hrun1, hsame, hids, ?_, ?_, by rw [hids]; exact hdistinct⟩
  · rw [← hlen]; simp; omega
  · exact forall₂_getLast SameButName new _ _ hsame

/-- A concrete instance of `two_pages_then_live`: two pages of twenty messages and one
live message give a list of forty-one. -/
theorem two_pages_then_live_witness :
    (plainChat.safe ∧ listSafe plainChat._id plainOpen.chatList ∧
      (∀ m ∈ olderPage.messages ++ newerPage.messages ++ [newestMessage], m.sender ≠ .null) ∧
      ((olderPage.messages ++ newerPage.messages ++ [newestMessage]).map (·._id)).Nodup ∧
      newerPage.messages.length + olderPage.messages.length + 1 = 41) ∧
    ∃ st1, runSync plainChat "t" plainOpen [.initial newerPage, .older olderPage, .live newestMessage]
        = .ok st1 ∧
      List.Forall₂ SameButName (olderPage.messages ++ newerPage.messages ++ [newestMessage])
        st1.messages ∧
      st1.messages.map (·._id)
        = (olderPage.messages ++ newerPage.messages ++ [newestMessage]).map (·._id) ∧
      st1.messages.length = newerPage.messages.length + olderPage.messages.length + 1 ∧
      (∃ last, st1.messages.getLast? = some last ∧ SameButName newestMessage last) ∧
      (st1.messages.map (·._id)).Nodup :=
  ⟨⟨by decide, by decide, by decide, by decide, by decide⟩,
   two_pages_then_live plainChat "t" plainOpen newerPage olderPage newestMessage (by decide) (by decide)
     (by decide) (by decide)⟩

/-- C4 fails as stated: with one message of `u1` per page, the three steps give a list
with the ids of `page2 ++ page1 ++ [new]`, but the list is not equal to it, because each
entry has received the sender name Alice. -/
theorem two_pages_then_live_differs :
    (runSync aliceChat "t" aliceStart
        [.initial { messages := [mkMessage "m2" "two" 2 (.str "u1")], hasMore := true },
         .older { messages := [mkMessage "m1" "one" 1 (.str "u1")], hasMore := false },
         .live (mkMessage "m3" "three" 3 (.str "u1"))]).map (·.messages)
      ≠ .ok ([mkMessage "m1" "one" 1 (.str "u1")] ++ [mkMessage "m2" "two" 2 (.str "u1")]
          ++ [mkMessage "m3" "three" 3 (.str "u1")]) ∧
    (runSync aliceChat "t" aliceStart
        [.initial { messages := [mkMessage "m2" "two" 2 (.str "u1")], hasMore := true },
         .older { messages := [mkMessage "m1" "one" 1 (.str "u1")], hasMore := false },
         .live (mkMessage "m3" "three" 3 (.str "u1"))]).map
        (fun st => st.messages.map (fun m => (m._id, m.senderName)))
      = .ok [("m1", some "Alice"), ("m2", some "Alice"), ("m3", some "Alice")] := by
  decide

/-! ## C5 and C7 -/

/-- C5 (as amended): the code has no provisional message and no failed state. When
`handleSendMessage` runs with a non-blank draft and the REST call fails, the call ends
normally (it does not reject), the message list and the chat list are what they were
(no entry is added for the failed send), the draft is set back to the trimmed content
and the failure is shown to the user through `alert`. -/
theorem failed_send_restores_draft (st : ChatApp) (sel : Chat) (error : ApiError)
    (now : String) (hsel : st.selectedChat = some sel) (hdraft : jsTrim st.newMessage ≠ "") :
    ∃ rejection, sendMessage (.error error) = .error rejection ∧
      handleSendMessage st (.error error) now
        = .ok { st with
            newMessage := jsTrim st.newMessage
            alerts := st.alerts ++ ["Failed to send message: " ++ rejection.shown] } := by
  have hrej : ∃ rejection, sendMessage (.error error) = .error rejection := by
    by_cases h1 : error.status = some 403
    · exact ⟨ApiError.plain "You cannot send messages to this chat",
        by simp [sendMessage, chats.sendMessage, h1]⟩
    · by_cases h2 : error.status = some 500
      · exact ⟨ApiError.plain "Failed to send message. Please try again.",
          by simp [sendMessage, chats.sendMessage, h2]⟩
      · exact ⟨error, by simp [sendMessage, chats.sendMessage, h1, h2]⟩
  obtain ⟨rejection, hr⟩ := hrej
  refine ⟨rejection, hr, ?_⟩
  simp [handleSendMessage, handleSendMessage_start, hsel, hdraft, hr,
    handleSendMessage_settled]

/-- A concrete instance of `failed_send_restores_draft`: the draft "hello" and a
network error. -/
theorem failed_send_restores_draft_witness :
    (draftOpen.selectedChat = some plainChat ∧ jsTrim draftOpen.newMessage ≠ "") ∧
    ∃ rejection, sendMessage (.error networkError) = .error rejection ∧
      handleSendMessage draftOpen (.error networkError) "t"
        = .ok { draftOpen with
            newMessage := jsTrim draftOpen.newMessage
            alerts := draftOpen.alerts ++ ["Failed to send message: " ++ rejection.shown] } :=
  ⟨⟨rfl, by decide⟩,
   failed_send_restores_draft draftOpen plainChat networkError "t" rfl (by decide)⟩

/-- C5 fails as stated: after the failed send of "hello" the message list holds no
message with the content "hello" (it is empty, as it was), and the call has ended
normally with the draft restored and one alert. -/
theorem failed_send_lists_nothing :
    (handleSendMessage draftOpen (.error networkError) "t").map
        (fun st => ((st.messages.filter (fun m => m.content == "hello")).length,
          st.messages, st.newMessage, st.alerts))
      = .ok (0, [], "hello",
          ["Failed to send message: Network error - please check your connection"]) := by
  decide

/-- C7 (as amended): `loadChatMessages` never rejects. Whatever the outcome of the HTTP
request, it resolves with a page; when the request fails (and `chats.getMessages`
rejects) it resolves with the empty page `{ messages: [], hasMore: false }`, which is
also what it resolves with for an empty last page. -/
theorem loadChatMessages_never_rejects (raw : Except ApiError PageData) (error : ApiError) :
    (∃ page, loadChatMessages raw = .ok page) ∧
    (∃ rejection, chats.getMessages (.error error) = .error rejection) ∧
    loadChatMessages (.error error) = .ok { messages := [], hasMore := false } ∧
    loadChatMessages (.error error)
      = loadChatMessages (.ok { messages := some [], hasMore := some false }) := by
  have hrej : ∃ rejection, chats.getMessages (.error error) = .error rejection := by
    by_cases h : error.status = some 500
    · exact ⟨ApiError.plain "Failed to load messages. Please try again.",
        by simp [chats.getMessages, h]⟩
    · exact ⟨error, by simp [chats.getMessages, h]⟩
  have hempty : loadChatMessages (.error error) = .ok { messages := [], hasMore := false } := by
    obtain ⟨rejection, hr⟩ := hrej
    simp [loadChatMessages, hr]
  refine ⟨?_, hrej, hempty, ?_⟩
  · unfold loadChatMessages
    split <;> exact ⟨_, rfl⟩
  · rw [hempty]; rfl

/-- C7 fails as stated: for a request that got no response `loadChatMessages` resolves,
and with the same value as for an empty last page. -/
theorem loadChatMessages_swallows_failure :
    loadChatMessages (.error networkError) = .ok { messages := [], hasMore := false } ∧
    loadChatMessages (.error networkError)
      = loadChatMessages (.ok { messages := some [], hasMore := some false }) := by
  decide

theorem loadChatMessages_from (raw : Except ApiError PageData) :
    ∃ page, loadChatMessages raw = .ok page ∧
      ∀ m ∈ page.messages, ∃ data, raw = .ok data ∧ m ∈ data.messages.getD [] := by
  cases raw with
  | ok data => exact ⟨_, rfl, fun m hm => ⟨data, rfl, hm⟩⟩
  | error e =>
    by_cases h : e.status = some 500
    · exact ⟨{ messages := [], hasMore := false }, by simp [loadChatMessages, chats.getMessages, h],
        fun m hm => by simp at hm⟩
    · exact ⟨{ messages := [], hasMore := false }, by simp [loadChatMessages, chats.getMessages, h],
        fun m hm => by simp at hm⟩

theorem displayed_fetched (rest : String → Nat → Except ApiError PageData) (chatId : String)
    (p : Nat) (chat : Option Chat) (page : Page) (updated : List Message)
    (hpage : loadChatMessages (rest chatId p) = .ok page)
    (hup : updateMessageDisplay page.messages chat = .ok updated) :
    ∀ m ∈ updated, fetchedFor rest chatId m := by
  intro m hm
  obtain ⟨page1, hp1, hfrom⟩ := loadChatMessages_from (rest chatId p)
  rw [hpage] at hp1
  injection hp1 with hp1
  subst hp1
  have hids := forall₂_same_ids (updateMessageDisplay_same hup)
  have hmid : m._id ∈ page.messages.map (·._id) := by
    rw [← hids]; exact List.mem_map_of_mem _ hm
  obtain ⟨n, hn, hnid⟩ := List.mem_map.mp hmid
  obtain ⟨data, hdata, hmem⟩ := hfrom n hn
  exact ⟨p, data, hdata, by rw [← hnid]; exact List.mem_map_of_mem _ hmem⟩

theorem markReadInList_ok (userId : String) (chatId : String) :
    ∀ (chatList : List Chat), countsDefined chatList →
      ∃ r, markReadInList chatList chatId userId = .ok r ∧ countsDefined r
  | [], _ => ⟨[], rfl, by intro c hc; simp at hc⟩
  | c :: cs, h => by
    obtain ⟨r, hr, hrc⟩ := markReadInList_ok userId chatId cs
      (fun x hx => h x (List.mem_cons_of_mem c hx))
    have hc := h c (List.mem_cons_self c cs)
    unfold markReadInList at hr ⊢
    by_cases hid : c._id = chatId
    · cases hu : c.unreadCounts with
      | none => exact absurd hu hc
      | some ucs =>
        refine ⟨{ c with unreadCounts := some (ucs.map (fun uc =>
          if uc.user = some userId then { uc with count := 0 } else uc)) } :: r,
          by simp [jsMap, hid, hu, hr], ?_⟩
        intro x hx
        rcases List.mem_cons.mp hx with rfl | hx
        · simp
        · exact hrc x hx
    · refine ⟨c :: r, by simp [jsMap, hid, hr], ?_⟩
      intro x hx
      rcases List.mem_cons.mp hx with rfl | hx
      · exact hc
      · exact hrc x hx

theorem loadsMatch_erase_append {s : Session} {app : ChatApp} (i : Nat) (extra : List Suspended)
    (hsel : app.selectedChat = s.app.selectedChat) (hloads : loadsMatchSelection s)
    (hextra : ∀ k ∈ extra, k.isLoad = false) :
    loadsMatchSelection { app := app, suspended := s.suspended.eraseIdx i ++ extra } := by
  intro k hk hload
  rcases List.mem_append.mp hk with hk | hk
  · obtain ⟨sel, h1, h2⟩ := hloads k (List.eraseIdx_subset _ _ hk) hload
    exact ⟨sel, by simpa [hsel] using h1, h2⟩
  · rw [hextra k hk] at hload; cases hload

theorem step_keeps (rest : String → Nat → Except ApiError PageData) (userId : String)
    (s : Session) (e : Event)
    (hshow : showsOnlySelected rest s) (hloads : loadsMatchSelection s)
    (hcounts : countsDefined s.app.chatList)
    (hallowed : ∀ chat, e = .selectChat chat → loadsAreFor chat._id s = true) :
    ∃ s1, step rest userId s e = .ok s1 ∧ showsOnlySelected rest s1 ∧
      loadsMatchSelection s1 ∧ countsDefined s1.app.chatList := by
  cases e with
  | selectChat chat =>
    refine ⟨_, rfl, ?_, ?_, hcounts⟩
    · simp [showsOnlySelected, handleSelectChat_start]
    · intro k hk hload
      refine ⟨chat, rfl, ?_⟩
      rcases List.mem_append.mp hk with hk | hk
      · have hall := hallowed chat rfl
        simp only [loadsAreFor, List.all_eq_true] at hall
        have := hall k hk
        simpa [hload] using this
      · simp at hk; subst hk; rfl
  | loadMore =>
    unfold step
    cases hsel : s.app.selectedChat with
    | none => exact ⟨s, by simp, hshow, hloads, hcounts⟩
    | some sel =>
      by_cases hmore : s.app.hasMore = true
      · by_cases hloading : s.app.loading = true
        · exact ⟨s, by simp [hmore, loadMessages_start, hloading], hshow, hloads, hcounts⟩
        · refine ⟨{ app := { s.app with loading := true },
                    suspended := s.suspended ++
                      [.loadingMore (some sel) sel._id (s.app.page + 1)] },
            by simp [hmore, loadMessages_start, hloading], ?_, ?_, hcounts⟩
          · simpa [showsOnlySelected, hsel] using hshow
          · intro k hk hload
            rcases List.mem_append.mp hk with hk | hk
            · obtain ⟨sel1, h1, h2⟩ := hloads k hk hload
              exact ⟨sel1, h1, h2⟩
            · simp at hk; subst hk; exact ⟨sel, hsel, rfl⟩
      · exact ⟨s, by simp [hmore], hshow, hloads, hcounts⟩
  | settle i =>
    unfold step
    cases hk : s.suspended[i]? with
    | none => exact ⟨s, by simp [hk], hshow, hloads, hcounts⟩
    | some k =>
      have hmem : k ∈ s.suspended := List.getElem?_mem hk
      cases k with
      | selectLoading chat =>
        obtain ⟨sel, hsel, htarget⟩ := hloads _ hmem rfl
        have hid : chat._id = sel._id := by simpa [Suspended.target] using htarget
        obtain ⟨page, hpage, -⟩ := loadChatMessages_from (rest chat._id 1)
        cases hup : updateMessageDisplay page.messages (some chat) with
        | error err =>
          refine ⟨{ app := { s.app with
                      alerts := s.app.alerts ++ ["Failed to load chat messages. Please try again."],
                      loading := false },
                    suspended := s.suspended.eraseIdx i },
            by simp [hk, handleSelectChat_loaded, hpage, hup], ?_, ?_, hcounts⟩
          · simpa [showsOnlySelected] using hshow
          · simpa using loadsMatch_erase_append i [] rfl hloads (by simp)
        | ok updated =>
          refine ⟨{ app := { s.app with messages := updated, hasMore := page.hasMore },
                    suspended := s.suspended.eraseIdx i ++ [.selectMarking chat] },
            by simp [hk, handleSelectChat_loaded, hpage, hup], ?_, ?_, hcounts⟩
          · simp only [showsOnlySelected, hsel]
            rw [← hid]
            exact displayed_fetched rest chat._id 1 (some chat) page updated hpage hup
          · exact loadsMatch_erase_append i _ rfl hloads (by simp [Suspended.isLoad])
      | selectMarking chat =>
        obtain ⟨r, hr, hrc⟩ := markReadInList_ok userId chat._id s.app.chatList hcounts
        refine ⟨{ app := { s.app with
                    chatList := r
                    emitted := if s.app.hasSocket then
                        s.app.emitted ++ [.markAsRead chat._id userId] else s.app.emitted
                    newMessage := ""
                    loading := false },
                  suspended := s.suspended.eraseIdx i },
          by simp [hk, handleSelectChat_marked, hr], ?_, ?_, hrc⟩
        · simpa [showsOnlySelected] using hshow
        · simpa using loadsMatch_erase_append i [] rfl hloads (by simp)
      | loadingMore closureChat chatId pageNum =>
        obtain ⟨sel, hsel, htarget⟩ := hloads _ hmem rfl
        have hid : chatId = sel._id := by simpa [Suspended.target] using htarget
        obtain ⟨page, hpage, -⟩ := loadChatMessages_from (rest chatId pageNum)
        cases hup : updateMessageDisplay page.messages closureChat with
        | error err =>
          refine ⟨{ app := { s.app with loading := false },
                    suspended := s.suspended.eraseIdx i },
            by simp [hk, loadMessages_loaded, hpage, hup], ?_, ?_, hcounts⟩
          · simpa [showsOnlySelected] using hshow
          · simpa using loadsMatch_erase_append i [] rfl hloads (by simp)
        | ok updated =>
          refine ⟨{ app := { s.app with
                      messages := updated ++ s.app.messages
                      hasMore := page.hasMore
                      page := pageNum
                      loading := false },
                    suspended := s.suspended.eraseIdx i },
            by simp [hk, loadMessages_loaded, hpage, hup], ?_, ?_, hcounts⟩
          · simp only [showsOnlySelected, hsel] at hshow ⊢
            intro m hm
            rcases List.mem_append.mp hm with hm | hm
            · rw [← hid]
              exact displayed_fetched rest chatId pageNum closureChat page updated hpage hup m hm
            · exact hshow m hm
          · simpa using loadsMatch_erase_append i [] rfl hloads (by simp)

/-! ## C6 -/

theorem run_keeps (rest : String → Nat → Except ApiError PageData) (userId : String) :
    ∀ (events : List Event) (s : Session), showsOnlySelected rest s → loadsMatchSelection s →
      countsDefined s.app.chatList → switchesAfterLoads rest userId s events = true →
      ∃ s1, run rest userId s events = .ok s1 ∧ showsOnlySelected rest s1
  | [], s, hshow, _, _, _ => ⟨s, rfl, hshow⟩
  | e :: es, s, hshow, hloads, hcounts, hrun => by
    simp only [switchesAfterLoads, Bool.and_eq_true] at hrun
    obtain ⟨hallowed, hrest⟩ := hrun
    obtain ⟨s1, hstep, hshow1, hloads1, hcounts1⟩ := step_keeps rest userId s e hshow hloads
      hcounts (fun chat he => by subst he; exact hallowed)
    simp only [hstep] at hrest
    obtain ⟨s2, hrun2, hshow2⟩ := run_keeps rest userId es s1 hshow1 hloads1 hcounts1 hrest
    exact ⟨s2, by simp only [run, hstep, hrun2], hshow2⟩

/-- C6 (as amended): the code has no guard against stale responses; a history response
is applied to the message list when it arrives, whatever conversation is selected then.
If a conversation is selected only when every history load still in flight is a load
for that same conversation, then every interleaving of select and load-more requests
and their responses runs without an exception and the displayed message list contains
only messages fetched for the selected conversation. -/
theorem only_selected_shown_without_overlap (rest : String → Nat → Except ApiError PageData)
    (userId : String) (events : List Event) (s : Session)
    (hshow : showsOnlySelected rest s) (hloads : loadsMatchSelection s)
    (hcounts : countsDefined s.app.chatList)
    (hrun : switchesAfterLoads rest userId s events = true) :
    ∃ s1, run rest userId s events = .ok s1 ∧ showsOnlySelected rest s1 :=
  run_keeps rest userId events s hshow hloads hcounts hrun

/-- A concrete instance of `only_selected_shown_without_overlap`. -/
theorem only_selected_shown_without_overlap_witness :
    (showsOnlySelected twoChatRest twoChatInit ∧ loadsMatchSelection twoChatInit ∧
      countsDefined twoChatInit.app.chatList ∧
      switchesAfterLoads twoChatRest "me" twoChatInit orderlyEvents = true) ∧
    ∃ s1, run twoChatRest "me" twoChatInit orderlyEvents = .ok s1 ∧ showsOnlySelected twoChatRest s1 :=
  ⟨⟨rfl, fun k hk => by simp [twoChatInit] at hk, by decide, by decide⟩,
   only_selected_shown_without_overlap twoChatRest "me" orderlyEvents twoChatInit rfl
     (fun k hk => by simp [twoChatInit] at hk) (by decide) (by decide)⟩

theorem twoChatRest_B (p : Nat) (data : PageData) (h : twoChatRest "B" p = .ok data) :
    "a1" ∉ (data.messages.getD []).map (·._id) := by
  unfold twoChatRest at h
  by_cases hp : p = 1
  · subst hp
    simp at h
    subst h
    decide
  · simp [hp] at h
    subst h
    decide

/-- C6 fails as stated: the user opens `A` and then `B` while the history of `A` is in
flight; the history of `B` arrives, then the history of `A`. Afterwards `B` is selected
and the displayed list is the message `a1` of `A`, which was not fetched for `B`. -/
theorem stale_history_is_shown :
    (run twoChatRest "me" twoChatInit staleEvents).map
        (fun s => (s.app.selectedChat.map (·._id), s.app.messages.map (·._id)))
      = .ok (some "B", ["a1"]) ∧
    ¬ (∃ s, run twoChatRest "me" twoChatInit staleEvents = .ok s ∧ showsOnlySelected twoChatRest s) := by
  have hrun : (run twoChatRest "me" twoChatInit staleEvents).map
      (fun s => (s.app.selectedChat.map (·._id), s.app.messages.map (·._id)))
      = .ok (some "B", ["a1"]) := by decide
  refine ⟨hrun, ?_⟩
  rintro ⟨s, hs, hshow⟩
  rw [hs] at hrun
  simp only [Except.map, Except.ok.injEq, Prod.mk.injEq] at hrun
  obtain ⟨hsel, hmsgs⟩ := hrun
  cases hsc : s.app.selectedChat with
  | none => simp [hsc] at hsel
  | some sel =>
    simp only [hsc, Option.map_some', Option.some.injEq] at hsel
    simp only [showsOnlySelected, hsc] at hshow
    have hin : "a1" ∈ s.app.messages.map (·._id) := by rw [hmsgs]; simp
    obtain ⟨m, hm, hmid⟩ := List.mem_map.mp hin
    obtain ⟨p, data, hdata, hmem⟩ := hshow m hm
    rw [hsel] at hdata
    rw [hmid] at hmem
    exact twoChatRest_B p data hdata hmem

/-! ## C11 to C15 -/

theorem jsMap_fixed {α : Type} {f : α → Except JsError α}
    (hf : ∀ a b, f a = .ok b → f b = .ok b) :
    ∀ {l r : List α}, jsMap f l = .ok r → jsMap f r = .ok r
  | [], r, h => by
    simp only [jsMap] at h
    injection h with h; subst h; rfl
  | a :: as, r, h => by
    simp only [jsMap] at h
    split at h
    · cases h
    · rename_i b hb
      split at h
      · cases h
      · rename_i bs hbs
        injection h with h; subst h
        simp only [jsMap, hf a b hb, jsMap_fixed hf hbs]

/-- The function that `markReadInList` maps over the chat list. -/
theorem markReadInList_eq (prevList : List Chat) (chatId userId : String) :
    markReadInList prevList chatId userId = jsMap (fun c =>
      if c._id = chatId then
        match c.unreadCounts with
        | none => .error .typeError
        | some ucs =>
          let cleared := ucs.map (fun uc =>
            if uc.user = some userId then { uc with count := 0 } else uc)
          .ok { c with unreadCounts := some cleared }
      else .ok c) prevList := rfl

/-- The read-marking step of `handleSelectChat` never writes `unreadCount`, the counter
of the badge: every conversation keeps the value it had. -/
theorem markReadInList_keeps_unreadCount {l r : List Chat} {chatId userId : String}
    (h : markReadInList l chatId userId = .ok r) :
    r.map (fun c => (c._id, c.unreadCount)) = l.map (fun c => (c._id, c.unreadCount)) := by
  rw [markReadInList_eq] at h
  have hrel := jsMap_forall₂ (R := fun (a b : Chat) => (b._id, b.unreadCount) = (a._id, a.unreadCount))
    (fun a b hab => by
      simp only at hab
      split at hab
      · split at hab
        · cases hab
        · injection hab with hab; subst hab; rfl
      · injection hab with hab; subst hab; rfl) h
  clear h
  induction hrel with
  | nil => rfl
  | cons hab _ ih => simp [ih, hab]

/-- The read-marking step of `handleSelectChat` is idempotent: applied to its own result
it returns that result. -/
theorem markReadInList_idem {l r : List Chat} {chatId userId : String}
    (h : markReadInList l chatId userId = .ok r) :
    markReadInList r chatId userId = .ok r := by
  rw [markReadInList_eq] at h ⊢
  refine jsMap_fixed (fun a b hab => ?_) h
  simp only at hab ⊢
  split at hab
  · rename_i hid
    split at hab
    · cases hab
    · rename_i ucs hu
      injection hab with hab
      subst hab
      simp only [hid, if_true]
      congr 2
      simp only [List.map_map]
      congr 1
      apply List.map_congr_left
      intro uc _
      simp only [Function.comp]
      split <;> simp_all
  · rename_i hid
    injection hab with hab; subst hab
    simp [hid]

/-- C11 at its failing input: conversation `c1` shows three unread messages
(`unreadCount` is 3) when the user `me` opens it. The read-marking step of
`handleSelectChat` sets the entry of `me` in `unreadCounts` to zero and leaves
`unreadCount`, the counter of the badge, at 3. -/
theorem read_marking_keeps_badge :
    (handleSelectChat_marked unreadApp unreadChat "me").map
        (fun st => st.chatList.map (fun c => (c._id, c.unreadCount, c.unreadCounts)))
      = .ok [("c1", some 3,
          some [{ user := some "me", count := 0 }, { user := some "u2", count := 1 }])] := by
  decide

theorem forall₂_map_self {α : Type} {R : α → α → Prop} (f : α → α) (l : List α)
    (h : ∀ a ∈ l, R a (f a)) : List.Forall₂ R l (l.map f) :=
  List.forall₂_map_right_iff.mpr (List.forall₂_same.mpr h)

theorem filter_eq_of_filter_ne (l : List Reaction) (u : Option String) :
    (l.filter (fun r => decide (r.user ≠ u))).filter (fun r => decide (r.user = u)) = [] := by
  rw [List.filter_filter, List.filter_eq_nil_iff]
  intro r _
  by_cases h : r.user = u <;> simp [h]

theorem withReaction_added (messageId : String) (reaction : Reaction) (m : Message)
    (hm : m._id = messageId) : ReactionAdded messageId reaction m (withReaction m reaction) := by
  unfold ReactionAdded
  rw [if_pos hm]
  refine ⟨rfl, ?_, ?_⟩
  · simp only [withReaction, Option.getD_some, List.filter_append, filter_eq_of_filter_ne,
      List.nil_append]
    simp
  · simp only [withReaction, Option.getD_some, List.filter_append, List.filter_filter]
    simp

theorem addReaction_map (messageId : String) (reaction : Reaction) (messages : List Message) :
    List.Forall₂ (ReactionAdded messageId reaction) messages
      (messages.map (fun msg => if msg._id = messageId then withReaction msg reaction else msg)) := by
  apply forall₂_map_self
  intro m _
  by_cases hm : m._id = messageId
  · simp only [hm, if_true]
    exact withReaction_added messageId reaction m hm
  · simp only [hm, if_false]
    unfold ReactionAdded
    rw [if_neg hm]

theorem reactionAdded_single {messageId : String} {reaction : Reaction} {l r : List Message}
    (h : List.Forall₂ (ReactionAdded messageId reaction) l r) :
    ∀ n ∈ r, n._id = messageId →
      (n.reactions.getD []).filter (fun x => decide (x.user = reaction.user)) = [reaction] := by
  induction h with
  | nil => intro n hn; simp at hn
  | @cons m n l r hmn _ ih =>
    intro x hx hid
    rcases List.mem_cons.mp hx with rfl | hx
    · unfold ReactionAdded at hmn
      by_cases hm : m._id = messageId
      · rw [if_pos hm] at hmn
        exact hmn.2.1
      · rw [if_neg hm] at hmn
        subst hmn
        exact absurd hid hm
    · exact ih x hx hid

theorem reactAll_snoc (st : ChatApp) (userId messageId : String) (steps : List (String × Nat))
    (emoji : String) (now : Nat) :
    reactAll st userId messageId (steps ++ [(emoji, now)])
      = handleReaction_start (reactAll st userId messageId steps) userId messageId emoji now := by
  simp [reactAll, List.foldl_append]

/-- C12: an add-reaction, be it the local update of `handleReaction` or the
`messageReaction` handler of the open conversation, leaves every message with the given
`_id` with exactly one reaction of the reacting user, the one just given, and keeps the
reactions of all other users; every other field and every other message is unchanged.
Hence after any sequence of local add-reactions by one user on one message, each message
with that `_id` holds a single entry of that user, with the last emoji. -/
theorem add_reaction_single_entry (st : ChatApp) (sel : Chat) (userId messageId emoji : String)
    (now : Nat) (reaction : Reaction) (steps : List (String × Nat))
    (hsel : st.selectedChat = some sel) :
    List.Forall₂
        (ReactionAdded messageId { user := some userId, emoji := emoji, createdAt := now })
        st.messages (handleReaction_start st userId messageId emoji now).messages ∧
    List.Forall₂ (ReactionAdded messageId reaction) st.messages
        (onMessageReaction st sel._id messageId reaction).messages ∧
    ∀ n ∈ (reactAll st userId messageId (steps ++ [(emoji, now)])).messages,
      n._id = messageId →
        (n.reactions.getD []).filter (fun r => decide (r.user = some userId))
          = [{ user := some userId, emoji := emoji, createdAt := now }] := by
  refine ⟨addReaction_map _ _ _, ?_, ?_⟩
  · simp only [onMessageReaction, hsel, if_true]
    exact addReaction_map _ _ _
  · rw [reactAll_snoc]
    exact reactionAdded_single
      (addReaction_map messageId { user := some userId, emoji := emoji, createdAt := now }
        (reactAll st userId messageId steps).messages)

/-- A concrete instance of `add_reaction_single_entry`: on a message that carries a
thumbs-up of `me` and a reaction of `u2`, five thumbs-up and then a heart by `me` leave
the reaction of `u2` and one entry of `me`, the heart. -/
theorem add_reaction_single_entry_witness :
    reactedOpen.selectedChat = some plainChat ∧
    (List.Forall₂
        (ReactionAdded "m1" { user := some "me", emoji := "❤️", createdAt := 6 })
        reactedOpen.messages (handleReaction_start reactedOpen "me" "m1" "❤️" 6).messages ∧
      List.Forall₂ (ReactionAdded "m1" { user := some "u3", emoji := "😀", createdAt := 7 })
        reactedOpen.messages
        (onMessageReaction reactedOpen plainChat._id "m1"
          { user := some "u3", emoji := "😀", createdAt := 7 }).messages ∧
      ∀ n ∈ (reactAll reactedOpen "me" "m1" (fiveThumbs ++ [("❤️", 6)])).messages,
        n._id = "m1" →
          (n.reactions.getD []).filter (fun r => decide (r.user = some "me"))
            = [{ user := some "me", emoji := "❤️", createdAt := 6 }]) ∧
    (reactAll reactedOpen "me" "m1" (fiveThumbs ++ [("❤️", 6)])).messages.map (·.reactions)
      = [some [{ user := some "u2", emoji := "🎉", createdAt := 2 },
               { user := some "me", emoji := "❤️", createdAt := 6 }]] :=
  ⟨rfl,
   add_reaction_single_entry reactedOpen plainChat "me" "m1" "❤️" 6
     { user := some "u3", emoji := "😀", createdAt := 7 } fiveThumbs rfl,
   by decide⟩

/-- C13 at its failing input: the message `m1` carries a thumbs-up of the user `me` and a
reaction of `u2`; `me` reacts with a heart and the server call fails. The `catch` block
removes every reaction of `me`: the list ends with the reaction of `u2` alone, and the
thumbs-up that was there before the call is lost. -/
theorem failed_reaction_drops_earlier :
    (handleReaction reactedOpen "me" "m1" "❤️" 6 (.error networkError)).messages.map
        (·.reactions)
      = [some [{ user := some "u2", emoji := "🎉", createdAt := 2 }]] ∧
    reactedOpen.messages.map (·.reactions)
      = [some [{ user := some "me", emoji := "👍", createdAt := 1 },
               { user := some "u2", emoji := "🎉", createdAt := 2 }]] := by
  decide

/-- C14: the `messageDeleted` handler of the open conversation sets `isDeleted` on each
message with the given `_id` and changes nothing else: the list has the same length and
order, such a message keeps every other field (its content among them), every other
message is unchanged, and no other part of the component state changes. -/
theorem deleted_flag_only (st : ChatApp) (sel : Chat) (messageId : String)
    (hsel : st.selectedChat = some sel) :
    onMessageDeleted st sel._id messageId
      = { st with messages := (onMessageDeleted st sel._id messageId).messages } ∧
    (onMessageDeleted st sel._id messageId).messages.length = st.messages.length ∧
    List.Forall₂
      (fun m n => if m._id = messageId then n = { m with isDeleted := true } else n = m)
      st.messages (onMessageDeleted st sel._id messageId).messages := by
  simp only [onMessageDeleted, hsel, if_true, List.length_map, true_and]
  apply forall₂_map_self
  intro m _
  by_cases hm : m._id = messageId <;> simp [hm]

/-- A concrete instance of `deleted_flag_only`: the message `m1` of the open conversation
is deleted. -/
theorem deleted_flag_only_witness :
    listedOpen.selectedChat = some plainChat ∧
    (onMessageDeleted listedOpen plainChat._id "m1"
      = { listedOpen with messages := (onMessageDeleted listedOpen plainChat._id "m1").messages } ∧
    (onMessageDeleted listedOpen plainChat._id "m1").messages.length
      = listedOpen.messages.length ∧
    List.Forall₂
      (fun m n => if m._id = "m1" then n = { m with isDeleted := true } else n = m)
      listedOpen.messages (onMessageDeleted listedOpen plainChat._id "m1").messages) ∧
    (onMessageDeleted listedOpen plainChat._id "m1").messages
      = [{ helloMessage with isDeleted := true }] :=
  ⟨rfl, deleted_flag_only listedOpen plainChat "m1" rfl, by decide⟩

theorem receiptsExtend_refl (m : Message) : ReceiptsExtend m m :=
  ⟨rfl, List.prefix_refl _, List.prefix_refl _⟩

theorem receiptsExtend_trans {a b c : Message} (h1 : ReceiptsExtend a b)
    (h2 : ReceiptsExtend b c) : ReceiptsExtend a c :=
  ⟨h2.1.trans h1.1, h1.2.1.trans h2.2.1, h1.2.2.trans h2.2.2⟩

theorem forall₂_receipts_trans :
    ∀ {l1 l2 l3 : List Message}, List.Forall₂ ReceiptsExtend l1 l2 →
      List.Forall₂ ReceiptsExtend l2 l3 → List.Forall₂ ReceiptsExtend l1 l3
  | _, _, _, .nil, .nil => .nil
  | _, _, _, .cons h1 t1, .cons h2 t2 =>
    .cons (receiptsExtend_trans h1 h2) (forall₂_receipts_trans t1 t2)

theorem forall₂_receipts_refl (l : List Message) : List.Forall₂ ReceiptsExtend l l :=
  List.forall₂_same.mpr (fun m _ => receiptsExtend_refl m)

theorem forall₂_chain {α : Type} {R S T : α → α → Prop}
    (h : ∀ a b c, R a b → S b c → T a c) :
    ∀ {l1 l2 l3 : List α}, List.Forall₂ R l1 l2 → List.Forall₂ S l2 l3 → List.Forall₂ T l1 l3
  | _, _, _, .nil, .nil => .nil
  | _, _, _, .cons h1 t1, .cons h2 t2 => .cons (h _ _ _ h1 h2) (forall₂_chain h t1 t2)

theorem messageDeliveredListener_extends (selected : String) (st : ChatApp)
    (messageId chatId : String) (deliveredTo : List String) (now : Nat) :
    List.Forall₂ ReceiptsExtend st.messages
      (messageDeliveredListener selected st messageId chatId deliveredTo now).messages := by
  unfold messageDeliveredListener
  split
  · apply forall₂_map_self
    intro m _
    by_cases hm : m._id = messageId
    · simp only [hm, if_true]
      exact ⟨hm.symm, List.prefix_refl _, by simp⟩
    · simp only [hm, if_false]
      exact receiptsExtend_refl m
  · exact forall₂_receipts_refl _

theorem deliveredListeners_extend (messageId chatId : String) (deliveredTo : List String)
    (now : Nat) (runs : List String) :
    ∀ st : ChatApp, List.Forall₂ ReceiptsExtend st.messages
      (runs.foldl (fun s selected =>
        messageDeliveredListener selected s messageId chatId deliveredTo now) st).messages := by
  induction runs with
  | nil => intro st; exact forall₂_receipts_refl _
  | cons selected runs ih =>
    intro st
    rw [List.foldl_cons]
    exact forall₂_receipts_trans
      (messageDeliveredListener_extends selected st messageId chatId deliveredTo now) (ih _)

theorem applyReceipt_extends (st : ChatApp) (e : ReceiptEvent) :
    List.Forall₂ ReceiptsExtend st.messages (applyReceipt st e).messages := by
  cases e with
  | read chatId messageId userId now =>
    simp only [applyReceipt, onMessageRead]
    split
    · exact forall₂_receipts_refl _
    · split
      · apply forall₂_map_self
        intro m _
        by_cases hm : m._id = messageId
        · simp only [hm, if_true]
          exact ⟨hm.symm, by simp, List.prefix_refl _⟩
        · simp only [hm, if_false]
          exact receiptsExtend_refl m
      · exact forall₂_receipts_refl _
  | delivered messageId chatId deliveredTo now =>
    simp only [applyReceipt, onMessageDelivered]
    exact deliveredListeners_extend messageId chatId deliveredTo now st.effectRuns st

theorem applyReceipts_extends :
    ∀ (events : List ReceiptEvent) (st : ChatApp),
      List.Forall₂ ReceiptsExtend st.messages (applyReceipts st events).messages
  | [], st => forall₂_receipts_refl _
  | e :: es, st => by
    have h1 := applyReceipt_extends st e
    have h2 := applyReceipts_extends es (applyReceipt st e)
    simpa [applyReceipts] using forall₂_receipts_trans h1 h2

theorem delivered_entries_of (deliveredTo : List String) (user : String) (now : Nat) :
    ((deliveredTo.map
        (fun id => ({ userId := some id, deliveredAt := now } : DeliveryReceipt))).filter
      (fun r => decide (r.userId = some user))).length = deliveredTo.count user := by
  induction deliveredTo with
  | nil => rfl
  | cons d ds ih =>
    by_cases hd : d = user
    · simp [hd, List.filter_cons, ih]
    · have hd2 : ¬ (some d = some user) := fun h => hd (Option.some.inj h)
      simp [List.filter_cons, ih, List.count_cons, hd]

theorem messageDeliveredListener_count (selected user messageId chatId : String)
    (deliveredTo : List String) (now : Nat) (st : ChatApp) :
    List.Forall₂
      (fun m n => n._id = m._id ∧
        deliveredCount n (some user) = deliveredCount m (some user) +
          (if selected = chatId then 1 else 0) *
            (if m._id = messageId then deliveredTo.count user else 0))
      st.messages
      (messageDeliveredListener selected st messageId chatId deliveredTo now).messages := by
  unfold messageDeliveredListener
  by_cases hs : selected = chatId
  · simp only [hs, if_true, one_mul]
    apply forall₂_map_self
    intro m _
    by_cases hm : m._id = messageId
    · simp only [hm, if_true, true_and, deliveredCount, Option.getD_some, List.filter_append,
        List.length_append, delivered_entries_of]
    · simp [hm]
  · simp only [hs, if_false, zero_mul, Nat.add_zero]
    exact List.forall₂_same.mpr (fun m _ => ⟨rfl, rfl⟩)

theorem deliveredListeners_count (user messageId chatId : String) (deliveredTo : List String)
    (now : Nat) (runs : List String) :
    ∀ st : ChatApp, List.Forall₂
      (fun m n => n._id = m._id ∧
        deliveredCount n (some user) = deliveredCount m (some user) +
          runs.count chatId * (if m._id = messageId then deliveredTo.count user else 0))
      st.messages
      (runs.foldl (fun s selected =>
        messageDeliveredListener selected s messageId chatId deliveredTo now) st).messages := by
  induction runs with
  | nil =>
    intro st
    simp only [List.foldl_nil, List.count_nil, zero_mul, Nat.add_zero]
    exact List.forall₂_same.mpr (fun m _ => ⟨rfl, rfl⟩)
  | cons selected runs ih =>
    intro st
    rw [List.foldl_cons]
    refine forall₂_chain ?_
      (messageDeliveredListener_count selected user messageId chatId deliveredTo now st) (ih _)
    intro a b c hab hbc
    obtain ⟨h1, h2⟩ := hab
    obtain ⟨h3, h4⟩ := hbc
    refine ⟨h3.trans h1, ?_⟩
    rw [h4, h2, h1, List.count_cons]
    by_cases hs : selected = chatId
    · simp only [hs, if_true, one_mul, beq_self_eq_true]
      ring
    · have hb : (selected == chatId) = false := by simpa using hs
      simp only [hs, if_false, zero_mul, Nat.add_zero, hb, Bool.false_eq_true]

/-- C15 (as amended): `readBy` and `deliveredTo` only grow at their end. For every
sequence of `messageRead` and `messageDelivered` events each message keeps its `_id` and
its old `readBy` and `deliveredTo` entries, unchanged and in front. There is no look-up
by user: a `messageRead` event for the open conversation adds one entry for its user to
every message with the given `_id`, and a `messageDelivered` event for the open
conversation, whose listeners are attached, adds entries for every id it lists, whether or
not the user has an entry already. -/
theorem receipts_only_append (st : ChatApp) (sel : Chat) (events : List ReceiptEvent)
    (messageId : String) (userId : Option String) (user : String) (deliveredTo : List String)
    (now : Nat) (hsel : st.selectedChat = some sel) (hrun : sel._id ∈ st.effectRuns) :
    List.Forall₂ ReceiptsExtend st.messages (applyReceipts st events).messages ∧
    List.Forall₂
      (fun m n => readCount n userId = readCount m userId + (if m._id = messageId then 1 else 0))
      st.messages (onMessageRead st sel._id messageId userId now).messages ∧
    List.Forall₂
      (fun m n => deliveredCount m (some user)
        + (if m._id = messageId then deliveredTo.count user else 0) ≤ deliveredCount n (some user))
      st.messages (onMessageDelivered st messageId sel._id deliveredTo now).messages := by
  refine ⟨applyReceipts_extends events st, ?_, ?_⟩
  · simp only [onMessageRead, hsel, if_true]
    apply forall₂_map_self
    intro m _
    by_cases hm : m._id = messageId
    · simp [hm, readCount, List.filter_append]
    · simp [hm]
  · have hpos : 1 ≤ st.effectRuns.count sel._id := List.count_pos_iff.mpr hrun
    refine List.Forall₂.imp ?_
      (deliveredListeners_count user messageId sel._id deliveredTo now st.effectRuns st)
    intro m n h
    rw [h.2]
    exact Nat.add_le_add_left (Nat.le_mul_of_pos_left _ hpos) _

/-- A concrete instance of `receipts_only_append`. -/
theorem receipts_only_append_witness :
    openedC1.selectedChat = some countedChat ∧ "c1" ∈ openedC1.effectRuns ∧
    (List.Forall₂ ReceiptsExtend openedC1.messages
        (applyReceipts openedC1 readTwice).messages ∧
    List.Forall₂
      (fun m n => readCount n (some "u2")
        = readCount m (some "u2") + (if m._id = "m1" then 1 else 0))
      openedC1.messages (onMessageRead openedC1 "c1" "m1" (some "u2") 10).messages ∧
    List.Forall₂
      (fun m n => deliveredCount m (some "u2")
        + (if m._id = "m1" then ["u2", "u3"].count "u2" else 0) ≤ deliveredCount n (some "u2"))
      openedC1.messages
      (onMessageDelivered openedC1 "m1" "c1" ["u2", "u3"] 10).messages) :=
  ⟨by decide, by decide,
   receipts_only_append openedC1 countedChat readTwice "m1" (some "u2") "u2" ["u2", "u3"]
    10 (by decide) (by decide)⟩

/-- C15 fails as stated: conversation `c1` is open with the message `m1` listed; when the
read receipt of `u2` for `m1` is delivered twice, `readBy` of `m1` holds two entries for
`u2`. -/
theorem receipt_delivered_twice_is_listed_twice :
    (applyReceipts openedC1 readTwice).messages.map (fun m => (m._id, m.readBy))
      = [("m1", some [{ user := some "u2", readAt := 10 },
                      { user := some "u2", readAt := 11 }])] := by
  decide

/-- After `handleSelectChat(c1)` has run to its end, two runs of the socket effect have
attached a `messageDelivered` listener, and one `messageDelivered` event appends two
entries for the user it lists. -/
theorem one_delivery_runs_every_listener :
    openedC1.effectRuns = ["c1", "c1"] ∧
    (applyReceipt openedC1 (.delivered "m1" "c1" ["u2"] 10)).messages.map (·.deliveredTo)
      = [some [{ userId := some "u2", deliveredAt := 10 },
               { userId := some "u2", deliveredAt := 10 }]] := by
  decide

/-! ## C16 and C17 -/

namespace Socket

theorem forEachCallback_log (data : String) (subType : SubType) :
    ∀ (map : CallbackMap),
      (forEachCallback data subType map).1
        = (map.takeWhile (fun e => !e.2.throwsOn data subType)
            ++ (map.dropWhile (fun e => !e.2.throwsOn data subType)).take 1).map
            (invocationOf data subType) ∧
      (forEachCallback data subType map).2
        = (map.find? (fun e => e.2.throwsOn data subType)).map (fun e => e.2.ref)
  | [] => ⟨rfl, rfl⟩
  | (k, cb) :: rest => by
    obtain ⟨h1, h2⟩ := forEachCallback_log data subType rest
    by_cases hc : cb.throwsOn data subType = true
    · simp [forEachCallback, hc, List.takeWhile, List.dropWhile, invocationOf]
    · simp only [Bool.not_eq_true] at hc
      simp [forEachCallback, hc, List.takeWhile, List.dropWhile, invocationOf, h1, h2]

theorem forEachCallback_quiet (data : String) (subType : SubType) :
    ∀ (map : CallbackMap), (∀ e ∈ map, e.2.throwsOn data subType = false) →
      forEachCallback data subType map = (map.map (invocationOf data subType), none)
  | [], _ => rfl
  | (k, cb) :: rest, h => by
    have hc := h (k, cb) (List.mem_cons_self _ _)
    have ih := forEachCallback_quiet data subType rest
      (fun e he => h e (List.mem_cons_of_mem _ he))
    simp only at hc
    simp [forEachCallback, hc, ih, invocationOf]

theorem ofName_name (c : Category) : Category.ofName c.name = some c := by
  cases c <;> decide

/-- C16 (as amended): `notifyCallbacks` has no `try`. For every category it calls the
registered callbacks in insertion order, each with `(data, subType)`, up to and including
the first one that throws; that exception escapes and the callbacks after it are not
called. When no callback of the category throws, each is called exactly once and nothing
escapes. For a name that is no category nothing is called. -/
theorem notifyCallbacks_until_first_throw (callbacks : Callbacks) (category : Category)
    (type data : String) (subType : SubType) :
    (notifyCallbacks callbacks category.name data subType).1
      = ((callbacks category).takeWhile (fun e => !e.2.throwsOn data subType)
          ++ ((callbacks category).dropWhile (fun e => !e.2.throwsOn data subType)).take 1).map
          (invocationOf data subType) ∧
    (notifyCallbacks callbacks category.name data subType).2
      = ((callbacks category).find? (fun e => e.2.throwsOn data subType)).map
          (fun e => e.2.ref) ∧
    ((∀ e ∈ callbacks category, e.2.throwsOn data subType = false) →
      notifyCallbacks callbacks category.name data subType
        = ((callbacks category).map (invocationOf data subType), none)) ∧
    (Category.ofName type = none → notifyCallbacks callbacks type data subType = ([], none)) := by
  refine ⟨?_, ?_, ?_, ?_⟩
  · simp only [notifyCallbacks, ofName_name]
    exact (forEachCallback_log data subType _).1
  · simp only [notifyCallbacks, ofName_name]
    exact (forEachCallback_log data subType _).2
  · intro h
    simp only [notifyCallbacks, ofName_name]
    exact forEachCallback_quiet data subType _ h
  · intro h
    simp only [notifyCallbacks, h]

/-- A concrete instance of `notifyCallbacks_until_first_throw`: two quiet `message`
callbacks are both called, and the name `presence` is no category. -/
theorem notifyCallbacks_until_first_throw_witness :
    ((∀ e ∈ threeQuiet .message, e.2.throwsOn "hello" (.text "new") = false) ∧
      Category.ofName "presence" = none) ∧
    notifyCallbacks threeQuiet "message" "hello" (.text "new")
      = ([{ ref := 1, data := "hello", subType := .text "new" },
          { ref := 2, data := "hello", subType := .text "new" }], none) ∧
    notifyCallbacks threeQuiet "presence" "hello" (.text "new") = ([], none) :=
  ⟨⟨by decide, by decide⟩,
   (notifyCallbacks_until_first_throw threeQuiet .message "presence" "hello"
      (.text "new")).2.2.1 (by decide),
   (notifyCallbacks_until_first_throw threeQuiet .message "presence" "hello"
      (.text "new")).2.2.2 (by decide)⟩

/-- C16 fails as stated: with the throwing callback 1 registered before the callback 2
in the category `message`, a dispatch calls the callback 1 only; its exception escapes
and the callback 2 is not called. -/
theorem throwing_callback_stops_dispatch :
    notifyCallbacks faultyFirst "message" "hello" (.text "new")
      = ([{ ref := 1, data := "hello", subType := .text "new" }], some 1) := by
  decide

theorem mapGet_none_iff (id : String) :
    ∀ (map : CallbackMap), mapGet map id = none ↔ ∀ e ∈ map, e.1 ≠ id
  | [] => by simp [mapGet]
  | (k, v) :: rest => by
    have ih := mapGet_none_iff id rest
    by_cases hk : k = id
    · simp [mapGet, hk]
    · simp [mapGet, hk, ih]

theorem mapGet_mapDelete_self (map : CallbackMap) (id : String) :
    mapGet (mapDelete map id) id = none := by
  rw [mapGet_none_iff]
  intro e he
  simpa [mapDelete] using (List.mem_filter.mp he).2

theorem mapGet_mapDelete_other (id id2 : String) (h : id2 ≠ id) :
    ∀ (map : CallbackMap), mapGet (mapDelete map id) id2 = mapGet map id2
  | [] => rfl
  | (k, v) :: rest => by
    have ih := mapGet_mapDelete_other id id2 h rest
    unfold mapDelete at ih ⊢
    by_cases hk : k = id
    · have hk2 : ¬ k = id2 := fun h2 => h (h2.symm.trans hk)
      have hk3 : ¬ id = id2 := fun h2 => h h2.symm
      subst hk
      simp only [List.filter_cons, ne_eq, not_true_eq_false, decide_False, mapGet, hk3,
        if_false]
      exact ih
    · by_cases hk2 : k = id2
      · subst hk2
        simp [List.filter_cons, hk, mapGet]
      · simp only [List.filter_cons, ne_eq, hk, not_false_eq_true, decide_True, if_true,
          mapGet, hk2, if_false]
        exact ih

theorem mapDelete_absent (map : CallbackMap) (id : String) (h : mapGet map id = none) :
    mapDelete map id = map := by
  rw [mapGet_none_iff] at h
  unfold mapDelete
  rw [List.filter_eq_self]
  intro e he
  simpa using h e he

theorem registration_eq (category : Category) : registration category = registerIn category := by
  cases category <;> rfl

/-- C17 (as amended): a registration stores the callback under the pair of its category
and id (`"default"` when none is given), and the cleanup function it returns deletes
whatever is stored under that pair when it runs. After the cleanup nothing is stored
under the pair; every callback stored under another id or in another category is still
stored, in the same order, and is still called on dispatch; and when nothing is stored
under the pair, the cleanup changes nothing. A callback that a different registration
call stored under the same pair is removed as well. -/
theorem cleanup_deletes_by_id (callbacks later : Callbacks) (category other : Category)
    (callback : Callback) (id : Option String) (id2 data : String) (subType : SubType) :
    mapGet ((registration category callbacks callback id).1 category) (id.getD "default")
      = some callback ∧
    mapGet (((registration category callbacks callback id).2 later) category)
      (id.getD "default") = none ∧
    ((other ≠ category ∨ id2 ≠ id.getD "default") →
      mapGet (((registration category callbacks callback id).2 later) other) id2
        = mapGet (later other) id2) ∧
    (other ≠ category → ((registration category callbacks callback id).2 later) other
      = later other) ∧
    ((registration category callbacks callback id).2 later) category
      = (later category).filter (fun e => decide (e.1 ≠ id.getD "default")) ∧
    (mapGet (later category) (id.getD "default") = none →
      (registration category callbacks callback id).2 later = later) ∧
    ((∀ e ∈ later other, e.2.throwsOn data subType = false) →
      notifyCallbacks ((registration category callbacks callback id).2 later) other.name data
          subType
        = (((later other).filter
              (fun e => !(decide (other = category) && decide (e.1 = id.getD "default")))).map
            (invocationOf data subType), none)) := by
  rw [registration_eq]
  refine ⟨?_, ?_, ?_, ?_, ?_, ?_, ?_⟩
  · simp only [registerIn, if_true]
    generalize callbacks category = map
    induction map with
    | nil => simp [mapSet, mapGet]
    | cons e rest ih =>
      obtain ⟨k, v⟩ := e
      by_cases hk : k = id.getD "default"
      · simp [mapSet, mapGet, hk]
      · simp [mapSet, mapGet, hk, ih]
  · simp only [registerIn, if_true]
    exact mapGet_mapDelete_self _ _
  · intro h
    simp only [registerIn]
    by_cases hc : other = category
    · subst hc
      simp only [if_true]
      rcases h with h | h
      · exact absurd rfl h
      · exact mapGet_mapDelete_other _ _ h _
    · simp only [hc, if_false]
  · intro hc
    simp only [registerIn, hc, if_false]
  · simp only [registerIn, if_true, mapDelete]
  · intro h
    funext c
    simp only [registerIn]
    by_cases hc : c = category
    · subst hc
      simp only [if_true]
      exact mapDelete_absent _ _ h
    · simp only [hc, if_false]
  · intro h
    simp only [notifyCallbacks, ofName_name, registerIn]
    by_cases hc : other = category
    · subst hc
      simp only [if_true, mapDelete]
      rw [forEachCallback_quiet]
      · congr 2
        apply List.filter_congr
        intro e _
        by_cases he : e.1 = id.getD "default" <;> simp [he]
      · intro e he
        exact h e (List.mem_filter.mp he).1
    · simp only [hc, if_false]
      rw [forEachCallback_quiet _ _ _ h]
      congr 2
      symm
      rw [List.filter_eq_self]
      intro e _
      simp [hc]

/-- A concrete instance of `cleanup_deletes_by_id`: the cleanup of a `message`
registration under `a`, run on a registry with `message` callbacks under `a` and `b` and
a `typing` callback under `a`, leaves the callback under `b` and the `typing` callback. -/
theorem cleanup_deletes_by_id_witness :
    ((Category.typing ≠ Category.message ∨ "a" ≠ (some "a").getD "default") ∧
      (∀ e ∈ threeQuiet .message, e.2.throwsOn "hello" .undef = false) ∧
      (∀ e ∈ threeQuiet .typing, e.2.throwsOn "hello" .undef = false) ∧
      mapGet (Callbacks.init .message) ((some "a").getD "default") = none) ∧
    mapGet (((registration .message Callbacks.init (quiet 1) (some "a")).2 threeQuiet) .typing)
      "a" = mapGet (threeQuiet .typing) "a" ∧
    notifyCallbacks ((registration .message Callbacks.init (quiet 1) (some "a")).2 threeQuiet)
      "message" "hello" .undef = ([{ ref := 2, data := "hello", subType := .undef }], none) ∧
    notifyCallbacks ((registration .message Callbacks.init (quiet 1) (some "a")).2 threeQuiet)
      "typing" "hello" .undef = ([{ ref := 3, data := "hello", subType := .undef }], none) ∧
    (registration .message Callbacks.init (quiet 1) (some "a")).2 Callbacks.init
      = Callbacks.init :=
  ⟨⟨by decide, by decide, by decide, rfl⟩,
   (cleanup_deletes_by_id Callbacks.init threeQuiet .message .typing (quiet 1) (some "a") "a"
      "hello" .undef).2.2.1 (by decide),
   (cleanup_deletes_by_id Callbacks.init threeQuiet .message .message (quiet 1) (some "a") "a"
      "hello" .undef).2.2.2.2.2.2 (by decide),
   (cleanup_deletes_by_id Callbacks.init threeQuiet .message .typing (quiet 1) (some "a") "a"
      "hello" .undef).2.2.2.2.2.2 (by decide),
   (cleanup_deletes_by_id Callbacks.init Callbacks.init .message .typing (quiet 1) (some "a")
      "a" "hello" .undef).2.2.2.2.2.1 rfl⟩

/-- C17 fails as stated: two components register a `message` callback with the default
id, first the callback 1, then the callback 2. A dispatch then calls the callback 2 only.
After the cleanup function of the first registration has run, a dispatch calls nothing:
it has removed the callback of the second registration. -/
theorem cleanup_removes_other_registration :
    (notifyCallbacks
        (onMessage (onMessage Callbacks.init (quiet 1) none).1 (quiet 2) none).1
        "message" "hello" .undef).1
      = [{ ref := 2, data := "hello", subType := .undef }] ∧
    (notifyCallbacks
        ((onMessage Callbacks.init (quiet 1) none).2
          (onMessage (onMessage Callbacks.init (quiet 1) none).1 (quiet 2) none).1)
        "message" "hello" .undef).1
      = [] := by
  decide

end Socket

/-! ## C18 to C20 -/

namespace Socket

theorem deliver_connectError_below (m : SocketModule) (h : Nat) (s : ClientSocket)
    (hs : m.sockets[h]? = some s) (hact : s.active = true) (hconn : s.connected = false)
    (hlt : m.reconnectAttempts + 1 < MAX_RECONNECT_ATTEMPTS) :
    deliver m h .connectError = .ok { m with reconnectAttempts := m.reconnectAttempts + 1 } := by
  have hnot : ¬ (m.reconnectAttempts + 1 ≥ MAX_RECONNECT_ATTEMPTS) := Nat.not_le.mpr hlt
  simp only [deliver, hs, ClientSocket.canEmit, hact, hconn, Bool.not_false, Bool.and_self,
    if_true, connectErrorHandler, hnot, if_false]

theorem deliver_connectError_cap (m : SocketModule) (h : Nat) (s : ClientSocket)
    (hheld : m.socket = some h) (hs : m.sockets[h]? = some s) (hact : s.active = true)
    (hconn : s.connected = false) (hge : m.reconnectAttempts + 1 ≥ MAX_RECONNECT_ATTEMPTS) :
    deliver m h .connectError
      = .ok (callDisconnect { m with reconnectAttempts := m.reconnectAttempts + 1 } h) := by
  simp only [deliver, hs, ClientSocket.canEmit, hact, hconn, Bool.not_false, Bool.and_self,
    if_true, connectErrorHandler, hge, hheld]

theorem errors_below_cap :
    ∀ (k : Nat) (m : SocketModule) (h : Nat) (s : ClientSocket),
      m.sockets[h]? = some s → s.active = true → s.connected = false →
      m.reconnectAttempts + k < MAX_RECONNECT_ATTEMPTS →
      deliverAll m h (List.replicate k .connectError)
        = .ok { m with reconnectAttempts := m.reconnectAttempts + k }
  | 0, m, h, s, _, _, _, _ => rfl
  | k + 1, m, h, s, hs, hact, hconn, hlt => by
    have h1 := deliver_connectError_below m h s hs hact hconn (by omega)
    have h2 := errors_below_cap k { m with reconnectAttempts := m.reconnectAttempts + 1 } h s
      hs hact hconn (by simp only; omega)
    simp only [List.replicate_succ, deliverAll, h1, h2]
    congr 2
    omega

theorem closed_socket_is_silent (m : SocketModule) (h : Nat) (s : ClientSocket)
    (hs : m.sockets[h]? = some s) (hact : s.active = false) (hconn : s.connected = false) :
    ∀ (events : List SocketEvent), deliverAll m h events = .ok m
  | [] => rfl
  | e :: es => by
    have h1 : deliver m h e = .ok m := by
      cases e <;> simp [deliver, hs, ClientSocket.canEmit, hact, hconn]
    simp only [deliverAll, h1]
    exact closed_socket_is_silent m h s hs hact hconn es

theorem getElem?_updateSocket_self (sockets : List ClientSocket) (h : Nat) (s : ClientSocket)
    (f : ClientSocket → ClientSocket) (hs : sockets[h]? = some s) :
    (updateSocket sockets h f)[h]? = some (f s) := by
  have hlt : h < sockets.length := by
    by_contra hge
    rw [List.getElem?_eq_none (Nat.le_of_not_lt hge)] at hs
    cases hs
  simp [updateSocket, hs, hlt]

theorem getElem?_updateSocket_other (sockets : List ClientSocket) (h k : Nat)
    (f : ClientSocket → ClientSocket) (hk : k ≠ h) :
    (updateSocket sockets h f)[k]? = sockets[k]? := by
  unfold updateSocket
  split
  · simp [List.getElem?_set, Ne.symm hk]
  · rfl

theorem length_updateSocket (sockets : List ClientSocket) (h : Nat)
    (f : ClientSocket → ClientSocket) : (updateSocket sockets h f).length = sockets.length := by
  unfold updateSocket
  split <;> simp

theorem createSocket_keeps_open (m : SocketModule) (token : String)
    (hclosed : ∀ (k : Nat) (s : ClientSocket), m.sockets[k]? = some s →
      s.active = false ∧ s.connected = false) :
    onlyHeldIsOpen (createSocket m token).1 := by
  intro k s hk hopen
  simp only [createSocket] at hk ⊢
  by_cases hlt : k < m.sockets.length
  · rw [List.getElem?_append_left hlt] at hk
    obtain ⟨h1, h2⟩ := hclosed k s hk
    rcases hopen with h | h
    · rw [h1] at h; cases h
    · rw [h2] at h; cases h
  · by_cases heq : k = m.sockets.length
    · rw [heq]
    · have hgt : m.sockets.length < k := by omega
      rw [List.getElem?_eq_none (by simp; omega)] at hk
      cases hk

theorem initializeSocket_keeps_open (m : SocketModule) (token : String)
    (hinv : onlyHeldIsOpen m) : onlyHeldIsOpen (initializeSocket m token).1 := by
  unfold initializeSocket
  cases hsock : m.socket with
  | none =>
    simp only
    apply createSocket_keeps_open
    intro k s hk
    have hne : ¬ (s.active = true ∨ s.connected = true) := by
      intro hopen
      have := hinv k s hk hopen
      rw [hsock] at this
      cases this
    cases hact : s.active <;> cases hcon : s.connected <;> simp_all
  | some h =>
    simp only
    by_cases hconn : isConnected m h = true
    · simp only [hconn, if_true]
      exact hinv
    · simp only [hconn, if_false]
      apply createSocket_keeps_open
      intro k s hk
      simp only [callDisconnect] at hk
      by_cases hkh : k = h
      · subst hkh
        cases hold : m.sockets[k]? with
        | none =>
          simp only [updateSocket, hold] at hk
          cases hk
        | some old =>
          rw [getElem?_updateSocket_self _ _ old _ hold] at hk
          injection hk with hk
          subst hk
          exact ⟨rfl, rfl⟩
      · rw [getElem?_updateSocket_other _ _ _ _ hkh] at hk
        have hne : ¬ (s.active = true ∨ s.connected = true) := by
          intro hopen
          have := hinv k s hk hopen
          rw [hsock] at this
          injection this with this
          exact hkh this.symm
        cases hact : s.active <;> cases hcon : s.connected <;> simp_all

/-- C18: when the module holds a connected socket, `initializeSocket(token)` returns that
socket for every token and changes nothing: no socket is created, no call is made on the
library, no handler is attached. Otherwise a socket that the module holds is
disconnected and dropped first, then one socket is created with the token, stored and
given its handlers. In both cases the module holds one handle at most, and every socket
that is connected or trying to connect is the one it holds. -/
theorem initializeSocket_reuses_or_replaces (m : SocketModule) (token : String) :
    (∀ h, m.socket = some h → isConnected m h = true → initializeSocket m token = (m, h)) ∧
    (∀ h, m.socket = some h → isConnected m h = false →
      (initializeSocket m token).2 = m.sockets.length ∧
      (initializeSocket m token).1.socket = some m.sockets.length ∧
      (initializeSocket m token).1.calls
        = m.calls ++ [.disconnect h, .io token, .on m.sockets.length] ∧
      (initializeSocket m token).1.sockets
        = updateSocket m.sockets h (fun s => { s with connected := false, active := false })
          ++ [{ token := token, connected := false, active := true }] ∧
      (initializeSocket m token).1.reconnectAttempts = m.reconnectAttempts) ∧
    (m.socket = none →
      initializeSocket m token
        = ({ m with
              sockets := m.sockets ++ [{ token := token, connected := false, active := true }]
              socket := some m.sockets.length
              calls := m.calls ++ [.io token, .on m.sockets.length] },
           m.sockets.length)) ∧
    (onlyHeldIsOpen m → onlyHeldIsOpen (initializeSocket m token).1) := by
  refine ⟨?_, ?_, ?_, initializeSocket_keeps_open m token⟩
  · intro h hheld hconn
    simp only [initializeSocket, hheld, hconn, if_true]
  · intro h hheld hconn
    simp [initializeSocket, hheld, hconn, createSocket, callDisconnect, length_updateSocket]
  · intro hnone
    simp only [initializeSocket, hnone, createSocket]

/-- A concrete instance of `initializeSocket_reuses_or_replaces`: a second call while the
first socket is still connecting replaces that socket, and a second call after the event
`connect` returns it. -/
theorem initializeSocket_reuses_or_replaces_witness :
    (firstSession.socket = some 0 ∧ isConnected firstSession 0 = false ∧
      SocketModule.init.socket = none ∧ onlyHeldIsOpen SocketModule.init) ∧
    ((initializeSocket firstSession "t2").2 = firstSession.sockets.length ∧
      (initializeSocket firstSession "t2").1.socket = some firstSession.sockets.length ∧
      (initializeSocket firstSession "t2").1.calls
        = firstSession.calls ++ [.disconnect 0, .io "t2", .on firstSession.sockets.length] ∧
      (initializeSocket firstSession "t2").1.sockets
        = updateSocket firstSession.sockets 0
            (fun s => { s with connected := false, active := false })
          ++ [{ token := "t2", connected := false, active := true }] ∧
      (initializeSocket firstSession "t2").1.reconnectAttempts
        = firstSession.reconnectAttempts) ∧
    initializeSocket SocketModule.init "t1"
      = ({ SocketModule.init with
            sockets := SocketModule.init.sockets
              ++ [{ token := "t1", connected := false, active := true }]
            socket := some SocketModule.init.sockets.length
            calls := SocketModule.init.calls ++ [.io "t1", .on SocketModule.init.sockets.length] },
         SocketModule.init.sockets.length) ∧
    onlyHeldIsOpen (initializeSocket SocketModule.init "t1").1 ∧
    (deliver firstSession 0 .connect).map (fun m => initializeSocket m "t2")
      = (deliver firstSession 0 .connect).map (fun m => (m, 0)) :=
  ⟨⟨rfl, rfl, rfl, fun k s hk _ => by simp [SocketModule.init] at hk⟩,
   (initializeSocket_reuses_or_replaces firstSession "t2").2.1 0 rfl rfl,
   (initializeSocket_reuses_or_replaces SocketModule.init "t1").2.2.1 rfl,
   (initializeSocket_reuses_or_replaces SocketModule.init "t1").2.2.2
     (fun k s hk _ => by simp [SocketModule.init] at hk),
   by decide⟩

/-- C19 at its failing input: after three connection errors `disconnectSocket()` drops
the socket and leaves the counter at 3. After ten errors (the cap) it leaves the counter
at 10, and the socket that a later `initializeSocket` creates is disconnected by the
handler at its first connection error. -/
theorem disconnectSocket_keeps_counter :
    (deliverAll firstSession 0 (List.replicate 3 .connectError)).map
        (fun m => (getSocket (disconnectSocket m), (disconnectSocket m).reconnectAttempts))
      = .ok (none, 3) ∧
    ((deliverAll firstSession 0 (List.replicate 10 .connectError)).bind
        (fun m => deliver (initializeSocket (disconnectSocket m) "t2").1 1 .connectError)).map
        (fun m => (m.reconnectAttempts, m.calls.getLast?, m.sockets[1]?.map (·.active)))
      = .ok (11, some (.disconnect 1), some false) := by
  decide

/-- C20: with the counter at zero and the held socket trying to connect, the handler of
`connect_error` makes no call on the library at any of the first nine consecutive errors
and calls `socket.disconnect()` at the tenth. The event `connect` sets the counter to
zero whatever it was. Once the cap is hit the socket is closed: whatever events follow,
the state stays as it is, so no handler calls `socket.connect()`. The handlers of
`connect` and `connect_error` never call it. -/
theorem reconnect_cap (m : SocketModule) (h : Nat) (s : ClientSocket) (n : Nat)
    (hheld : m.socket = some h) (hs : m.sockets[h]? = some s) (hact : s.active = true)
    (hconn : s.connected = false) (hzero : m.reconnectAttempts = 0) :
    (∀ k, k < MAX_RECONNECT_ATTEMPTS →
      deliverAll m h (List.replicate k .connectError)
        = .ok { m with reconnectAttempts := k }) ∧
    deliverAll m h (List.replicate MAX_RECONNECT_ATTEMPTS .connectError)
      = .ok (callDisconnect { m with reconnectAttempts := MAX_RECONNECT_ATTEMPTS } h) ∧
    (∀ events,
      deliverAll (callDisconnect { m with reconnectAttempts := MAX_RECONNECT_ATTEMPTS } h) h
          events
        = .ok (callDisconnect { m with reconnectAttempts := MAX_RECONNECT_ATTEMPTS } h)) ∧
    deliver { m with reconnectAttempts := n } h .connect
      = .ok { m with reconnectAttempts := 0
                     sockets := m.sockets.set h { s with connected := true } } ∧
    (connectHandler { m with reconnectAttempts := n }).calls = m.calls ∧
    (connectErrorHandler { m with reconnectAttempts := n }).map (·.calls)
      = .ok (if n + 1 ≥ MAX_RECONNECT_ATTEMPTS then m.calls ++ [.disconnect h] else m.calls) := by
  have hbelow : ∀ k, k < MAX_RECONNECT_ATTEMPTS →
      deliverAll m h (List.replicate k .connectError)
        = .ok { m with reconnectAttempts := k } := by
    intro k hk
    rw [errors_below_cap k m h s hs hact hconn (by omega), hzero, Nat.zero_add]
  refine ⟨hbelow, ?_, ?_, ?_, rfl, ?_⟩
  · have h9 := hbelow 9 (by decide)
    have hsplit : List.replicate MAX_RECONNECT_ATTEMPTS SocketEvent.connectError
        = List.replicate 9 .connectError ++ [.connectError] := by decide
    have happ : ∀ (es : List SocketEvent) (a b : SocketModule),
        deliverAll a h es = .ok b →
        deliverAll a h (es ++ [.connectError]) = deliver b h .connectError := by
      intro es
      induction es with
      | nil =>
        intro a b hab
        simp only [deliverAll] at hab
        injection hab with hab
        subst hab
        simp only [List.nil_append, deliverAll]
        cases deliver a h .connectError <;> rfl
      | cons e es ih =>
        intro a b hab
        simp only [deliverAll, List.cons_append] at hab ⊢
        cases hd : deliver a h e with
        | error err => rw [hd] at hab; cases hab
        | ok c =>
          rw [hd] at hab
          simp only at hab ⊢
          exact ih c b hab
    rw [hsplit, happ _ m _ h9]
    exact deliver_connectError_cap { m with reconnectAttempts := 9 } h s hheld hs hact hconn
      (by simp only [MAX_RECONNECT_ATTEMPTS]; omega)
  · intro events
    apply closed_socket_is_silent _ h { s with connected := false, active := false }
    · simp only [callDisconnect]
      exact getElem?_updateSocket_self _ _ s _ hs
    · rfl
    · rfl
  · simp only [deliver, hs, ClientSocket.canEmit, hact, hconn, Bool.not_false, Bool.and_self,
      if_true, connectHandler]
  · by_cases hn : n + 1 ≥ MAX_RECONNECT_ATTEMPTS
    · simp [connectErrorHandler, hn, hheld, callDisconnect, Except.map]
    · simp [connectErrorHandler, hn, Except.map]

/-- A concrete instance of `reconnect_cap`: the socket created by the first call of
`initializeSocket`. -/
theorem reconnect_cap_witness :
    (firstSession.socket = some 0 ∧
      firstSession.sockets[0]? = some { token := "t1", connected := false, active := true } ∧
      firstSession.reconnectAttempts = 0) ∧
    (deliverAll firstSession 0 (List.replicate 9 .connectError)
        = .ok { firstSession with reconnectAttempts := 9 } ∧
      deliverAll firstSession 0 (List.replicate MAX_RECONNECT_ATTEMPTS .connectError)
        = .ok (callDisconnect
            { firstSession with reconnectAttempts := MAX_RECONNECT_ATTEMPTS } 0) ∧
      deliverAll
          (callDisconnect { firstSession with reconnectAttempts := MAX_RECONNECT_ATTEMPTS } 0)
          0 [.connectError, .connect, .disconnect "io server disconnect"]
        = .ok (callDisconnect
            { firstSession with reconnectAttempts := MAX_RECONNECT_ATTEMPTS } 0)) :=
  ⟨⟨rfl, rfl, rfl⟩,
   (reconnect_cap firstSession 0 { token := "t1", connected := false, active := true } 4
      rfl rfl rfl rfl rfl).1 9 (by decide),
   (reconnect_cap firstSession 0 { token := "t1", connected := false, active := true } 4
      rfl rfl rfl rfl rfl).2.1,
   (reconnect_cap firstSession 0 { token := "t1", connected := false, active := true } 4
      rfl rfl rfl rfl rfl).2.2.1 _⟩

end Socket

/-! ## C21 -/

namespace Socket

theorem emitIfConnected_calls (m : SocketModule) (event : String) (payload : List String) :
    (emitIfConnected m event payload).calls =
      if holdsConnected m then m.calls ++ [.emit (m.socket.getD 0) event payload]
      else m.calls := by
  unfold emitIfConnected holdsConnected
  cases m.socket with
  | none => rfl
  | some h =>
    by_cases hc : isConnected m h = true
    · simp [hc]
    · simp [hc]

theorem emitIfConnected_rest (m : SocketModule) (event : String) (payload : List String) :
    { emitIfConnected m event payload with calls := m.calls } = m := by
  obtain ⟨sockets, socket, attempts, calls⟩ := m
  unfold emitIfConnected
  cases socket with
  | none => rfl
  | some h =>
    by_cases hc : isConnected ⟨sockets, some h, attempts, calls⟩ h = true
    · simp [hc]
    · simp [hc]

theorem deliver_connect_calls (m : SocketModule) (handle : Nat) :
    ∃ m1, deliver m handle .connect = .ok m1 ∧ m1.calls = m.calls ∧
      m1.socket = m.socket := by
  unfold deliver
  cases m.sockets[handle]? with
  | none => exact ⟨m, rfl, rfl, rfl⟩
  | some s =>
    by_cases hc : s.canEmit .connect = true
    · simp only [hc, if_true]
      exact ⟨_, rfl, rfl, rfl⟩
    · simp only [hc]
      exact ⟨m, rfl, rfl, rfl⟩

/-- C21, as the code has it: the `connect` handler makes no call on the library, so no
join is emitted on a connection or a reconnection, whatever rooms were joined before; and
`joinChatRoom(chatId)` emits one `joinChat` when the module holds a connected socket,
nothing otherwise, and changes nothing else in the module, which keeps no record of the
rooms joined; `leaveChatRoom(chatId)` does the same with `leaveChat`. -/
theorem connect_emits_no_join (m : SocketModule) (handle : Nat) (chatId : String) :
    (∃ m1, deliver m handle .connect = .ok m1 ∧ m1.calls = m.calls) ∧
    (joinChatRoom m chatId).calls =
      (if holdsConnected m then m.calls ++ [.emit (m.socket.getD 0) "joinChat" [chatId]]
       else m.calls) ∧
    { joinChatRoom m chatId with calls := m.calls } = m ∧
    (leaveChatRoom m chatId).calls =
      (if holdsConnected m then m.calls ++ [.emit (m.socket.getD 0) "leaveChat" [chatId]]
       else m.calls) ∧
    { leaveChatRoom m chatId with calls := m.calls } = m := by
  refine ⟨?_, emitIfConnected_calls m _ _, emitIfConnected_rest m _ _,
    emitIfConnected_calls m _ _, emitIfConnected_rest m _ _⟩
  obtain ⟨m1, h1, h2, _⟩ := deliver_connect_calls m handle
  exact ⟨m1, h1, h2⟩

/-- C21 refuted: room `c1` is joined on a connected socket, the connection is lost and
the library reconnects. The socket is connected again, and the only `joinChat` ever
emitted is the one of the call of `joinChatRoom` before the loss: the room is not joined
again. -/
theorem reconnect_does_not_rejoin :
    (deliverAll (joinChatRoom liveSession "c1") 0 [.disconnect "transport close", .connect]).map
        (fun m => (holdsConnected m, m.calls))
      = .ok (true, [.io "t1", .on 0, .emit 0 "joinChat" ["c1"]]) := by
  decide

end Socket

/-! ## C22 and C23 -/

namespace Socket

theorem holdsConnected_emitIfConnected (m : SocketModule) (event : String)
    (payload : List String) :
    holdsConnected (emitIfConnected m event payload) = holdsConnected m := by
  obtain ⟨sockets, socket, attempts, calls⟩ := m
  unfold emitIfConnected holdsConnected
  cases socket with
  | none => rfl
  | some h =>
    by_cases hc : isConnected ⟨sockets, some h, attempts, calls⟩ h = true
    · simp only [hc, if_true]
      simpa [isConnected] using hc
    · simp [hc]

theorem emitsOf_emitIfConnected (event : String) (m : SocketModule) (name : String)
    (payload : List String) :
    emitsOf event (emitIfConnected m name payload) =
      emitsOf event m ++
        (if holdsConnected m = true ∧ name = event then [payload] else []) := by
  unfold emitsOf
  rw [emitIfConnected_calls]
  by_cases hc : holdsConnected m = true
  · by_cases hn : name = event
    · simp [hc, hn, List.filterMap_append]
    · simp [hc, hn, List.filterMap_append]
  · simp [hc]

end Socket

theorem stopTimers_connected (ts : List Timeout) :
    ∀ m : Socket.SocketModule,
      Socket.holdsConnected
          (ts.foldl (fun m t => Socket.emitStopTyping m t.chatId t.userId) m) =
        Socket.holdsConnected m := by
  induction ts with
  | nil => intro m; rfl
  | cons t ts ih =>
    intro m
    rw [List.foldl_cons, ih]
    exact Socket.holdsConnected_emitIfConnected m _ _

theorem stopTimers_typing (ts : List Timeout) :
    ∀ m : Socket.SocketModule,
      Socket.emitsOf "typing"
          (ts.foldl (fun m t => Socket.emitStopTyping m t.chatId t.userId) m) =
        Socket.emitsOf "typing" m := by
  induction ts with
  | nil => intro m; rfl
  | cons t ts ih =>
    intro m
    rw [List.foldl_cons, ih]
    unfold Socket.emitStopTyping
    rw [Socket.emitsOf_emitIfConnected]
    simp

theorem typingChange_on (typingTimeout : Option Nat) (c u : String) (w : Window) :
    typingChange true (some c) typingTimeout u w =
      (some (w.lastHandle + 1),
       { clock := w.clock
         timers :=
           (match typingTimeout with
            | some h => w.timers.filter (fun t => decide (t.handle ≠ h))
            | none => w.timers) ++
             [{ handle := w.lastHandle + 1, due := w.clock + 1000, chatId := c, userId := u }]
         lastHandle := w.lastHandle + 1
         transport := Socket.emitTyping w.transport c u }) := by
  cases typingTimeout <;> rfl

theorem typingRun_typing (c u : String) (moments : List Nat) :
    ∀ s : Option Nat × Window, Socket.holdsConnected s.2.transport = true →
      Socket.emitsOf "typing" (typingRun true (some c) u s moments).2.transport =
        Socket.emitsOf "typing" s.2.transport ++ List.replicate moments.length [c, u] := by
  induction moments with
  | nil => intro s _; simp [typingRun]
  | cons t ts ih =>
    intro s hs
    have hadv : Socket.holdsConnected (advance s.2 t).transport = true := by
      simp only [advance]
      rw [stopTimers_connected]
      exact hs
    have hstep : Socket.holdsConnected
        (typingChange true (some c) s.1 u (advance s.2 t)).2.transport = true := by
      rw [typingChange_on]
      simp only [Socket.emitTyping]
      rw [Socket.holdsConnected_emitIfConnected]
      exact hadv
    have hemit : Socket.emitsOf "typing"
        (typingChange true (some c) s.1 u (advance s.2 t)).2.transport =
          Socket.emitsOf "typing" s.2.transport ++ [[c, u]] := by
      rw [typingChange_on]
      simp only [Socket.emitTyping]
      rw [Socket.emitsOf_emitIfConnected]
      simp only [hadv, and_self, if_true]
      simp only [advance]
      rw [stopTimers_typing]
    have := ih (typingChange true (some c) s.1 u (advance s.2 t)) hstep
    simp only [typingRun, List.foldl_cons] at this ⊢
    rw [this, hemit]
    simp [List.replicate_succ]

theorem typeAll_typing (userId : String) (changes : List (Nat × String)) :
    ∀ (st : ChatApp) (w : Window),
      (typeAll userId (st, w) changes).1.hasSocket = st.hasSocket ∧
      (typeAll userId (st, w) changes).1.selectedChat = st.selectedChat ∧
      ((typeAll userId (st, w) changes).1.typingTimeout, (typeAll userId (st, w) changes).2) =
        typingRun st.hasSocket (st.selectedChat.map (fun c => c._id)) userId
          (st.typingTimeout, w) (changes.map (fun change => change.1)) := by
  induction changes with
  | nil => intro st w; exact ⟨rfl, rfl, rfl⟩
  | cons change changes ih =>
    intro st w
    have h := ih (changeAt userId (st, w) change).1 (changeAt userId (st, w) change).2
    simp only [typeAll, List.foldl_cons, List.map_cons, typingRun] at h ⊢
    exact h

theorem dialog_typeAll_typing (userId : String) (changes : List (Nat × String)) :
    ∀ (st : ChatDialog) (w : Window),
      (ChatDialog.typeAll userId (st, w) changes).1.hasSocket = st.hasSocket ∧
      (ChatDialog.typeAll userId (st, w) changes).1.chatId = st.chatId ∧
      ((ChatDialog.typeAll userId (st, w) changes).1.typingTimeout,
          (ChatDialog.typeAll userId (st, w) changes).2) =
        typingRun st.hasSocket (if truthy st.chatId then st.chatId else none) userId
          (st.typingTimeout, w) (changes.map (fun change => change.1)) := by
  induction changes with
  | nil => intro st w; exact ⟨rfl, rfl, rfl⟩
  | cons change changes ih =>
    intro st w
    have h := ih (ChatDialog.changeAt userId (st, w) change).1
      (ChatDialog.changeAt userId (st, w) change).2
    simp only [ChatDialog.typeAll, List.foldl_cons, List.map_cons, typingRun] at h ⊢
    exact h

theorem truthy_some {c : String} (h : c ≠ "") : truthy (some c) = true := by
  simp [truthy, h]

/-- C22, as the code has it: every input change made with a socket and an open
conversation calls `emitTyping`, whatever the time since the change before it, so a
sequence of `n` input changes on a connected socket emits `n` start-typing events, in
`WhatsAppClone.jsx` and in `ChatDialog.jsx` alike. -/
theorem typing_emitted_on_every_change (st : ChatApp) (d : ChatDialog) (w : Window)
    (sel : Chat) (chatId userId : String) (changes : List (Nat × String))
    (hsock : st.hasSocket = true) (hsel : st.selectedChat = some sel)
    (hdsock : d.hasSocket = true) (hd : d.chatId = some chatId) (hne : chatId ≠ "")
    (hconn : Socket.holdsConnected w.transport = true) :
    Socket.emitsOf "typing" (typeAll userId (st, w) changes).2.transport =
      Socket.emitsOf "typing" w.transport ++ List.replicate changes.length [sel._id, userId] ∧
    Socket.emitsOf "typing" (ChatDialog.typeAll userId (d, w) changes).2.transport =
      Socket.emitsOf "typing" w.transport ++ List.replicate changes.length [chatId, userId] := by
  constructor
  · have h := (typeAll_typing userId changes st w).2.2
    have h2 := congrArg (fun p => Socket.emitsOf "typing" p.2.transport) h
    simp only [hsock, hsel, Option.map_some'] at h2
    rw [h2, typingRun_typing sel._id userId _ (st.typingTimeout, w) hconn]
    simp
  · have h := (dialog_typeAll_typing userId changes d w).2.2
    have h2 := congrArg (fun p => Socket.emitsOf "typing" p.2.transport) h
    simp only [hdsock, hd, truthy_some hne, if_true] at h2
    rw [h2, typingRun_typing chatId userId _ (d.typingTimeout, w) hconn]
    simp

theorem typing_emitted_on_every_change_witness :
    Socket.emitsOf "typing"
        (typeAll "me" (composing, livePage) [(0, "h"), (100, "hi"), (5000, "hi!")]).2.transport =
      Socket.emitsOf "typing" livePage.transport ++ List.replicate 3 ["c1", "me"] ∧
    Socket.emitsOf "typing"
        (ChatDialog.typeAll "me" (composingDialog, livePage)
          [(0, "h"), (100, "hi"), (5000, "hi!")]).2.transport =
      Socket.emitsOf "typing" livePage.transport ++ List.replicate 3 ["c1", "me"] :=
  typing_emitted_on_every_change composing composingDialog livePage plainChat "c1" "me"
    [(0, "h"), (100, "hi"), (5000, "hi!")] rfl rfl rfl rfl (by decide) (by decide)

/-- C22 refuted: two input changes 100 ms apart, one burst. Both components emit the
start-typing event twice. -/
theorem typing_emitted_twice_in_one_burst :
    Socket.emitsOf "typing"
        (typeAll "me" (composing, livePage) [(0, "h"), (100, "hi")]).2.transport =
      [["c1", "me"], ["c1", "me"]] ∧
    Socket.emitsOf "typing"
        (ChatDialog.typeAll "me" (composingDialog, livePage) [(0, "h"), (100, "hi")]).2.transport =
      [["c1", "me"], ["c1", "me"]] := by
  decide

theorem stopTimers_stops (ts : List Timeout) :
    ∀ m : Socket.SocketModule, Socket.holdsConnected m = true →
      Socket.emitsOf "stopTyping"
          (ts.foldl (fun m t => Socket.emitStopTyping m t.chatId t.userId) m) =
        Socket.emitsOf "stopTyping" m ++ ts.map (fun t => [t.chatId, t.userId]) := by
  induction ts with
  | nil => intro m _; simp
  | cons t ts ih =>
    intro m hm
    have hc : Socket.holdsConnected (Socket.emitStopTyping m t.chatId t.userId) = true := by
      unfold Socket.emitStopTyping
      rw [Socket.holdsConnected_emitIfConnected]
      exact hm
    rw [List.foldl_cons, ih _ hc]
    unfold Socket.emitStopTyping
    rw [Socket.emitsOf_emitIfConnected]
    simp [hm]

theorem typingChange_stops (typingTimeout : Option Nat) (c u : String) (w : Window) :
    Socket.emitsOf "stopTyping" (typingChange true (some c) typingTimeout u w).2.transport =
      Socket.emitsOf "stopTyping" w.transport ∧
    Socket.holdsConnected (typingChange true (some c) typingTimeout u w).2.transport =
      Socket.holdsConnected w.transport := by
  rw [typingChange_on]
  simp only [Socket.emitTyping]
  rw [Socket.emitsOf_emitIfConnected, Socket.holdsConnected_emitIfConnected]
  simp

theorem first_change_arms (c u : String) (s : Option Nat × Window) (t : Nat)
    (hidle : s.2.timers = []) (hclock : s.2.clock ≤ t) :
    Armed c u t (typingChange true (some c) s.1 u (advance s.2 t)) ∧
    Socket.emitsOf "stopTyping" (typingChange true (some c) s.1 u (advance s.2 t)).2.transport =
      Socket.emitsOf "stopTyping" s.2.transport ∧
    Socket.holdsConnected (typingChange true (some c) s.1 u (advance s.2 t)).2.transport =
      Socket.holdsConnected s.2.transport := by
  have hadv : advance s.2 t = { s.2 with clock := t } := by
    simp [advance, hidle, hclock]
  refine ⟨?_, ?_, ?_⟩
  · rw [typingChange_on, hadv]
    refine ⟨rfl, ?_, rfl⟩
    cases s.1 <;> simp [hidle]
  · rw [(typingChange_stops _ c u _).1, hadv]
  · rw [(typingChange_stops _ c u _).2, hadv]

theorem next_change_rearms (c u : String) (s : Option Nat × Window) (t t2 : Nat)
    (harmed : Armed c u t s) (hle : t ≤ t2) (hlt : t2 < t + 1000) :
    Armed c u t2 (typingChange true (some c) s.1 u (advance s.2 t2)) ∧
    Socket.emitsOf "stopTyping" (typingChange true (some c) s.1 u (advance s.2 t2)).2.transport =
      Socket.emitsOf "stopTyping" s.2.transport ∧
    Socket.holdsConnected (typingChange true (some c) s.1 u (advance s.2 t2)).2.transport =
      Socket.holdsConnected s.2.transport := by
  obtain ⟨h1, h2, h3⟩ := harmed
  have hadv : advance s.2 t2 = { s.2 with clock := t2 } := by
    have hnot : ¬ t + 1000 ≤ t2 := by omega
    simp [advance, h2, h3, hle, hnot, hlt]
  refine ⟨?_, ?_, ?_⟩
  · rw [typingChange_on, hadv, h1]
    refine ⟨rfl, ?_, rfl⟩
    simp [h2]
  · rw [(typingChange_stops _ c u _).1, hadv]
  · rw [(typingChange_stops _ c u _).2, hadv]

theorem burst_stays_armed (c u : String) (rest : List Nat) :
    ∀ (t : Nat) (s : Option Nat × Window), Armed c u t s → isBurst t rest = true →
      Armed c u (rest.getLastD t) (typingRun true (some c) u s rest) ∧
      Socket.emitsOf "stopTyping" (typingRun true (some c) u s rest).2.transport =
        Socket.emitsOf "stopTyping" s.2.transport ∧
      Socket.holdsConnected (typingRun true (some c) u s rest).2.transport =
        Socket.holdsConnected s.2.transport := by
  induction rest with
  | nil => intro t s h _; exact ⟨h, rfl, rfl⟩
  | cons t2 rest ih =>
    intro t s harmed hburst
    simp only [isBurst, Bool.and_eq_true, decide_eq_true_eq] at hburst
    obtain ⟨⟨hle, hlt⟩, hrest⟩ := hburst
    obtain ⟨ha, hs, hc⟩ := next_change_rearms c u s t t2 harmed hle hlt
    obtain ⟨ha2, hs2, hc2⟩ := ih t2 _ ha hrest
    simp only [typingRun, List.foldl_cons] at ha2 hs2 hc2 ⊢
    refine ⟨?_, hs2.trans hs, hc2.trans hc⟩
    have hlast : (t2 :: rest).getLastD t = rest.getLastD t2 := by
      cases rest <;> simp [List.getLastD]
    rw [hlast]
    exact ha2

theorem armed_advance (c u : String) (t T : Nat) (s : Option Nat × Window)
    (harmed : Armed c u t s) (hconn : Socket.holdsConnected s.2.transport = true) :
    Socket.emitsOf "stopTyping" (advance s.2 T).transport =
      Socket.emitsOf "stopTyping" s.2.transport ++ (if t + 1000 ≤ T then [[c, u]] else []) := by
  obtain ⟨_, h2, _⟩ := harmed
  by_cases hT : t + 1000 ≤ T
  · simp only [advance, h2, hT, List.filter_cons, decide_True, if_true, List.filter_nil]
    rw [stopTimers_stops _ _ hconn]
    simp
  · simp [advance, h2, hT]

theorem burst_stops_once (c u : String) (s : Option Nat × Window) (first : Nat)
    (rest : List Nat) (T : Nat) (hidle : s.2.timers = []) (hclock : s.2.clock ≤ first)
    (hconn : Socket.holdsConnected s.2.transport = true) (hburst : isBurst first rest = true) :
    Socket.emitsOf "stopTyping"
        (advance (typingRun true (some c) u s (first :: rest)).2 T).transport =
      Socket.emitsOf "stopTyping" s.2.transport ++
        (if rest.getLastD first + 1000 ≤ T then [[c, u]] else []) ∧
    (typingRun true (some c) u s (first :: rest)).2.timers.map (fun t => t.due) =
      [rest.getLastD first + 1000] := by
  obtain ⟨ha, hs, hc⟩ := first_change_arms c u s first hidle hclock
  obtain ⟨ha2, hs2, hc2⟩ := burst_stays_armed c u rest first _ ha hburst
  simp only [typingRun, List.foldl_cons] at ha2 hs2 hc2 ⊢
  constructor
  · rw [armed_advance c u _ T _ ha2 (by rw [hc2, hc]; exact hconn), hs2, hs]
  · rw [ha2.2.1]
    rfl

/-- C23: a burst of input changes, the first at `first.1` and each of the others less than
one second after the one before it, made with a socket, an open conversation and a
connected transport, from a page with no timer pending. When the burst is over exactly one
timer is pending, due one second after the last input change (each change has cleared the
timer of the one before it); and once time has passed until `T`, the burst has caused
exactly one stop-typing emission if `T` is at least one second after the last input
change, and none before that. The same holds in `WhatsAppClone.jsx` and in
`ChatDialog.jsx`. -/
theorem stop_typing_once_after_burst (st : ChatApp) (d : ChatDialog) (w : Window)
    (sel : Chat) (chatId userId : String) (first : Nat × String) (rest : List (Nat × String))
    (T : Nat)
    (hsock : st.hasSocket = true) (hsel : st.selectedChat = some sel)
    (hdsock : d.hasSocket = true) (hd : d.chatId = some chatId) (hne : chatId ≠ "")
    (hconn : Socket.holdsConnected w.transport = true)
    (hidle : w.timers = []) (hclock : w.clock ≤ first.1)
    (hburst : isBurst first.1 (rest.map (fun change => change.1)) = true) :
    (Socket.emitsOf "stopTyping" (advance (typeAll userId (st, w) (first :: rest)).2 T).transport =
        Socket.emitsOf "stopTyping" w.transport ++
          (if (rest.map (fun change => change.1)).getLastD first.1 + 1000 ≤ T
            then [[sel._id, userId]] else []) ∧
      (typeAll userId (st, w) (first :: rest)).2.timers.map (fun t => t.due) =
        [(rest.map (fun change => change.1)).getLastD first.1 + 1000]) ∧
    (Socket.emitsOf "stopTyping"
          (advance (ChatDialog.typeAll userId (d, w) (first :: rest)).2 T).transport =
        Socket.emitsOf "stopTyping" w.transport ++
          (if (rest.map (fun change => change.1)).getLastD first.1 + 1000 ≤ T
            then [[chatId, userId]] else []) ∧
      (ChatDialog.typeAll userId (d, w) (first :: rest)).2.timers.map (fun t => t.due) =
        [(rest.map (fun change => change.1)).getLastD first.1 + 1000]) := by
  constructor
  · have h := (typeAll_typing userId (first :: rest) st w).2.2
    have hw := congrArg (fun p => p.2) h
    simp only [hsock, hsel, Option.map_some', List.map_cons] at hw
    rw [hw]
    exact burst_stops_once sel._id userId (st.typingTimeout, w) first.1 _ T hidle hclock hconn
      hburst
  · have h := (dialog_typeAll_typing userId (first :: rest) d w).2.2
    have hw := congrArg (fun p => p.2) h
    simp only [hdsock, hd, truthy_some hne, if_true, List.map_cons] at hw
    rw [hw]
    exact burst_stops_once chatId userId (d.typingTimeout, w) first.1 _ T hidle hclock hconn
      hburst

theorem stop_typing_once_after_burst_witness :
    isBurst 0 [400, 900] = true ∧
    (Socket.emitsOf "stopTyping"
        (advance (typeAll "me" (composing, livePage) [(0, "h"), (400, "he"), (900, "hey")]).2
          1900).transport = [["c1", "me"]] ∧
      (typeAll "me" (composing, livePage) [(0, "h"), (400, "he"), (900, "hey")]).2.timers.map
        (fun t => t.due) = [1900]) ∧
    (Socket.emitsOf "stopTyping"
        (advance
          (ChatDialog.typeAll "me" (composingDialog, livePage)
            [(0, "h"), (400, "he"), (900, "hey")]).2 1900).transport = [["c1", "me"]] ∧
      (ChatDialog.typeAll "me" (composingDialog, livePage)
        [(0, "h"), (400, "he"), (900, "hey")]).2.timers.map (fun t => t.due) = [1900]) :=
  ⟨by decide,
   stop_typing_once_after_burst composing composingDialog livePage plainChat "c1" "me" (0, "h")
    [(400, "he"), (900, "hey")] 1900 rfl rfl rfl rfl (by decide) (by decide) rfl (by decide)
    (by decide)⟩

/-! ## C24 -/

theorem mem_setAdd (s : List String) (u v : String) : v ∈ setAdd s u ↔ v = u ∨ v ∈ s := by
  unfold setAdd
  by_cases h : u ∈ s
  · simp only [h, if_true]
    constructor
    · exact Or.inr
    · rintro (rfl | hv)
      · exact h
      · exact hv
  · simp only [h, if_false, List.mem_append, List.mem_singleton]
    exact or_comm

theorem mem_setDelete (s : List String) (u v : String) :
    v ∈ setDelete s u ↔ v ≠ u ∧ v ∈ s := by
  simp [setDelete, and_comm]

theorem setAdd_idem (s : List String) (u : String) : setAdd (setAdd s u) u = setAdd s u := by
  have h : u ∈ setAdd s u := (mem_setAdd s u u).2 (Or.inl rfl)
  show (if u ∈ setAdd s u then setAdd s u else setAdd s u ++ [u]) = setAdd s u
  rw [if_pos h]

theorem setDelete_idem (s : List String) (u : String) :
    setDelete (setDelete s u) u = setDelete s u := by
  simp [setDelete, List.filter_filter]

theorem userTypingListeners_fold (u c : String) (L : List String) :
    ∀ st : ChatApp,
      L.foldl (fun s selected => userTypingListener selected s u c) st =
        if c ∈ L then { st with typingUsers := setAdd st.typingUsers u } else st := by
  induction L with
  | nil => intro st; simp
  | cons sel L ih =>
    intro st
    rw [List.foldl_cons, ih]
    by_cases hs : sel = c
    · subst hs
      simp only [userTypingListener, if_true, List.mem_cons, true_or, setAdd_idem]
      split <;> rfl
    · have hc : ¬ c = sel := fun h => hs h.symm
      simp only [userTypingListener, hs, if_false, List.mem_cons, hc, false_or]

theorem stoppedListeners_fold (u c : String) (L : List String) :
    ∀ st : ChatApp,
      L.foldl (fun s selected => userStoppedTypingListener selected s u c) st =
        if c ∈ L then { st with typingUsers := setDelete st.typingUsers u } else st := by
  induction L with
  | nil => intro st; simp
  | cons sel L ih =>
    intro st
    rw [List.foldl_cons, ih]
    by_cases hs : sel = c
    · subst hs
      simp only [userStoppedTypingListener, if_true, List.mem_cons, true_or, setDelete_idem]
      split <;> rfl
    · have hc : ¬ c = sel := fun h => hs h.symm
      simp only [userStoppedTypingListener, hs, if_false, List.mem_cons, hc, false_or]

theorem onUserTyping_eq (st : ChatApp) (u c : String) :
    onUserTyping st u c =
      if c ∈ st.effectRuns then { st with typingUsers := setAdd st.typingUsers u }
      else st :=
  userTypingListeners_fold u c st.effectRuns st

theorem onUserStoppedTyping_eq (st : ChatApp) (u c : String) :
    onUserStoppedTyping st u c =
      if c ∈ st.effectRuns then { st with typingUsers := setDelete st.typingUsers u }
      else st :=
  stoppedListeners_fold u c st.effectRuns st

theorem select_keeps_typingUsers (st : ChatApp) (chat : Chat) :
    (applyTyping st (.select chat)).typingUsers = st.typingUsers := by
  simp only [applyTyping, socketEffect, handleSelectChat_start]
  cases st.hasSocket <;> rfl

theorem select_listeners (st : ChatApp) (chat : Chat) (l : String)
    (h : l ∈ (applyTyping st (.select chat)).effectRuns) :
    l ∈ st.effectRuns ∨ l = chat._id := by
  simp only [applyTyping, socketEffect, handleSelectChat_start] at h
  cases hs : st.hasSocket with
  | false => rw [hs] at h; exact Or.inl h
  | true =>
    rw [hs] at h
    simpa using h

theorem select_listeners_mono (st : ChatApp) (chat : Chat) (l : String)
    (h : l ∈ st.effectRuns) : l ∈ (applyTyping st (.select chat)).effectRuns := by
  simp only [applyTyping, socketEffect, handleSelectChat_start]
  cases st.hasSocket with
  | false => exact h
  | true => simp [h]

theorem typing_set_single_conversation (chatId v : String) (events : List TypingEvent) :
    ∀ st : ChatApp, chatId ∈ st.effectRuns →
      (∀ l ∈ st.effectRuns, l = chatId) → onlyOpens chatId events = true →
      (v ∈ (applyTypings st events).typingUsers ↔
        lastWasStart chatId v (decide (v ∈ st.typingUsers)) events = true) := by
  induction events with
  | nil => intro st _ _ _; simp [applyTypings, lastWasStart]
  | cons e events ih =>
    intro st hin hall hopen
    simp only [applyTypings, List.foldl_cons] at ih ⊢
    cases e with
    | typing u c =>
      simp only [onlyOpens] at hopen
      have hl : (applyTyping st (.typing u c)).effectRuns = st.effectRuns := by
        simp only [applyTyping, onUserTyping_eq]; split <;> rfl
      rw [ih _ (by rw [hl]; exact hin) (by rw [hl]; exact hall) hopen]
      simp only [lastWasStart]
      have hb : decide (v ∈ (applyTyping st (.typing u c)).typingUsers) =
          (if u = v ∧ c = chatId then true else decide (v ∈ st.typingUsers)) := by
        simp only [applyTyping, onUserTyping_eq]
        by_cases hc : c = chatId
        · subst hc
          simp only [hin, if_true, and_true]
          by_cases hu : u = v
          · simp [hu, mem_setAdd]
          · have hvu : ¬ v = u := fun h => hu h.symm
            simp [hu, hvu, mem_setAdd]
        · have hnot : c ∉ st.effectRuns := fun h => hc (hall c h)
          simp [hnot, hc]
      rw [hb]
    | stopped u c =>
      simp only [onlyOpens] at hopen
      have hl : (applyTyping st (.stopped u c)).effectRuns = st.effectRuns := by
        simp only [applyTyping, onUserStoppedTyping_eq]; split <;> rfl
      rw [ih _ (by rw [hl]; exact hin) (by rw [hl]; exact hall) hopen]
      simp only [lastWasStart]
      have hb : decide (v ∈ (applyTyping st (.stopped u c)).typingUsers) =
          (if u = v ∧ c = chatId then false else decide (v ∈ st.typingUsers)) := by
        simp only [applyTyping, onUserStoppedTyping_eq]
        by_cases hc : c = chatId
        · subst hc
          simp only [hin, if_true, and_true]
          by_cases hu : u = v
          · simp [hu, mem_setDelete]
          · have hvu : ¬ v = u := fun h => hu h.symm
            simp [hu, hvu, mem_setDelete]
        · have hnot : c ∉ st.effectRuns := fun h => hc (hall c h)
          simp [hnot, hc]
      rw [hb]
    | select chat =>
      simp only [onlyOpens, Bool.and_eq_true, decide_eq_true_eq] at hopen
      rw [ih _ (select_listeners_mono st chat _ hin)
        (fun l hl => (select_listeners st chat l hl).elim (hall l) (fun h => h.trans hopen.1))
        hopen.2]
      simp only [lastWasStart, select_keeps_typingUsers]

theorem select_effectRuns (st : ChatApp) (chat : Chat) (h : st.hasSocket = true) :
    (applyTyping st (.select chat)).effectRuns = st.effectRuns ++ [chat._id] := by
  simp only [applyTyping, socketEffect, handleSelectChat_start, h]

/-- C24, as the code has it: the component keeps one typing set, not one for each
conversation, and opening a conversation leaves the set as it is. With a socket, a typing
event for the conversation just opened adds its user to the set and a stop event for it
removes the user. In a component in which no conversation has been opened before, once
`chat` is opened and after any sequence of typing events and re-openings of `chat`, a user
is in the set exactly when the user's most recent typing event for `chat` was a start (or,
without such an event, when the user was in the set before). -/
theorem typing_set_is_one_for_all_chats (st : ChatApp) (chat : Chat) (u v : String)
    (events : List TypingEvent) :
    (applyTyping st (.select chat)).typingUsers = st.typingUsers ∧
    (st.hasSocket = true →
      (v ∈ (onUserTyping (applyTyping st (.select chat)) u chat._id).typingUsers ↔
        v = u ∨ v ∈ st.typingUsers) ∧
      (v ∈ (onUserStoppedTyping (applyTyping st (.select chat)) u chat._id).typingUsers ↔
        v ≠ u ∧ v ∈ st.typingUsers)) ∧
    (st.hasSocket = true → st.effectRuns = [] → onlyOpens chat._id events = true →
      (v ∈ (applyTypings st (.select chat :: events)).typingUsers ↔
        lastWasStart chat._id v (decide (v ∈ st.typingUsers)) events = true)) := by
  refine ⟨select_keeps_typingUsers st chat, ?_, ?_⟩
  · intro hs
    have hin : chat._id ∈ (applyTyping st (.select chat)).effectRuns := by
      rw [select_effectRuns st chat hs]; simp
    have hk := select_keeps_typingUsers st chat
    rw [onUserTyping_eq, onUserStoppedTyping_eq, ← hk]
    simp only [hin, if_true]
    exact ⟨mem_setAdd _ _ _, mem_setDelete _ _ _⟩
  · intro hs hnil hopen
    have hrun := select_effectRuns st chat hs
    rw [hnil, List.nil_append] at hrun
    have h := typing_set_single_conversation chat._id v events (applyTyping st (.select chat))
      (by rw [hrun]; simp) (by rw [hrun]; simp) hopen
    rw [select_keeps_typingUsers] at h
    simpa only [applyTypings, List.foldl_cons] using h

theorem typing_set_is_one_for_all_chats_witness :
    mounted.hasSocket = true ∧ mounted.effectRuns = [] ∧
    (("u2" ∈ (onUserTyping (applyTyping mounted (.select chatA)) "u1" "A").typingUsers ↔
        "u2" = "u1" ∨ "u2" ∈ mounted.typingUsers) ∧
      ("u2" ∈ (onUserStoppedTyping (applyTyping mounted (.select chatA)) "u1" "A").typingUsers ↔
        "u2" ≠ "u1" ∧ "u2" ∈ mounted.typingUsers)) ∧
    ("u2" ∈ (applyTypings mounted
          [.select chatA, .typing "u1" "A", .typing "u2" "A", .stopped "u1" "A",
            .typing "u3" "B", .select chatA]).typingUsers ↔
      lastWasStart "A" "u2" (decide ("u2" ∈ mounted.typingUsers))
          [.typing "u1" "A", .typing "u2" "A", .stopped "u1" "A", .typing "u3" "B",
            .select chatA] = true) :=
  ⟨rfl, rfl,
   (typing_set_is_one_for_all_chats mounted chatA "u1" "u2" []).2.1 rfl,
   (typing_set_is_one_for_all_chats mounted chatA "u1" "u2"
      [.typing "u1" "A", .typing "u2" "A", .stopped "u1" "A", .typing "u3" "B",
        .select chatA]).2.2 rfl rfl (by decide)⟩

/-- C24 refuted: conversation `A` is opened, user `u1` starts typing in `A`, conversation
`B` is opened. `B` is now open and the typing set still holds `u1`, who has sent no typing
event for `B`. -/
theorem typing_user_survives_switch :
    ((applyTypings mounted [.select chatA, .typing "u1" "A", .select chatB]).selectedChat,
      (applyTypings mounted [.select chatA, .typing "u1" "A", .select chatB]).typingUsers,
      lastWasStart "B" "u1" false [.select chatA, .typing "u1" "A", .select chatB])
      = (some chatB, ["u1"], false) := by
  decide

/-! ## C25 -/

theorem withStatus_hasId (userId status : String) (p : Participant) (id : String) :
    (withStatus userId status p).hasId id = p.hasId id := by
  cases p with
  | str s => rfl
  | obj o =>
    by_cases h : o._id = some userId <;> simp [withStatus, h, Participant.hasId]

theorem withStatus_details (userId status : String) (p : Participant) :
    detailsOfParticipant (withStatus userId status p) = detailsOfParticipant p := by
  cases p with
  | str s => rfl
  | obj o =>
    by_cases h : o._id = some userId <;> simp [withStatus, h, detailsOfParticipant]

theorem find?_withStatus (userId status : String) (pred : Participant → Bool)
    (hpred : ∀ p, pred (withStatus userId status p) = pred p) (ps : List Participant) :
    ((ps.map (withStatus userId status)).find? pred).bind detailsOfParticipant =
      (ps.find? pred).bind detailsOfParticipant := by
  induction ps with
  | nil => rfl
  | cons p ps ih =>
    simp only [List.map_cons, List.find?_cons, hpred]
    cases pred p with
    | true => simp [withStatus_details]
    | false => simpa using ih

theorem statusChange_keeps_details (userId status : String) (chat : Chat)
    (participants : List Participant) (currentUserId : String) :
    getParticipantDetails
        (some { chat with participants := some (participants.map (withStatus userId status)) })
        currentUserId =
      getParticipantDetails (some { chat with participants := some participants })
        currentUserId := by
  simp only [getParticipantDetails, Option.getD_some]
  rw [find?_withStatus userId status (fun p => p.hasId currentUserId)
      (fun p => withStatus_hasId userId status p currentUserId),
    find?_withStatus userId status (fun p => !p.hasId currentUserId)
      (fun p => by simp only [withStatus_hasId])]

theorem statusChange_is_not_shown (userId status currentUserId : String) :
    ∀ (prevChats chats : List Chat), statusChangeInList prevChats userId status = .ok chats →
      chats.map (fun c => getParticipantDetails (some c) currentUserId) =
        prevChats.map (fun c => getParticipantDetails (some c) currentUserId) := by
  intro prevChats
  induction prevChats with
  | nil =>
    intro chats h
    simp only [statusChangeInList, jsMap] at h
    cases h
    rfl
  | cons c cs ih =>
    intro chats h
    simp only [statusChangeInList, jsMap] at h
    cases hp : c.participants with
    | none => simp [hp] at h
    | some ps =>
      simp only [hp] at h
      cases hrest : statusChangeInList cs userId status with
      | error e =>
        simp only [statusChangeInList] at hrest
        simp [hrest] at h
      | ok rest =>
        have hrest2 := hrest
        simp only [statusChangeInList] at hrest
        simp only [hrest] at h
        cases h
        simp only [List.map_cons, ih rest hrest2]
        congr 1
        have hc : c = { c with participants := some ps } := by
          cases c; simp_all
        rw [statusChange_keeps_details]
        rw [← hc]

/-- C25 at its failing input: two conversations of `me` and `u2` are loaded, one that
carries only `participants` and one that carries `participantDetails` as well, and `u2` is
offline in both. The event `userStatusChange` for `u2` with status `online` is handled
without an exception and writes `onlineStatus` in `participants`; the presence resolved
for `u2` by `getParticipantDetails` is still `offline` in both conversations, because the
function reads `isOnline` there and `onlineStatus` only in `participantDetails`. -/
theorem status_change_leaves_presence :
    (onUserStatusChange presenceApp "u2" "online").map
        (fun st => st.chatList.map (fun c => shownPresence c "me"))
      = .ok [some "offline", some "offline"] ∧
    (onUserStatusChange presenceApp "u2" "online").map
        (fun st => st.chatList.map (fun c => c.participants))
      = .ok [some [mkParticipant "me" "Me" true,
                .obj { _id := some "u2", name := some "Bob", avatar := none, isOnline := false,
                       onlineStatus := some "online" }],
             some [mkParticipant "me" "Me" true,
                .obj { _id := some "u2", name := some "Bob", avatar := none, isOnline := false,
                       onlineStatus := some "online" }]] := by
  decide

/-! ## C26 -/

theorem chatInput_never_sends (files : List FileItem) :
    (ChatInput.handleFileSelect files).requests = [] ∧
    (ChatInput.handleFileSelect files).delivered = [] := by
  unfold ChatInput.handleFileSelect
  split
  · exact ⟨rfl, rfl⟩
  · split <;> exact ⟨rfl, rfl⟩

theorem chatInput_rejects_oversized (files : List FileItem)
    (hbig : ∃ file ∈ files, file.size > 5 * 1024 * 1024) :
    ∃ file ∈ files, file.size > 5 * 1024 * 1024 ∧
      ChatInput.handleFileSelect files =
        { requests := [], delivered := [],
          caught := [.sizeError
            ("File " ++ file.name ++ " is too large. Maximum size is 5MB.")] } := by
  obtain ⟨file, hmem, hsize⟩ := hbig
  have hne : files.isEmpty = false := by
    cases files with
    | nil => simp at hmem
    | cons _ _ => rfl
  unfold ChatInput.handleFileSelect
  simp only [hne, Bool.false_eq_true, if_false]
  cases hfind : files.find? (fun file => decide (file.size > 5 * 1024 * 1024)) with
  | some f =>
    have hf := List.find?_some hfind
    simp only [decide_eq_true_eq] at hf
    exact ⟨f, List.mem_of_find?_eq_some hfind, hf, rfl⟩
  | none =>
    rw [List.find?_eq_none] at hfind
    have := hfind file hmem
    simp only [decide_eq_true_eq] at this
    exact absurd hsize this

theorem chatInput_within_ceiling (files : List FileItem) (hne : files ≠ [])
    (hsmall : ∀ file ∈ files, file.size ≤ 5 * 1024 * 1024) :
    ChatInput.handleFileSelect files =
      { requests := [], delivered := [], caught := [.jsError .typeError] } := by
  have hne2 : files.isEmpty = false := by
    cases files with
    | nil => exact absurd rfl hne
    | cons _ _ => rfl
  have hfind : files.find? (fun file => decide (file.size > 5 * 1024 * 1024)) = none := by
    rw [List.find?_eq_none]
    intro file hmem
    have := hsmall file hmem
    simp only [decide_eq_true_eq]
    omega
  unfold ChatInput.handleFileSelect
  simp only [hne2, Bool.false_eq_true, if_false, hfind]

/-- C26 at its failing input: one file of 5 MB and one byte is chosen. In
`WhatsAppClone.jsx` (conversation `c1` open) and in `ChatDialog.jsx` the handler issues the
REST call with the file and, when the server answers, adds the message; nothing is
rejected. Only `ChatInput.jsx` has the size test: there the file is rejected with the size
error before any REST call, and a file of exactly 5 MB passes the test; the send that
follows throws on the unbound name `chats`, so that handler issues no REST call at all. -/
theorem oversized_file_is_sent :
    (handleFileSelect plainOpen [bigFile] (.ok uploadedMessage) "t").map
        (fun r => (r.1.messages, r.2))
      = .ok (plainOpen.messages ++ [uploadedMessage],
          [{ chatId := some "c1", field := "files", content := "Attachment",
             files := [bigFile] }]) ∧
    ((ChatDialog.handleFileUpload listedDialog [bigFile] (.ok uploadedMessage)).1.messages,
        (ChatDialog.handleFileUpload listedDialog [bigFile] (.ok uploadedMessage)).2)
      = (listedDialog.messages ++ [uploadedMessage],
          [{ chatId := some "c1", field := "files", content := "", files := [bigFile] }]) ∧
    ChatInput.handleFileSelect [bigFile]
      = { requests := [], delivered := [],
          caught := [.sizeError "File big.bin is too large. Maximum size is 5MB."] } ∧
    ChatInput.handleFileSelect [fullFile]
      = { requests := [], delivered := [], caught := [.jsError .typeError] } := by
  decide

/-! ## C27 -/

namespace NotificationProvider

theorem markAsRead_nonneg (st : NotificationProvider) (notificationId : String)
    (outcome : Except ApiError Unit) (h : 0 ≤ st.unreadCount) :
    0 ≤ (markAsRead st notificationId outcome).unreadCount := by
  cases outcome with
  | error e => exact h
  | ok u => exact le_max_left 0 _

theorem unreadIn_marked (notificationId : String) (notifications : List Notification) :
    unreadIn (notifications.map (fun n =>
        if n._id = notificationId then { n with read := true } else n)) +
      ((notifications.filter
        (fun n => decide (n._id = notificationId) && !n.read)).length : Int) =
      unreadIn notifications := by
  induction notifications with
  | nil => rfl
  | cons n ns ih =>
    unfold unreadIn at ih ⊢
    by_cases hid : n._id = notificationId
    · cases hr : n.read with
      | true =>
        simp only [List.map_cons, hid, if_true, List.filter_cons, Bool.not_true,
          Bool.false_eq_true, if_false, decide_True, Bool.true_and, hr]
        simpa [hid] using ih
      | false =>
        simp only [List.map_cons, hid, if_true, List.filter_cons, Bool.not_true,
          Bool.false_eq_true, if_false, decide_True, Bool.true_and, hr, Bool.not_false,
          List.length_cons, Nat.cast_add, Nat.cast_one]
        have := ih
        simp only [hid] at this
        omega
    · cases hr : n.read with
      | true =>
        simp only [List.map_cons, hid, if_false, List.filter_cons, hr, Bool.not_true,
          Bool.false_eq_true, decide_False, Bool.false_and]
        simpa using ih
      | false =>
        simp only [List.map_cons, hid, if_false, List.filter_cons, hr, Bool.not_false,
          if_true, decide_False, Bool.false_and, Bool.false_eq_true, List.length_cons,
          Nat.cast_add, Nat.cast_one]
        have := ih
        omega

theorem markAsRead_inStep_of_one_unread (st : NotificationProvider) (notificationId : String)
    (outcome : Except ApiError Unit) (h : st.inStep)
    (hone : (st.notifications.filter
      (fun n => decide (n._id = notificationId) && !n.read)).length = 1) :
    (markAsRead st notificationId outcome).inStep := by
  cases outcome with
  | error e => exact h
  | ok u =>
    unfold inStep at h ⊢
    have := unreadIn_marked notificationId st.notifications
    simp only [markAsRead]
    rw [hone] at this
    rw [h]
    have h2 : (0 : Int) ≤ unreadIn st.notifications - 1 := by
      simp only [Nat.cast_one] at this
      have h3 : (0 : Int) ≤ unreadIn (st.notifications.map (fun n =>
          if n._id = notificationId then { n with read := true } else n)) := by
        unfold unreadIn; exact Int.natCast_nonneg _
      omega
    rw [max_eq_right h2]
    simp only [Nat.cast_one] at this
    omega

/-- C27 at its failing input: the feed holds `n1`, read, and `n2`, unread, and the counter
is one, the number of unread notifications. A successful `markAsRead` of the read
notification `n1`, or of an id that is not in the list, takes the counter to zero while
`n2` is still unread: `markAsRead` subtracts one whatever the notification was. The
counter does stay non-negative. -/
theorem markAsRead_miscounts_read_notification :
    oneUnreadFeed.inStep ∧
    (markAsRead oneUnreadFeed "n1" (.ok ())).unreadCount = 0 ∧
    unreadIn (markAsRead oneUnreadFeed "n1" (.ok ())).notifications = 1 ∧
    (markAsRead oneUnreadFeed "n9" (.ok ())).unreadCount = 0 ∧
    unreadIn (markAsRead oneUnreadFeed "n9" (.ok ())).notifications = 1 ∧
    (markAsRead (markAsRead oneUnreadFeed "n1" (.ok ())) "n1" (.ok ())).unreadCount = 0 := by
  decide

end NotificationProvider

/-! ## C28 -/

theorem handleError_rejection (b : Browser) (error : AxiosError) :
    (handleError b error).2 =
      match error.response with
      | none => AxiosError.plain "Network error - please check your connection"
      | some _ => error := by
  unfold handleError
  cases error.response with
  | none => rfl
  | some r =>
    simp only
    split_ifs <;> rfl

/-- C28: `handleError` rejects an error that has no response with a new error whose
message is `Network error - please check your connection`, and an error that has a
response, whatever its status, with the error object itself, status included. The two
classes can always be told apart: the rejection has a response exactly when the error
had one. -/
theorem handleError_two_classes (b : Browser) (error : AxiosError) :
    (error.response = none →
      (handleError b error).2 =
        AxiosError.plain "Network error - please check your connection" ∧
      (handleError b error).2.message = "Network error - please check your connection") ∧
    (∀ response, error.response = some response →
      (handleError b error).2 = error ∧
      (handleError b error).2.read.status = some response.status) ∧
    ((handleError b error).2.response = none ↔ error.response = none) := by
  rw [handleError_rejection]
  refine ⟨?_, ?_, ?_⟩
  · intro h
    rw [h]
    exact ⟨rfl, rfl⟩
  · intro r h
    rw [h]
    simp only [AxiosError.read, h, Option.map_some', and_self]
  · cases h : error.response with
    | none => simp [AxiosError.plain]
    | some r => simp [h]

theorem handleError_two_classes_witness :
    ((handleError signedIn unanswered).2 =
        AxiosError.plain "Network error - please check your connection" ∧
      (handleError signedIn unanswered).2.message =
        "Network error - please check your connection") ∧
    ((handleError signedIn notFound).2 = notFound ∧
      (handleError signedIn notFound).2.read.status = some 404) :=
  ⟨(handleError_two_classes signedIn unanswered).1 rfl,
   (handleError_two_classes signedIn notFound).2.1 { status := 404, data := some "Chat not found" }
     rfl⟩

/-! ## C29 and C30 -/

theorem getMessageParticipantNames_congr (chat : Option Chat) {s t : Ref}
    (h : senderIdOf t = senderIdOf s) :
    getMessageParticipantNames chat t = getMessageParticipantNames chat s := by
  simp only [getMessageParticipantNames, h]

theorem displayOne_idem {chat : Option Chat} {m n : Message}
    (h : displayOne chat m = .ok n) : displayOne chat n = .ok n := by
  unfold displayOne at h
  cases hn : getMessageParticipantNames chat m.sender with
  | error e => rw [hn] at h; cases h
  | ok names =>
    obtain ⟨senderName, receiverName⟩ := names
    rw [hn] at h
    simp only at h
    cases hs : m.sender with
    | undef =>
      simp only [hs, Ref.isObject, Bool.false_eq_true, if_false] at h
      injection h with h
      subst h
      unfold displayOne
      rw [hs] at hn
      simp only [hs, hn, Ref.isObject, Bool.false_eq_true, if_false]
    | str x =>
      simp only [hs, Ref.isObject, Bool.false_eq_true, if_false] at h
      injection h with h
      subst h
      unfold displayOne
      rw [hs] at hn
      simp only [hs, hn, Ref.isObject, Bool.false_eq_true, if_false]
    | null =>
      simp only [hs, Ref.isObject, if_true] at h
      injection h with h
      subst h
      rw [hs] at hn
      have hno : noParticipantDetails chat = true := by
        by_contra hc
        simp only [getMessageParticipantNames, hc, senderIdOf] at hn
        cases hn
      have hnames : getMessageParticipantNames chat .null =
          .ok ("Unknown Sender", "Unknown Receiver") := by
        simp only [getMessageParticipantNames, hno, if_true]
      rw [hnames] at hn
      injection hn with hn
      injection hn with h1 h2
      subst h1
      unfold displayOne
      simp only [getMessageParticipantNames, hno, if_true, Ref.isObject, withName]
    | obj u =>
      simp only [hs, Ref.isObject, if_true] at h
      injection h with h
      subst h
      rw [hs] at hn
      have hid : senderIdOf (.obj { u with name := some senderName }) = senderIdOf (.obj u) :=
        rfl
      unfold displayOne
      simp only [Ref.isObject, if_true, withName]
      rw [getMessageParticipantNames_congr chat hid, hn]

theorem updateMessageDisplay_idem {chat : Option Chat} {ms ns : List Message}
    (h : updateMessageDisplay ms chat = .ok ns) : updateMessageDisplay ns chat = .ok ns := by
  unfold updateMessageDisplay at h ⊢
  split at h
  · injection h with h
    subst h
    rename_i hc
    rw [if_pos hc]
  · have hfix := jsMap_fixed (fun a b hab => displayOne_idem hab) h
    split
    · rfl
    · exact hfix

/-- C29 at its failing inputs: `updateMessageDisplay` throws on a message whose sender is
`null` when the chat has participant details, and on any message when a participant
detail of the chat has a `null` user; no list is returned. With participant details whose
users are plain ids it returns. -/
theorem updateMessageDisplay_throws :
    updateMessageDisplay [helloMessage, orphanMessage] (some aliceChat) = .error .typeError ∧
    updateMessageDisplay [helloMessage] (some (mkChat "c1" (some [mkDetail .null])))
      = .error .typeError ∧
    updateMessageDisplay [helloMessage] (some (mkChat "c1" (some [mkDetail (.str "u1")])))
      = .ok [{ helloMessage with senderName := some "Unknown Sender" }] := by
  decide

theorem updateChatListWithMessage_frame (chatList : List Chat) (message : Message)
    (chatId : String) (selectedChatId : Option String) (isNotification : Bool) (now : String)
    (r : List Chat)
    (h : updateChatListWithMessage chatList message chatId selectedChatId isNotification now
      = .ok r) :
    r.length = chatList.length ∧
    (((∀ c ∈ chatList, c._id ≠ chatId) ∧ r = chatList) ∨
      ∃ as chat bs updatedMessage, chatList = as ++ chat :: bs ∧ chat._id = chatId ∧
        (∀ a ∈ as, a._id ≠ chatId) ∧
        r = touched chat updatedMessage chatId selectedChatId isNotification now ::
          (as ++ bs)) := by
  by_cases hex : ∃ c ∈ chatList, c._id = chatId
  · obtain ⟨as, chat, bs, hl, hid, hno⟩ := exists_first_with_id chatId chatList hex
    subst hl
    rw [updateChatListWithMessage_at as bs chat message chatId selectedChatId isNotification
      now hid hno] at h
    cases hp : previewMessage chat message with
    | error e => rw [hp] at h; cases h
    | ok um =>
      rw [hp] at h
      injection h with h
      subst h
      refine ⟨by simp; omega, Or.inr ⟨as, chat, bs, um, rfl, hid, hno, rfl⟩⟩
  · have hno : ∀ c ∈ chatList, c._id ≠ chatId := fun c hc hid => hex ⟨c, hc, hid⟩
    rw [updateChatListWithMessage_absent chatList message chatId selectedChatId isNotification
      now hno] at h
    injection h with h
    subst h
    exact ⟨rfl, Or.inl ⟨hno, rfl⟩⟩

/-- C30 at its failing input: the list holds the conversations `A`, `c1` and `B`, and a
participant detail of `c1` has a `null` user. A message for `c1` makes
`updateChatListWithMessage` throw: it returns no list, neither of the same length nor with
`A` and `B` in it. -/
theorem updateChatListWithMessage_returns_no_list :
    updateChatListWithMessage mixedList helloMessage "c1" (some "A") false "t"
      = .error .typeError := by
  decide

end WorkZen
